import Mathlib

/-!
# The sd stack machine (src/sd.c)

A shallow embedding of the interpreter of src/sd.c and theorems about it.

Modelling conventions.

* Bytes are natural numbers (0..255).  Character constants of the source are
  written as their ASCII codes, with the character in a comment.
* `sd_integer_t` and `sd_ip_t` (both `int64_t`) are integers; arithmetic on them
  is reduced into the signed 64-bit range by `wrap64` (two's complement).
* `unsigned int` and `uint32_t` are naturals reduced modulo `2 ^ 32` (`uint_dec` is
  the wrapping decrement), `size_t` values are naturals.
* `malloc` of a stack entry, of the tables and of the print buffers is assumed to
  succeed.  The `realloc` of the result buffer is granted when the request is not
  0 bytes and is at most `heap` bytes, the limit of the host, which the buffer
  carries as a field; otherwise it returns `NULL` and `sd_result_grow` takes its
  `STAT_ERRMEM` return.
* A linked stack is the list of its entries, top entry first.
* Behaviour that C leaves undefined and that ends the process on the usual
  hosts (dereferencing `NULL`, division by zero, reading a code byte outside
  the memory the model knows) is the outcome `sd_flow.fault`.
-/

namespace Sd

/-! ## Machine integers -/

/-- Reduction of an integer into the range of `int64_t` (two's complement). -/
def wrap64 (x : Int) : Int := (x + 9223372036854775808) % 18446744073709551616 - 9223372036854775808

/-- Conversion of an `int64_t` to `size_t` (`uint64_t`), as the usual arithmetic
conversions do when the two are compared. -/
def toU64 (x : Int) : Nat := (x % 18446744073709551616).toNat

/-- The decrement `n -= 1` of an `unsigned int`: it wraps from 0 to `2 ^ 32 - 1`. -/
def uint_dec (n : Nat) : Nat := if n = 0 then 4294967295 else n - 1

/-- Membership in the range of `int64_t`. -/
def isI64 (x : Int) : Prop := -9223372036854775808 ≤ x ∧ x < 9223372036854775808

instance (x : Int) : Decidable (isI64 x) := by unfold isI64; infer_instance

/-! ## Values (sd.c lines 8-43) -/

/-- The enum `sd_status`. -/
inductive sd_status
  | STAT_OK
  | STAT_NOOP
  | STAT_HALT
  | STAT_ERROVERFLOW
  | STAT_ERRMEM
  | STAT_ERRSTATE
  | STAT_ERRTYPE
  | STAT_ERRSUBROUTINE
  deriving DecidableEq, Repr

/-- The enum `sd_value_type`. -/
inductive sd_value_type
  | VAL_INTEGER
  | VAL_SYMBOL
  | VAL_IP
  deriving DecidableEq, Repr

/-- The struct `sd_item`: a tag and the 64-bit cell of the union `sd_value`
(a symbol occupies it with its byte value). -/
structure sd_item where
  t : sd_value_type
  v : Int
  deriving DecidableEq, Repr

/-- The struct `sd_item_maybe`: `none` is `is_present = 0`. -/
abbrev sd_item_maybe := Option sd_item

/-! ## Operand stack (sd.c lines 45-167) -/

/-- The struct `sd_stack`: the `size` counter and the linked entries, top first
(`top` is the head, `bottom` the last element, `prev` leads towards the tail). -/
structure sd_stack where
  size : Nat
  ents : List sd_item
  deriving DecidableEq, Repr

/-- The function `sd_stack_init`. -/
def sd_stack_init : sd_stack := { size := 0, ents := [] }

/-- The function `sd_stack_push`: links the entry, increments the 32-bit counter and
reports `STAT_ERROVERFLOW` when the counter wrapped to 0. -/
def sd_stack_push (stack : sd_stack) (t : sd_value_type) (val : Int) : sd_status × sd_stack :=
  let stack1 : sd_stack := { size := (stack.size + 1) % 4294967296, ents := ⟨t, val⟩ :: stack.ents }
  if stack1.size = 0 then (sd_status.STAT_ERROVERFLOW, stack1) else (sd_status.STAT_OK, stack1)

/-- The function `sd_stack_pop`: unlinks the top entry and decrements the 32-bit counter. -/
def sd_stack_pop (stack : sd_stack) : sd_item_maybe × sd_stack :=
  match stack.ents with
  | [] => (none, stack)
  | item :: prev => (some item, { size := uint_dec stack.size, ents := prev })

/-- The function `sd_stack_peek`. -/
def sd_stack_peek (stack : sd_stack) : sd_item_maybe :=
  match stack.ents with
  | [] => none
  | item :: _ => some item

/-- The function `sd_stack_duplicate`. -/
def sd_stack_duplicate (stack : sd_stack) : sd_status × sd_stack :=
  match stack.ents with
  | [] => (sd_status.STAT_NOOP, stack)
  | item :: _ => sd_stack_push stack item.t item.v

/-- The `for` loop shared by `sd_stack_duplicate_at` and `sd_stack_replace_at`:
`ent` is the current entry, `nexts` the entries reached through `next`, `i` the
`unsigned int` counter, `k` the number of entries already passed.  The result is
the entry the loop stops at with its position from the bottom, or `none` when
`ent->next` was `NULL` (the `STAT_ERRSTATE` return inside the loop). -/
def sd_stack_walk (index : Int) : Nat → Nat → sd_item → List sd_item → Option (Nat × sd_item)
  | i, k, ent, nexts =>
    if (i : Int) = index then some (k, ent)
    else
      match nexts with
      | [] => none
      | n :: ns => sd_stack_walk index ((i + 1) % 4294967296) (k + 1) n ns

/-- The function `sd_stack_duplicate_at`.  The outer `none` is the dereference of
`stack->bottom == NULL` on an empty stack. -/
def sd_stack_duplicate_at (stack : sd_stack) (index : Int) : Option (sd_status × sd_stack) :=
  if index > (stack.size : Int) then some (sd_status.STAT_ERRSTATE, stack)
  else
    match stack.ents.reverse with
    | [] => none
    | bottom :: nexts =>
      match sd_stack_walk index 0 0 bottom nexts with
      | none => some (sd_status.STAT_ERRSTATE, stack)
      | some (_, ent) => some (sd_stack_push stack ent.t ent.v)

/-- The function `sd_stack_replace_at`.  The outer `none` is the dereference of
`stack->bottom == NULL` on an empty stack. -/
def sd_stack_replace_at (stack : sd_stack) (index : Int) (t : sd_value_type) (v : Int) :
    Option (sd_status × sd_stack) :=
  if index > (stack.size : Int) then some (sd_status.STAT_ERRSTATE, stack)
  else
    match stack.ents.reverse with
    | [] => none
    | bottom :: nexts =>
      match sd_stack_walk index 0 0 bottom nexts with
      | none => some (sd_status.STAT_ERRSTATE, stack)
      | some (k, _) =>
        some (sd_status.STAT_OK,
          { stack with ents := ((bottom :: nexts).set k ⟨t, v⟩).reverse })

/-! ## Subroutine table (sd.c lines 169-197) -/

/-- The struct `sd_subr_table`: the array `subroutines` (a function of the index)
and the 32-bit mask `has_subroutines_bitfield`. -/
structure sd_subr_table where
  subroutines : Nat → Int
  has_subroutines_bitfield : Nat

/-- The function `sd_subr_table_init`: only the mask is cleared, the array keeps
whatever the allocation held (`junk`). -/
def sd_subr_table_init (junk : Nat → Int) : sd_subr_table :=
  { subroutines := junk, has_subroutines_bitfield := 0 }

/-- The expression `symbol - 'A'` stored in an `unsigned char`. -/
def sd_subr_index (symbol : Nat) : Nat := (symbol + 256 - 65) % 256

/-- The function `sd_subr_table_set`. -/
def sd_subr_table_set (table : sd_subr_table) (symbol : Nat) (ip : Int) :
    sd_status × sd_subr_table :=
  let index := sd_subr_index symbol
  (sd_status.STAT_OK,
    { subroutines := fun i => if i = index then ip else table.subroutines i,
      has_subroutines_bitfield :=
        (table.has_subroutines_bitfield ||| (1 <<< index)) % 4294967296 })

/-- The function `sd_subr_table_get`. -/
def sd_subr_table_get (table : sd_subr_table) (symbol : Nat) : Int :=
  let index := sd_subr_index symbol
  if table.has_subroutines_bitfield &&& (1 <<< index) ≠ 0 then table.subroutines index
  else -1

/-! ## Call stack (sd.c lines 199-254) -/

/-- The struct `sd_call_stack`: the linked return addresses, top first. -/
structure sd_call_stack where
  ents : List Int
  deriving DecidableEq, Repr

/-- The function `sd_call_stack_init`. -/
def sd_call_stack_init : sd_call_stack := { ents := [] }

/-- The function `sd_call_stack_push`. -/
def sd_call_stack_push (stack : sd_call_stack) (ip : Int) : sd_status × sd_call_stack :=
  (sd_status.STAT_OK, { ents := ip :: stack.ents })

/-- The function `sd_call_stack_pop`. -/
def sd_call_stack_pop (stack : sd_call_stack) : Int × sd_call_stack :=
  match stack.ents with
  | [] => (-1, stack)
  | ip :: prev => (ip, { ents := prev })

/-! ## Result buffer (sd.c lines 256-361) -/

/-- The largest request, in bytes, that `realloc` grants on the host of the runs from
the initial state: 128 GiB.  The theorems about a single step hold for every limit. -/
def sd_heap_default : Nat := 137438953472

/-- The struct `sd_result`: `out` lists the `len` elements stored so far
(`len` is `out.length`), `cap` is the allocated capacity.  `null` tells that the
pointer `out` is `NULL`, as at the start and after a failed growth: the elements are
then not in memory any more, and a read or a write through the pointer faults.
`heap` is the largest request, in bytes, that `realloc` grants: the host, recorded
with the buffer. -/
structure sd_result where
  cap : Nat
  out : List Int
  null : Bool := false
  heap : Nat := sd_heap_default
  deriving DecidableEq, Repr

/-- The field `len` of `sd_result`. -/
def sd_result.len (result : sd_result) : Nat := result.out.length

/-- The function `sd_result_init`. -/
def sd_result_init : sd_result := { cap := 0, out := [], null := true }

/-- The function `sd_result_grow`.  The new capacity and the number of bytes asked for
are `size_t` products, which wrap modulo `2 ^ 64`.  When `realloc` returns `NULL` (a
request of more than `heap` bytes, or of 0 bytes, on which the block is freed) the
pointer is overwritten with it, `cap` is set to `-1`, that is `SIZE_MAX`, and
`STAT_ERRMEM` is returned; `len` stays. -/
def sd_result_grow (result : sd_result) : sd_status × sd_result :=
  let cap : Nat :=
    if result.cap = 0 then 256
    else (result.cap * (result.cap * 2)) % 18446744073709551616
  let bytes : Nat := (cap * 8) % 18446744073709551616
  if bytes = 0 ∨ result.heap < bytes then
    (sd_status.STAT_ERRMEM, { result with cap := 18446744073709551615, null := true })
  else (sd_status.STAT_OK, { result with cap := cap, null := false })

/-- The function `sd_result_append`.  A failed growth is returned without a store;
`none` is the store `result->out[result->len] = val` through a `NULL` pointer. -/
def sd_result_append (result : sd_result) (val : Int) : Option (sd_status × sd_result) :=
  let grown : sd_status × sd_result :=
    if result.len = result.cap then sd_result_grow result else (sd_status.STAT_OK, result)
  if grown.1 ≠ sd_status.STAT_OK then some grown
  else if grown.2.null = true then none
  else some (sd_status.STAT_OK, { grown.2 with out := grown.2.out ++ [val] })

/-- The bytes of the low `n` bytes of `v`, least significant first
(what `fwrite` emits for an `n`-byte integer on a little-endian host). -/
def sd_bytes_le : Nat → Int → List Nat
  | 0, _ => []
  | n + 1, v => (v % 256).toNat :: sd_bytes_le n (v / 256)

/-- The function `sd_result_print_i8`: each value is cast to `int8_t` and written. -/
def sd_result_print_i8 (result : sd_result) : List Nat :=
  result.out.flatMap (sd_bytes_le 1)

/-- The function `sd_result_print_i16`: each value is cast to `int16_t` and written. -/
def sd_result_print_i16 (result : sd_result) : List Nat :=
  result.out.flatMap (sd_bytes_le 2)

/-- The scanning loop of `sd_result_print`, from the flags `(can_i8, can_i16)`. -/
def sd_result_scan : List Int → Bool → Bool → Bool × Bool
  | [], can_i8, can_i16 => (can_i8, can_i16)
  | value :: rest, can_i8, can_i16 =>
    if -128 ≤ value ∧ value < 128 then sd_result_scan rest can_i8 can_i16
    else if -32768 ≤ value ∧ value < 32768 then sd_result_scan rest false can_i16
    else if value < -32768 ∨ 32768 ≤ value then (false, false)
    else sd_result_scan rest can_i8 can_i16

/-- The function `sd_result_print`: the bytes written to the standard output, read
through a valid pointer.  The call on a buffer whose pointer is `NULL` while elements
are counted does not return: it is the fault `sd_result_lost` of `sd_run_stdout`. -/
def sd_result_print (result : sd_result) : List Nat :=
  let flags := sd_result_scan result.out true true
  if flags.1 then sd_result_print_i8 result
  else if flags.2 then sd_result_print_i16 result
  else result.out.flatMap (sd_bytes_le 8)

/-! ## Machine state (sd.c lines 363-415) -/

/-- The struct `sd_vm_state`.  `code` is the memory at the pointer `code`: element
`i` is `code[i]`.  It may list bytes beyond `code_len` (what the host memory holds
after the program). -/
structure sd_vm_state where
  stack : sd_stack
  subroutines : sd_subr_table
  call_stack : sd_call_stack
  result : sd_result
  code : List Nat
  code_len : Nat
  instruction_pointer : Int
  register_1 : Int

/-- The function `sd_vm_init`; `junk` is the content of the freshly allocated
array of the subroutine table, which is not cleared. -/
def sd_vm_init (junk : Nat → Int) : sd_vm_state :=
  { stack := sd_stack_init
    subroutines := sd_subr_table_init junk
    call_stack := sd_call_stack_init
    result := sd_result_init
    code := []
    code_len := 0
    instruction_pointer := 0
    register_1 := 0 }

/-- The read `code[ip]`: `none` when the byte lies outside the memory the model knows. -/
def sd_code_at (code : List Nat) (ip : Int) : Option Nat :=
  if ip < 0 then none else code[ip.toNat]?

/-- Outcome of `sd_run_skip`: the returned status with the updated state, a fault,
or exhaustion of the fuel of the model. -/
inductive sd_skip
  | done (stat : sd_status) (state : sd_vm_state)
  | fault
  | timeout

/-- The `while` loop of `sd_run_skip`, with `level` the nesting depth (an `int` in
the source; it cannot exceed the number of bytes scanned). -/
def sd_run_skip_loop : Nat → Nat → sd_vm_state → sd_skip
  | 0, _, _ => sd_skip.timeout
  | fuel + 1, level, state =>
    if level > 0 then
      let state1 : sd_vm_state :=
        { state with instruction_pointer := wrap64 (state.instruction_pointer + 1) }
      if toU64 state1.instruction_pointer > state1.code_len then
        sd_skip.done sd_status.STAT_HALT state1
      else
        match sd_code_at state1.code state1.instruction_pointer with
        | none => sd_skip.fault
        | some instruction =>
          if instruction = 123 then sd_run_skip_loop fuel (level + 1) state1      -- '{'
          else if instruction = 125 then sd_run_skip_loop fuel (level - 1) state1 -- '}'
          else sd_run_skip_loop fuel level state1
    else sd_skip.done sd_status.STAT_OK state

/-- The function `sd_run_skip`.  The loop runs at most `code_len + 1` times, so the
fuel given here is never exhausted. -/
def sd_run_skip (state : sd_vm_state) : sd_skip :=
  sd_run_skip_loop (state.code_len + 2) 1 state

/-! ## Interpreter loop (sd.c lines 436-720) -/

/-- The variables of `sd_run` that live across iterations: the machine state and
the local `stat`. -/
structure sd_frame where
  state : sd_vm_state
  stat : sd_status

/-- Where control goes after the body of one iteration. -/
inductive sd_flow
  | fallthrough (f : sd_frame)   -- leaves the switch: reaches the label skip_intswitch
  | cont (f : sd_frame)          -- the label cont_intloop
  | brk (f : sd_frame)           -- the label break_intloop
  | fault                        -- undefined behaviour ending the process
  | timeout                      -- the fuel of the model ran out

/-- The union member `symbol` of a value cell: its low byte. -/
def sd_symbol_of (v : Int) : Nat := (v % 256).toNat

/-- The macro `SD_TRY`, applied to the status `act` an action returned (the frame
`f` already holds the effect of the action). -/
def SD_TRY (act : sd_status) (f : sd_frame) (k : sd_frame → sd_flow) : sd_flow :=
  let f1 : sd_frame := { f with stat := act }
  if act ≠ sd_status.STAT_OK then sd_flow.brk f1 else k f1

/-- The macro `SD_TRY_POP_ANY`. -/
def SD_TRY_POP_ANY (f : sd_frame) (k : sd_item → sd_frame → sd_flow) : sd_flow :=
  let r := sd_stack_pop f.state.stack
  let f1 : sd_frame := { f with state := { f.state with stack := r.2 } }
  match r.1 with
  | none => sd_flow.brk { f1 with stat := sd_status.STAT_ERRSTATE }
  | some item => k item f1

/-- The macro `SD_TRY_POP_ITEM`. -/
def SD_TRY_POP_ITEM (type : sd_value_type) (f : sd_frame) (k : sd_item → sd_frame → sd_flow) :
    sd_flow :=
  let r := sd_stack_pop f.state.stack
  let f1 : sd_frame := { f with state := { f.state with stack := r.2 } }
  match r.1 with
  | none => sd_flow.brk { f1 with stat := sd_status.STAT_ERRSTATE }
  | some item =>
    if item.t ≠ type then sd_flow.brk { f1 with stat := sd_status.STAT_ERRTYPE }
    else k item f1

/-- The macro `SD_TRY_JUMP_SUBROUTINE`. -/
def SD_TRY_JUMP_SUBROUTINE (name : Nat) (f : sd_frame) (k : sd_frame → sd_flow) : sd_flow :=
  let target := sd_subr_table_get f.state.subroutines name
  if target = -1 then sd_flow.brk { f with stat := sd_status.STAT_ERRSUBROUTINE }
  else k { f with state := { f.state with instruction_pointer := target } }

/-- The push `SD_TRY(sd_stack_push(state.stack, t, val))`. -/
def SD_TRY_PUSH (t : sd_value_type) (val : Int) (f : sd_frame) (k : sd_frame → sd_flow) :
    sd_flow :=
  let r := sd_stack_push f.state.stack t val
  SD_TRY r.1 { f with state := { f.state with stack := r.2 } } k

/-- The macro `SD_TRY_ARITHMETIC`; `expression a b` is `none` where the host traps. -/
def SD_TRY_ARITHMETIC (expression : Int → Int → Option Int) (f : sd_frame) : sd_flow :=
  SD_TRY_POP_ITEM sd_value_type.VAL_INTEGER f fun ib f1 =>
  SD_TRY_POP_ITEM sd_value_type.VAL_INTEGER f1 fun ia f2 =>
  match expression ia.v ib.v with
  | none => sd_flow.fault
  | some val => SD_TRY_PUSH sd_value_type.VAL_INTEGER val f2 sd_flow.fallthrough

/-- The expression `a + b` on `int64_t`. -/
def sd_add (a b : Int) : Option Int := some (wrap64 (a + b))

/-- The expression `a - b` on `int64_t`. -/
def sd_sub (a b : Int) : Option Int := some (wrap64 (a - b))

/-- The expression `a * b` on `int64_t`. -/
def sd_mul (a b : Int) : Option Int := some (wrap64 (a * b))

/-- The expression `a / b` on `int64_t`: truncation towards zero; division by zero and
the quotient of `INT64_MIN` by `-1` trap. -/
def sd_div (a b : Int) : Option Int :=
  if b = 0 ∨ (a = -9223372036854775808 ∧ b = -1) then none else some (Int.tdiv a b)

/-- The case '{' of the switch (lines 497-502): start subroutine. -/
def sd_case_open (f : sd_frame) : sd_flow :=
  SD_TRY_PUSH sd_value_type.VAL_IP f.state.instruction_pointer f fun f1 =>
  match sd_run_skip f1.state with
  | sd_skip.fault => sd_flow.fault
  | sd_skip.timeout => sd_flow.timeout
  | sd_skip.done stat state => SD_TRY stat { f1 with state := state } sd_flow.fallthrough

/-- The case '}' of the switch (lines 504-510): return. -/
def sd_case_close (f : sd_frame) : sd_flow :=
  let r := sd_call_stack_pop f.state.call_stack
  let f1 : sd_frame :=
    { f with state := { f.state with call_stack := r.2, instruction_pointer := r.1 } }
  if f1.state.instruction_pointer = -1 then sd_flow.brk f1 else sd_flow.fallthrough f1

/-- The case 'f' of the switch (lines 512-519): define function. -/
def sd_case_f (f : sd_frame) : sd_flow :=
  SD_TRY_POP_ITEM sd_value_type.VAL_SYMBOL f fun item f1 =>
  let name := sd_symbol_of item.v
  SD_TRY_POP_ITEM sd_value_type.VAL_IP f1 fun item1 f2 =>
  let ip := item1.v
  let r := sd_subr_table_set f2.state.subroutines name ip
  SD_TRY r.1 { f2 with state := { f2.state with subroutines := r.2 } } sd_flow.fallthrough

/-- The case 'j' of the switch (lines 541-555): jump. -/
def sd_case_j (f : sd_frame) : sd_flow :=
  SD_TRY_POP_ANY f fun item f1 =>
  if item.t = sd_value_type.VAL_INTEGER then
    let delta := item.v
    sd_flow.cont { f1 with state := { f1.state with
      instruction_pointer := wrap64 (f1.state.instruction_pointer + delta) } }
  else if item.t = sd_value_type.VAL_SYMBOL then
    SD_TRY_JUMP_SUBROUTINE (sd_symbol_of item.v) f1 sd_flow.fallthrough
  else sd_flow.brk { f1 with stat := sd_status.STAT_ERRTYPE }

/-- The case 'c' of the switch (lines 557-564): call subroutine. -/
def sd_case_c (f : sd_frame) : sd_flow :=
  let r := sd_call_stack_push f.state.call_stack f.state.instruction_pointer
  SD_TRY r.1 { f with state := { f.state with call_stack := r.2 } } fun f1 =>
  SD_TRY_POP_ITEM sd_value_type.VAL_SYMBOL f1 fun item f2 =>
  SD_TRY_JUMP_SUBROUTINE (sd_symbol_of item.v) f2 sd_flow.fallthrough

/-- The case 'i' of the switch (lines 566-579): conditional call. -/
def sd_case_i (f : sd_frame) : sd_flow :=
  SD_TRY_POP_ITEM sd_value_type.VAL_SYMBOL f fun item f1 =>
  let branch_false := sd_symbol_of item.v
  SD_TRY_POP_ITEM sd_value_type.VAL_SYMBOL f1 fun item1 f2 =>
  let branch_true := sd_symbol_of item1.v
  SD_TRY_POP_ITEM sd_value_type.VAL_INTEGER f2 fun item2 f3 =>
  let condition := item2.v
  let branch := if condition = 0 then branch_false else branch_true
  let r := sd_call_stack_push f3.state.call_stack f3.state.instruction_pointer
  SD_TRY r.1 { f3 with state := { f3.state with call_stack := r.2 } } fun f4 =>
  SD_TRY_JUMP_SUBROUTINE branch f4 sd_flow.fallthrough

/-- The case 'k' of the switch (lines 581-601): conditional jump. -/
def sd_case_k (f : sd_frame) : sd_flow :=
  SD_TRY_POP_ANY f fun branch_false f1 =>
  SD_TRY_POP_ANY f1 fun branch_true f2 =>
  SD_TRY_POP_ITEM sd_value_type.VAL_INTEGER f2 fun item2 f3 =>
  let condition := item2.v
  let branch := if condition = 0 then branch_false else branch_true
  if branch.t = sd_value_type.VAL_SYMBOL then
    SD_TRY_JUMP_SUBROUTINE (sd_symbol_of branch.v) f3 sd_flow.fallthrough
  else if branch.t = sd_value_type.VAL_INTEGER then
    sd_flow.cont { f3 with state := { f3.state with
      instruction_pointer := wrap64 (f3.state.instruction_pointer + branch.v) } }
  else sd_flow.brk { f3 with stat := sd_status.STAT_ERRTYPE }

/-- The case 'r' of the switch (lines 603-615): append to result. -/
def sd_case_r (f : sd_frame) : sd_flow :=
  match sd_stack_peek f.state.stack with
  | none => sd_flow.brk { f with stat := sd_status.STAT_ERRSTATE }
  | some item =>
    if item.t ≠ sd_value_type.VAL_INTEGER then
      sd_flow.brk { f with stat := sd_status.STAT_ERRTYPE }
    else
      match sd_result_append f.state.result item.v with
      | none => sd_flow.fault
      | some r =>
        SD_TRY r.1 { f with state := { f.state with result := r.2 } } sd_flow.fallthrough

/-- The case 'q' of the switch (lines 617-620): discard; the returned item is ignored. -/
def sd_case_q (f : sd_frame) : sd_flow :=
  sd_flow.fallthrough { f with state := { f.state with stack := (sd_stack_pop f.state.stack).2 } }

/-- The case 'w' of the switch (lines 622-625): duplicate; the returned status is ignored. -/
def sd_case_w (f : sd_frame) : sd_flow :=
  sd_flow.fallthrough
    { f with state := { f.state with stack := (sd_stack_duplicate f.state.stack).2 } }

/-- The case 'e' of the switch (lines 627-636): exchange. -/
def sd_case_e (f : sd_frame) : sd_flow :=
  SD_TRY_POP_ANY f fun a f1 =>
  SD_TRY_POP_ANY f1 fun b f2 =>
  SD_TRY_PUSH a.t a.v f2 fun f3 =>
  SD_TRY_PUSH b.t b.v f3 sd_flow.fallthrough

/-- The case 'z' of the switch (lines 638-642): stack top. -/
def sd_case_z (f : sd_frame) : sd_flow :=
  let top : Int := (f.state.stack.size : Int)
  SD_TRY_PUSH sd_value_type.VAL_INTEGER top f sd_flow.fallthrough

/-- The case 'x' of the switch (lines 644-649): index into stack. -/
def sd_case_x (f : sd_frame) : sd_flow :=
  SD_TRY_POP_ITEM sd_value_type.VAL_INTEGER f fun item f1 =>
  let index := item.v
  match sd_stack_duplicate_at f1.state.stack index with
  | none => sd_flow.fault
  | some r => SD_TRY r.1 { f1 with state := { f1.state with stack := r.2 } } sd_flow.fallthrough

/-- The case 'y' of the switch (lines 651-658): set stack index. -/
def sd_case_y (f : sd_frame) : sd_flow :=
  SD_TRY_POP_ANY f fun value f1 =>
  SD_TRY_POP_ITEM sd_value_type.VAL_INTEGER f1 fun item f2 =>
  let index := item.v
  match sd_stack_replace_at f2.state.stack index value.t value.v with
  | none => sd_flow.fault
  | some r => SD_TRY r.1 { f2 with state := { f2.state with stack := r.2 } } sd_flow.fallthrough

/-- The case 't' of the switch (lines 660-666): swap with register. -/
def sd_case_t (f : sd_frame) : sd_flow :=
  SD_TRY_POP_ITEM sd_value_type.VAL_INTEGER f fun item f1 =>
  let val := item.v
  let tmp := f1.state.register_1
  SD_TRY_PUSH sd_value_type.VAL_INTEGER tmp
    { f1 with state := { f1.state with register_1 := val } } sd_flow.fallthrough

/-- The case 'h' of the switch (lines 668-671): halt. -/
def sd_case_h (f : sd_frame) : sd_flow :=
  sd_flow.brk { f with stat := sd_status.STAT_HALT }

/-- The switch of `sd_run` (lines 496-672) on the fetched byte; a byte without a case
leaves the switch at once. -/
def sd_run_switch (instruction : Nat) (f : sd_frame) : sd_flow :=
  if instruction = 123 then sd_case_open f                     -- '{'
  else if instruction = 125 then sd_case_close f               -- '}'
  else if instruction = 102 then sd_case_f f                   -- 'f'
  else if instruction = 97 then SD_TRY_ARITHMETIC sd_add f     -- 'a'
  else if instruction = 115 then SD_TRY_ARITHMETIC sd_sub f    -- 's'
  else if instruction = 109 then SD_TRY_ARITHMETIC sd_mul f    -- 'm'
  else if instruction = 100 then SD_TRY_ARITHMETIC sd_div f    -- 'd'
  else if instruction = 106 then sd_case_j f                   -- 'j'
  else if instruction = 99 then sd_case_c f                    -- 'c'
  else if instruction = 105 then sd_case_i f                   -- 'i'
  else if instruction = 107 then sd_case_k f                   -- 'k'
  else if instruction = 114 then sd_case_r f                   -- 'r'
  else if instruction = 113 then sd_case_q f                   -- 'q'
  else if instruction = 119 then sd_case_w f                   -- 'w'
  else if instruction = 101 then sd_case_e f                   -- 'e'
  else if instruction = 122 then sd_case_z f                   -- 'z'
  else if instruction = 120 then sd_case_x f                   -- 'x'
  else if instruction = 121 then sd_case_y f                   -- 'y'
  else if instruction = 116 then sd_case_t f                   -- 't'
  else if instruction = 104 then sd_case_h f                   -- 'h'
  else sd_flow.fallthrough f

/-- The part of the loop body after the fetch (lines 486-672): literal decoding,
then the switch. -/
def sd_run_decode (instruction : Nat) (f : sd_frame) : sd_flow :=
  if 48 ≤ instruction ∧ instruction ≤ 57 then          -- '0' .. '9'
    let val : Int := 9 - (57 - (instruction : Int))
    SD_TRY_PUSH sd_value_type.VAL_INTEGER val f sd_flow.fallthrough
  else if 65 ≤ instruction ∧ instruction ≤ 90 then     -- 'A' .. 'Z'
    let val : Int := (instruction : Int)
    SD_TRY_PUSH sd_value_type.VAL_SYMBOL val f sd_flow.fallthrough
  else sd_run_switch instruction f

/-- The label skip_intswitch (lines 674-675): control that left the body through the
end of the switch, or through `goto skip_intswitch`, increments the instruction pointer
and continues the loop. -/
def sd_skip_intswitch (fl : sd_flow) : sd_flow :=
  match fl with
  | sd_flow.fallthrough f1 =>
    sd_flow.cont { f1 with state := { f1.state with
      instruction_pointer := wrap64 (f1.state.instruction_pointer + 1) } }
  | other => other

/-- One iteration of the `for (;;)` loop of `sd_run` (lines 479-679): the bound
check, the fetch, the body, and the increment at the label skip_intswitch.
The result is `cont` (next iteration), `brk` (loop left), `fault` or `timeout`. -/
def sd_run_iter (f : sd_frame) : sd_flow :=
  if toU64 f.state.instruction_pointer > f.state.code_len then sd_flow.brk f
  else
    match sd_code_at f.state.code f.state.instruction_pointer with
    | none => sd_flow.fault
    | some instruction => sd_skip_intswitch (sd_run_decode instruction f)

/-- The loop of `sd_run`, bounded by `fuel` iterations. -/
def sd_run_loop : Nat → sd_frame → sd_flow
  | 0, _ => sd_flow.timeout
  | fuel + 1, f =>
    match sd_run_iter f with
    | sd_flow.cont f1 => sd_run_loop fuel f1
    | other => other

/-- What `sd_run` writes to the standard output after the loop: the diagnostic line,
given by the status and the instruction pointer it reports, then the bytes of
`sd_result_print`. -/
structure sd_output where
  diag : Option (sd_status × Int)
  bytes : List Nat
  deriving DecidableEq, Repr

/-- The tail of `sd_run` (lines 681-715). -/
def sd_run_output (f : sd_frame) : sd_output :=
  { diag :=
      if f.stat = sd_status.STAT_ERRMEM ∨ f.stat = sd_status.STAT_ERRSTATE ∨
          f.stat = sd_status.STAT_ERRTYPE ∨ f.stat = sd_status.STAT_ERRSUBROUTINE ∨
          f.stat = sd_status.STAT_ERROVERFLOW then
        some (f.stat, f.state.instruction_pointer)
      else none
    bytes := sd_result_print f.state.result }

/-- The frame `sd_run` starts its loop with: `stat0` is the value the uninitialised
local `stat` happens to hold, `junk` the content of the uncleared table array. -/
def sd_run_start (source : List Nat) (source_len : Nat) (stat0 : sd_status)
    (junk : Nat → Int) : sd_frame :=
  { state := { sd_vm_init junk with code := source, code_len := source_len }
    stat := stat0 }

/-- The function `sd_run` up to the end of its loop, bounded by `fuel` iterations:
`brk f` is the frame the loop was left with. -/
def sd_run (source : List Nat) (source_len : Nat) (stat0 : sd_status) (junk : Nat → Int)
    (fuel : Nat) : sd_flow :=
  sd_run_loop fuel (sd_run_start source source_len stat0 junk)

/-- The flush at the end of `sd_run` reads the `len` elements through a pointer that
is `NULL`: the scan of `sd_result_print` faults on the first of them. -/
def sd_result_lost (result : sd_result) : Prop :=
  result.null = true ∧ result.out ≠ []

instance (result : sd_result) : Decidable (sd_result_lost result) := by
  unfold sd_result_lost; infer_instance

/-- The standard output of a finished run; `none` when the run did not finish
within the fuel or faulted, in the loop or in the flush after it. -/
def sd_run_stdout (source : List Nat) (source_len : Nat) (stat0 : sd_status)
    (junk : Nat → Int) (fuel : Nat) : Option sd_output :=
  match sd_run source source_len stat0 junk fuel with
  | sd_flow.brk f => if sd_result_lost f.state.result then none else some (sd_run_output f)
  | _ => none

/-- The loop of `sd_run` after exactly `n` iterations: `cont f` when it is still
running with frame `f`, the way it ended otherwise. -/
def sd_run_steps : Nat → sd_frame → sd_flow
  | 0, f => sd_flow.cont f
  | n + 1, f =>
    match sd_run_iter f with
    | sd_flow.cont f1 => sd_run_steps n f1
    | other => other

/-- The frame an outcome carries, if any. -/
def sd_flow.frame : sd_flow → Option sd_frame
  | sd_flow.fallthrough f => some f
  | sd_flow.cont f => some f
  | sd_flow.brk f => some f
  | sd_flow.fault => none
  | sd_flow.timeout => none

/-- The frame `f` is about to execute the byte `instruction`: the bound check of the
loop passes and the fetch reads that byte. -/
def sd_fetches (f : sd_frame) (instruction : Nat) : Prop :=
  ¬ (toU64 f.state.instruction_pointer > f.state.code_len) ∧
    sd_code_at f.state.code f.state.instruction_pointer = some instruction

instance (f : sd_frame) (instruction : Nat) : Decidable (sd_fetches f instruction) := by
  unfold sd_fetches; infer_instance

/-- The size counter of the stack agrees with the linked entries and has not wrapped
(the state of the stack in every run that has not reported an overflow). -/
def sd_stack_ok (stack : sd_stack) : Prop :=
  stack.size = stack.ents.length ∧ stack.ents.length < 4294967296

instance (stack : sd_stack) : Decidable (sd_stack_ok stack) := by
  unfold sd_stack_ok; infer_instance

/-- A frame in the middle of a run of the program `code` (held exactly by the memory):
instruction pointer `ip`, operand stack `ents`, everything else as at the start. -/
def sd_frame_at (code : List Nat) (ip : Int) (ents : List sd_item) : sd_frame :=
  { state := { sd_vm_init (fun _ => 0) with
      code := code
      code_len := code.length
      instruction_pointer := ip
      stack := { size := ents.length, ents := ents } }
    stat := sd_status.STAT_OK }

/-- The request `sd_result_grow` makes for the buffer is granted by `realloc`. -/
def sd_result_granted (result : sd_result) : Prop :=
  (sd_result_grow result).1 = sd_status.STAT_OK

instance (result : sd_result) : Decidable (sd_result_granted result) := by
  unfold sd_result_granted; infer_instance

/-- The buffer can take one more element: it is not full and its pointer is valid, or
it is full and the growth is granted. -/
def sd_result_room (result : sd_result) : Prop :=
  if result.len = result.cap then sd_result_granted result else result.null = false

instance (result : sd_result) : Decidable (sd_result_room result) := by
  unfold sd_result_room; infer_instance

/-- The buffer takes `n` more elements without a second growth: its pointer is valid
and `n` more elements fit the capacity, or it is the initial buffer, `n` is at most the
256 elements of the first growth, and the host grants the 2048 bytes of it. -/
def sd_result_fits (result : sd_result) (n : Nat) : Prop :=
  (result.null = false ∧ result.len + n ≤ result.cap) ∨
  (result.cap = 0 ∧ result.out = [] ∧ n ≤ 256 ∧ 2048 ≤ result.heap)

instance (result : sd_result) (n : Nat) : Decidable (sd_result_fits result n) := by
  unfold sd_result_fits; infer_instance

/-- The buffer `sd_result_append` leaves behind when it returns. -/
def sd_result_after (result : sd_result) (val : Int) : sd_result :=
  match sd_result_append result val with
  | some r => r.2
  | none => result

/-- A frame about to execute `r` with INTEGER 5 on the stack and a full result buffer of
`n` elements, all 7, on a host that grants `heap` bytes. -/
def sd_frame_full (n heap : Nat) : sd_frame :=
  { state := { sd_vm_init (fun _ => 0) with
      code := [114]
      code_len := 1
      stack := { size := 1, ents := [⟨sd_value_type.VAL_INTEGER, 5⟩] }
      result := { cap := n, out := List.replicate n 7, heap := heap } }
    stat := sd_status.STAT_OK }

/-- The content of the result buffer in the frame an outcome carries. -/
def sd_appended (fl : sd_flow) : Option (List Int) :=
  fl.frame.map fun f => f.state.result.out

/-- The entries of the operand stack in the frame an outcome carries. -/
def sd_operands (fl : sd_flow) : Option (List sd_item) :=
  fl.frame.map fun f => f.state.stack.ents

/-- Every frame the outcome `fl` carries has the result buffer `R`. -/
def sd_keeps (R : sd_result) (fl : sd_flow) : Prop :=
  ∀ f1 : sd_frame, fl.frame = some f1 → f1.state.result = R

/-- The frame the program `code` (held exactly by the memory) reaches after `n`
iterations from the initial state. -/
def sd_frame_after (n : Nat) (code : List Nat) : sd_frame :=
  match sd_run_steps n (sd_run_start code code.length sd_status.STAT_NOOP (fun _ => 0)) with
  | sd_flow.cont f => f
  | _ => sd_run_start code code.length sd_status.STAT_NOOP (fun _ => 0)

/-- The instruction pointer in the frame an outcome carries. -/
def sd_pointer (fl : sd_flow) : Option Int :=
  fl.frame.map fun f => f.state.instruction_pointer

/-- The return addresses in the frame an outcome carries. -/
def sd_returns (fl : sd_flow) : Option (List Int) :=
  fl.frame.map fun f => f.state.call_stack.ents

/-- The status in the frame an outcome carries. -/
def sd_status_of (fl : sd_flow) : Option sd_status :=
  fl.frame.map fun f => f.stat

/-- The lookup of `symbol` in the frame an outcome carries. -/
def sd_lookup (fl : sd_flow) (symbol : Nat) : Option Int :=
  fl.frame.map fun f => sd_subr_table_get f.state.subroutines symbol

/-! ## Programs used as examples -/

/-- The program `{5rh}Af cAc` of the specification (section 8, scenario 3). -/
def sd_prog_call_first : List Nat := [123, 53, 114, 104, 125, 65, 102, 32, 99, 65, 99]

/-- The program `{5rh}Af Ac`: the name is pushed before the call. -/
def sd_prog_name_first : List Nat := [123, 53, 114, 104, 125, 65, 102, 32, 65, 99]

/-- The program `{1r}Af Ac 2r`: a call that returns. -/
def sd_prog_return : List Nat := [123, 49, 114, 125, 65, 102, 32, 65, 99, 32, 50, 114]

/-- The program `{}Af{}Af`: the letter A is defined twice. -/
def sd_prog_redefine : List Nat := [123, 125, 65, 102, 123, 125, 65, 102]

/-- The program `02sj`: a relative jump by -2. -/
def sd_prog_jump_back : List Nat := [48, 50, 115, 106]

/-- The program `d1 r d2 r ... dn r` for the digits `ds`. -/
def sd_prog_digits (ds : List Nat) : List Nat := ds.flatMap fun d => [48 + d, 114]

/-- The case labels of the switch of `sd_run` (lines 496-672), in source order:
`{ } f a s m d j c i k r q w e z x y t h`. -/
def sd_opcodes : List Nat :=
  [123, 125, 102, 97, 115, 109, 100, 106, 99, 105, 107, 114, 113, 119, 101, 122, 120, 121,
    116, 104]

/-- Every frame the outcome `fl` carries satisfies `P`. -/
def sd_all (P : sd_frame → Prop) (fl : sd_flow) : Prop :=
  ∀ f1 : sd_frame, fl.frame = some f1 → P f1

/-- The slot `index` of the table is flagged as defined: the test of
`sd_subr_table_get` on the mask. -/
def sd_slot_defined (table : sd_subr_table) (index : Nat) : Prop :=
  table.has_subroutines_bitfield &&& (1 <<< index) ≠ 0

instance (table : sd_subr_table) (index : Nat) : Decidable (sd_slot_defined table index) := by
  unfold sd_slot_defined; infer_instance

/-- The letter `symbol` is flagged as defined. -/
def sd_subr_defined (table : sd_subr_table) (symbol : Nat) : Prop :=
  sd_slot_defined table (sd_subr_index symbol)

instance (table : sd_subr_table) (symbol : Nat) : Decidable (sd_subr_defined table symbol) := by
  unfold sd_subr_defined; infer_instance

/-- The address `ip` is an offset into a program of `L` bytes, its end included. -/
def sd_address_ok (L : Nat) (ip : Int) : Prop := 0 ≤ ip ∧ ip ≤ (L : Int)

instance (L : Nat) (ip : Int) : Decidable (sd_address_ok L ip) := by
  unfold sd_address_ok; infer_instance

/-- A stack entry tagged `VAL_IP` holds an offset into the program. -/
def sd_item_ok (L : Nat) (item : sd_item) : Prop :=
  item.t = sd_value_type.VAL_IP → sd_address_ok L item.v

instance (L : Nat) (item : sd_item) : Decidable (sd_item_ok L item) := by
  unfold sd_item_ok; infer_instance

/-- The state invariant of a run over a program of `L` bytes: the size counter is the
number of linked entries modulo 2^32, and every address held by the operand stack, by
a defined slot of the table or by the call stack is an offset into the program. -/
def sd_inv (L : Nat) (s : sd_vm_state) : Prop :=
  L < 9223372036854775808 ∧
  s.code_len = L ∧
  s.stack.size = s.stack.ents.length % 4294967296 ∧
  (∀ item ∈ s.stack.ents, sd_item_ok L item) ∧
  (∀ index : Nat, sd_slot_defined s.subroutines index →
    sd_address_ok L (s.subroutines.subroutines index)) ∧
  (∀ ip ∈ s.call_stack.ents, sd_address_ok L ip)

/-- The frame `f1` in the middle of the iteration that started at `f0`: the invariant
holds, and table, code and instruction pointer are those of `f0`. -/
def sd_mid (L : Nat) (f0 f1 : sd_frame) : Prop :=
  sd_inv L f1.state ∧
  f1.state.subroutines = f0.state.subroutines ∧
  f1.state.code = f0.state.code ∧
  f1.state.instruction_pointer = f0.state.instruction_pointer ∧
  sd_address_ok L f0.state.instruction_pointer

/-- The frame `f1` at the end of an iteration that started at `f0` and did not define a
subroutine: the invariant holds, table and code are those of `f0`, and the instruction
pointer is an `int64_t`. -/
def sd_fin (L : Nat) (f0 f1 : sd_frame) : Prop :=
  sd_inv L f1.state ∧
  f1.state.subroutines = f0.state.subroutines ∧
  f1.state.code = f0.state.code ∧
  isI64 f1.state.instruction_pointer

/-- The frame `f1` at the end of the iteration on the byte `instruction` that started
at `f0`; the table is that of `f0` unless the byte is `f`. -/
def sd_post (L : Nat) (instruction : Nat) (f0 f1 : sd_frame) : Prop :=
  sd_inv L f1.state ∧
  f1.state.code = f0.state.code ∧
  isI64 f1.state.instruction_pointer ∧
  (instruction ≠ 102 → f1.state.subroutines = f0.state.subroutines)

/-- The entries `ents` (top first) are what `f` needs to define `symbol`: a SYMBOL item
with that byte on top of an item tagged `VAL_IP`. -/
def sd_names (ents : List sd_item) (symbol : Nat) : Prop :=
  match ents with
  | a :: b :: _ =>
    a.t = sd_value_type.VAL_SYMBOL ∧ sd_symbol_of a.v = symbol ∧ b.t = sd_value_type.VAL_IP
  | _ => False

instance (ents : List sd_item) (symbol : Nat) : Decidable (sd_names ents symbol) := by
  unfold sd_names; split <;> infer_instance

/-- The frame `f` is about to define `symbol`: it executes `f` on a stack as in
`sd_names`. -/
def sd_defines (f : sd_frame) (symbol : Nat) : Prop :=
  sd_fetches f 102 ∧ sd_names f.state.stack.ents symbol

instance (f : sd_frame) (symbol : Nat) : Decidable (sd_defines f symbol) := by
  unfold sd_defines; infer_instance

/-- The program `{}Af Bc`: A is defined, B is called. -/
def sd_prog_call_undefined : List Nat := [123, 125, 65, 102, 32, 66, 99]

/-- The contribution of one byte to the nesting depth: +1 for the opening brace, -1 for
the closing brace, 0 otherwise. -/
def sd_brace_delta (b : Nat) : Int := if b = 123 then 1 else if b = 125 then -1 else 0

/-- The count of opening braces minus the count of closing braces in `bs`. -/
def sd_balance_of (bs : List Nat) : Int := (bs.map sd_brace_delta).sum

/-- The count of opening braces minus the count of closing braces in `code[p..q]`, both
ends included: the balance the specification of the block skipper speaks of. -/
def sd_balance (code : List Nat) (p q : Nat) : Int :=
  sd_balance_of ((code.drop p).take (q + 1 - p))

/-- The program `5r04sj`: push 5, then append it and jump back to the `r`, for ever. -/
def sd_prog_append_loop : List Nat := [53, 114, 48, 52, 115, 106]

/-- The frame of the run of `5r04sj` each time it arrives at the `r`, with the result
buffer `R`. -/
def sd_loop_frame (junk : Nat → Int) (R : sd_result) : sd_frame :=
  { state :=
      { stack := { size := 1, ents := [⟨sd_value_type.VAL_INTEGER, 5⟩] }
        subroutines := sd_subr_table_init junk
        call_stack := sd_call_stack_init
        result := R
        code := sd_prog_append_loop
        code_len := 6
        instruction_pointer := 1
        register_1 := 0 }
    stat := sd_status.STAT_OK }

/-- The result buffer of the run of `5r04sj` after `k` appends, for `k` up to 131072:
`k` times 5, in a capacity of 0, 256 or 131072 elements. -/
def sd_loop_result (k : Nat) : sd_result :=
  { cap := if k = 0 then 0 else if k ≤ 256 then 256 else 131072
    out := List.replicate k 5
    null := decide (k = 0)
    heap := sd_heap_default }

/-! ## Reading the output back

These definitions follow the words of the specification (section 6, output format):
the output is a sequence of signed integers of one width in host byte order. -/

theorem uint_dec_succ (n : Nat) : uint_dec (n + 1) = n := by
  unfold uint_dec
  rw [if_neg (Nat.succ_ne_zero n)]
  rfl

theorem wrap64_of_isI64 (x : Int) (h : isI64 x) : wrap64 x = x := by
  unfold isI64 at h; unfold wrap64; omega

theorem sd_code_at_nonneg {code : List Nat} {ip : Int} {b : Nat}
    (h : sd_code_at code ip = some b) : 0 ≤ ip := by
  unfold sd_code_at at h
  by_contra hn
  rw [if_pos (by omega)] at h
  exact absurd h (by simp)

/-- An iteration that fetches `instruction` runs the body on it and, when the body
leaves the switch, increments the instruction pointer. -/
theorem sd_run_iter_of_fetches (f : sd_frame) (instruction : Nat)
    (h : sd_fetches f instruction) :
    sd_run_iter f = sd_skip_intswitch (sd_run_decode instruction f) := by
  unfold sd_run_iter
  rw [if_neg h.1, h.2]

theorem sd_run_decode_open (f : sd_frame) : sd_run_decode 123 f = sd_case_open f := rfl
theorem sd_run_decode_close (f : sd_frame) : sd_run_decode 125 f = sd_case_close f := rfl
theorem sd_run_decode_f (f : sd_frame) : sd_run_decode 102 f = sd_case_f f := rfl
theorem sd_run_decode_a (f : sd_frame) : sd_run_decode 97 f = SD_TRY_ARITHMETIC sd_add f := rfl
theorem sd_run_decode_s (f : sd_frame) : sd_run_decode 115 f = SD_TRY_ARITHMETIC sd_sub f := rfl
theorem sd_run_decode_m (f : sd_frame) : sd_run_decode 109 f = SD_TRY_ARITHMETIC sd_mul f := rfl
theorem sd_run_decode_d (f : sd_frame) : sd_run_decode 100 f = SD_TRY_ARITHMETIC sd_div f := rfl
theorem sd_run_decode_j (f : sd_frame) : sd_run_decode 106 f = sd_case_j f := rfl
theorem sd_run_decode_c (f : sd_frame) : sd_run_decode 99 f = sd_case_c f := rfl
theorem sd_run_decode_r (f : sd_frame) : sd_run_decode 114 f = sd_case_r f := rfl

/-- The effect of `SD_TRY_ARITHMETIC` on two integers when the host computes `e`. -/
theorem SD_TRY_ARITHMETIC_ok (f : sd_frame) (expression : Int → Int → Option Int)
    (a b e : Int) (rest : List sd_item)
    (hents : f.state.stack.ents =
      ⟨sd_value_type.VAL_INTEGER, b⟩ :: ⟨sd_value_type.VAL_INTEGER, a⟩ :: rest)
    (hok : sd_stack_ok f.state.stack)
    (hexp : expression a b = some e) :
    SD_TRY_ARITHMETIC expression f = sd_flow.fallthrough
      { state := { f.state with
          stack := { size := rest.length + 1, ents := ⟨sd_value_type.VAL_INTEGER, e⟩ :: rest } }
        stat := sd_status.STAT_OK } := by
  obtain ⟨hsz, hlen⟩ := hok
  rw [hents] at hsz hlen
  simp only [List.length_cons] at hsz hlen
  have h1 : uint_dec (uint_dec (rest.length + 1 + 1)) + 1 = rest.length + 1 := by
    rw [uint_dec_succ, uint_dec_succ]
  have h2 : (rest.length + 1) % 4294967296 = rest.length + 1 := by omega
  have h3 : rest.length + 1 ≠ 0 := by omega
  simp only [SD_TRY_ARITHMETIC, SD_TRY_POP_ITEM, sd_stack_pop, hents, SD_TRY_PUSH, SD_TRY,
    sd_stack_push, hexp, hsz, h1, h2, h3, ne_eq, not_true_eq_false, if_false, ite_false,
    not_false_eq_true]

/-- C5: in a state about to execute `a`, `s`, `m` or `d` (byte `op`) whose stack holds
INTEGER `b` on top of INTEGER `a`, when the exact result `e` (`a + b`, `a - b`, `a * b`,
or `a / b` truncated towards zero with `b` non-zero) fits in 64 signed bits, the iteration
replaces the two values by the single INTEGER `e`, leaves the rest of the stack and the
other components as they were, and advances the instruction pointer by one. -/
theorem sd_arithmetic_step (f : sd_frame) (a b : Int) (rest : List sd_item) (op : Nat) (e : Int)
    (hfetch : sd_fetches f op)
    (hip : f.state.instruction_pointer + 1 < 9223372036854775808)
    (hents : f.state.stack.ents =
      ⟨sd_value_type.VAL_INTEGER, b⟩ :: ⟨sd_value_type.VAL_INTEGER, a⟩ :: rest)
    (hok : sd_stack_ok f.state.stack)
    (hop : (op = 97 ∧ e = a + b) ∨ (op = 115 ∧ e = a - b) ∨ (op = 109 ∧ e = a * b) ∨
      (op = 100 ∧ b ≠ 0 ∧ e = Int.tdiv a b))
    (hfit : isI64 e) :
    sd_run_iter f = sd_flow.cont
      { state := { f.state with
          stack := { size := rest.length + 1, ents := ⟨sd_value_type.VAL_INTEGER, e⟩ :: rest }
          instruction_pointer := f.state.instruction_pointer + 1 }
        stat := sd_status.STAT_OK } := by
  have hip0 := sd_code_at_nonneg hfetch.2
  have hw : wrap64 (f.state.instruction_pointer + 1) = f.state.instruction_pointer + 1 :=
    wrap64_of_isI64 _ ⟨by omega, hip⟩
  have he := wrap64_of_isI64 e hfit
  have hexp : ∃ expression : Int → Int → Option Int, expression a b = some e ∧
      sd_run_decode op f = SD_TRY_ARITHMETIC expression f := by
    rcases hop with ⟨h, h2⟩ | ⟨h, h2⟩ | ⟨h, h2⟩ | ⟨h, hb, h2⟩
    · exact ⟨sd_add, by rw [sd_add, ← h2, he], by rw [h]; rfl⟩
    · exact ⟨sd_sub, by rw [sd_sub, ← h2, he], by rw [h]; rfl⟩
    · exact ⟨sd_mul, by rw [sd_mul, ← h2, he], by rw [h]; rfl⟩
    · refine ⟨sd_div, ?_, by rw [h]; rfl⟩
      have hne : ¬ (b = 0 ∨ (a = -9223372036854775808 ∧ b = -1)) := by
        rintro (hb0 | ⟨ha, hb1⟩)
        · exact hb hb0
        · subst ha hb1
          rw [h2] at hfit
          exact absurd hfit (by decide)
      rw [sd_div, if_neg hne, h2]
  obtain ⟨expression, hexp, hdec⟩ := hexp
  rw [sd_run_iter_of_fetches f op hfetch, hdec,
    SD_TRY_ARITHMETIC_ok f expression a b e rest hents hok hexp]
  simp only [sd_skip_intswitch, hw]

/-- Witness of C5: the program `12ar` after its two pushes executes `a` on 1 and 2 and
leaves 3; run for four iterations it has appended 3; the program `210mmr` run for six
iterations has appended 0; `72d` leaves 3 and `(0-7) 2 d` leaves -3. -/
theorem sd_arithmetic_step_witness :
    sd_fetches (sd_frame_at [49, 50, 97, 114] 2
      [⟨sd_value_type.VAL_INTEGER, 2⟩, ⟨sd_value_type.VAL_INTEGER, 1⟩]) 97 ∧
    sd_run_iter (sd_frame_at [49, 50, 97, 114] 2
      [⟨sd_value_type.VAL_INTEGER, 2⟩, ⟨sd_value_type.VAL_INTEGER, 1⟩]) =
      sd_flow.cont (sd_frame_at [49, 50, 97, 114] 3 [⟨sd_value_type.VAL_INTEGER, 3⟩]) ∧
    sd_appended (sd_run_steps 4 (sd_run_start [49, 50, 97, 114] 4 sd_status.STAT_NOOP
      (fun _ => 0))) = some [3] ∧
    sd_appended (sd_run_steps 6 (sd_run_start [50, 49, 48, 109, 109, 114] 6 sd_status.STAT_NOOP
      (fun _ => 0))) = some [0] ∧
    sd_operands (sd_run_steps 3 (sd_run_start [55, 50, 100] 3 sd_status.STAT_NOOP
      (fun _ => 0))) = some [⟨sd_value_type.VAL_INTEGER, 3⟩] ∧
    sd_operands (sd_run_steps 6 (sd_run_start [48, 55, 115, 50, 100, 32] 6 sd_status.STAT_NOOP
      (fun _ => 0))) = some [⟨sd_value_type.VAL_INTEGER, -3⟩] :=
  ⟨by decide,
   sd_arithmetic_step _ 1 2 [] 97 3 (by decide) (by decide) rfl (by decide)
     (Or.inl ⟨rfl, rfl⟩) (by decide),
   by decide, by decide, by decide, by decide⟩

/-! ## Subroutine table -/

theorem sd_land_shift_ne_zero (x j : Nat) : x &&& (1 <<< j) ≠ 0 ↔ x.testBit j = true := by
  rw [Nat.one_shiftLeft, Nat.and_two_pow]
  cases h : x.testBit j
  · simp
  · simp [Nat.pos_iff_ne_zero.mp (Nat.two_pow_pos j)]

theorem sd_subr_index_letter (l : Nat) (hl : 65 ≤ l ∧ l ≤ 90) :
    sd_subr_index l = l - 65 ∧ sd_subr_index l < 26 := by
  unfold sd_subr_index; omega

/-- The lookup after `sd_subr_table_set`, for letters: a function update. -/
theorem sd_subr_table_get_set (table : sd_subr_table) (name l : Nat) (ip : Int)
    (hname : 65 ≤ name ∧ name ≤ 90) (hl : 65 ≤ l ∧ l ≤ 90) :
    sd_subr_table_get (sd_subr_table_set table name ip).2 l =
      if l = name then ip else sd_subr_table_get table l := by
  obtain ⟨hi, hi26⟩ := sd_subr_index_letter name hname
  obtain ⟨hj, hj26⟩ := sd_subr_index_letter l hl
  have hbit : ((table.has_subroutines_bitfield ||| (1 <<< sd_subr_index name)) % 4294967296).testBit
      (sd_subr_index l) =
      (table.has_subroutines_bitfield.testBit (sd_subr_index l) ||
        decide (sd_subr_index name = sd_subr_index l)) := by
    have h32 : (4294967296 : Nat) = 2 ^ 32 := by norm_num
    rw [h32, Nat.testBit_mod_two_pow, Nat.testBit_or, Nat.one_shiftLeft, Nat.testBit_two_pow]
    have : sd_subr_index l < 32 := by omega
    simp [this]
  unfold sd_subr_table_get sd_subr_table_set
  simp only [sd_land_shift_ne_zero, hbit]
  by_cases hln : l = name
  · subst hln
    simp
  · have hne : sd_subr_index name ≠ sd_subr_index l := by omega
    have hne' : sd_subr_index l ≠ sd_subr_index name := fun h => hne h.symm
    simp [hln, hne, hne']

theorem sd_symbol_of_byte (name : Nat) (h : name < 256) : sd_symbol_of (name : Int) = name := by
  unfold sd_symbol_of; omega

/-! ## The effect of the macros -/

theorem SD_TRY_ok (f : sd_frame) (k : sd_frame → sd_flow) :
    SD_TRY sd_status.STAT_OK f k = k { f with stat := sd_status.STAT_OK } := by
  unfold SD_TRY
  rw [if_neg (by simp)]

theorem SD_TRY_POP_ANY_ok (f : sd_frame) (k : sd_item → sd_frame → sd_flow)
    (item : sd_item) (rest : List sd_item) (hents : f.state.stack.ents = item :: rest) :
    SD_TRY_POP_ANY f k = k item { f with state := { f.state with
      stack := { size := uint_dec f.state.stack.size, ents := rest } } } := by
  unfold SD_TRY_POP_ANY sd_stack_pop
  rw [hents]

theorem SD_TRY_POP_ITEM_ok (type : sd_value_type) (f : sd_frame)
    (k : sd_item → sd_frame → sd_flow)
    (item : sd_item) (rest : List sd_item) (hents : f.state.stack.ents = item :: rest)
    (ht : item.t = type) :
    SD_TRY_POP_ITEM type f k = k item { f with state := { f.state with
      stack := { size := uint_dec f.state.stack.size, ents := rest } } } := by
  unfold SD_TRY_POP_ITEM sd_stack_pop
  rw [hents]
  simp only []
  rw [if_neg (by simp [ht])]

theorem SD_TRY_JUMP_SUBROUTINE_ok (name : Nat) (f : sd_frame) (k : sd_frame → sd_flow)
    (t : Int) (hget : sd_subr_table_get f.state.subroutines name = t) (hdef : t ≠ -1) :
    SD_TRY_JUMP_SUBROUTINE name f k =
      k { f with state := { f.state with instruction_pointer := t } } := by
  unfold SD_TRY_JUMP_SUBROUTINE
  rw [hget]
  simp only []
  rw [if_neg hdef]

/-! ## Call, return, definition and relative jump -/

/-- The case `c` with a defined letter on top of the stack. -/
theorem sd_case_c_ok (f : sd_frame) (name : Nat) (t : Int) (rest : List sd_item)
    (hents : f.state.stack.ents = ⟨sd_value_type.VAL_SYMBOL, (name : Int)⟩ :: rest)
    (hname : 65 ≤ name ∧ name ≤ 90)
    (hget : sd_subr_table_get f.state.subroutines name = t)
    (hdef : t ≠ -1) :
    sd_case_c f = sd_flow.fallthrough
      { state := { f.state with
          stack := { size := uint_dec f.state.stack.size, ents := rest }
          call_stack := { ents := f.state.instruction_pointer :: f.state.call_stack.ents }
          instruction_pointer := t }
        stat := sd_status.STAT_OK } := by
  have hsym : sd_symbol_of (name : Int) = name := sd_symbol_of_byte name (by omega)
  obtain ⟨⟨⟨sz, ents⟩, tbl, cs, res, code, len, ip, reg⟩, stat⟩ := f
  simp only at hents hget
  subst hents
  have hc : sd_case_c ⟨⟨⟨sz, ⟨sd_value_type.VAL_SYMBOL, (name : Int)⟩ :: rest⟩, tbl, cs, res, code,
      len, ip, reg⟩, stat⟩ =
      SD_TRY_JUMP_SUBROUTINE (sd_symbol_of (name : Int))
        ⟨⟨⟨uint_dec sz, rest⟩, tbl, ⟨ip :: cs.ents⟩, res, code, len, ip, reg⟩,
          sd_status.STAT_OK⟩ sd_flow.fallthrough := rfl
  rw [hc, hsym, SD_TRY_JUMP_SUBROUTINE_ok _ _ _ t hget hdef]

/-- C6 (as amended): in a state at instruction pointer `p` about to execute `c`, with
SYMBOL `name` on top of the stack and `name` defined as address `t`, the iteration pops
the symbol, pushes `p` onto the call stack and sets the pointer to `t`; the increment at
the end of the iteration then applies, so the next iteration starts at offset `t + 1`,
the byte after the brace. -/
theorem sd_call_step (f : sd_frame) (name : Nat) (t : Int) (rest : List sd_item)
    (hfetch : sd_fetches f 99)
    (hents : f.state.stack.ents = ⟨sd_value_type.VAL_SYMBOL, (name : Int)⟩ :: rest)
    (hname : 65 ≤ name ∧ name ≤ 90)
    (hget : sd_subr_table_get f.state.subroutines name = t)
    (hdef : t ≠ -1)
    (hfit : isI64 (t + 1)) :
    sd_run_iter f = sd_flow.cont
      { state := { f.state with
          stack := { size := uint_dec f.state.stack.size, ents := rest }
          call_stack := { ents := f.state.instruction_pointer :: f.state.call_stack.ents }
          instruction_pointer := t + 1 }
        stat := sd_status.STAT_OK } := by
  have hw := wrap64_of_isI64 _ hfit
  rw [sd_run_iter_of_fetches f 99 hfetch, sd_run_decode_c,
    sd_case_c_ok f name t rest hents hname hget hdef]
  simp only [sd_skip_intswitch, hw]

/-- C7 (as amended): in a state about to execute the closing brace whose call stack has
the address `r` on top, the iteration removes exactly that entry, leaves the operand
stack, the subroutine table, the scratch register and the result buffer as they were,
and sets the pointer to `r`; the increment at the end of the iteration then applies, so
the next iteration starts at offset `r + 1`. -/
theorem sd_return_step (f : sd_frame) (r : Int) (cs : List Int)
    (hfetch : sd_fetches f 125)
    (hcs : f.state.call_stack.ents = r :: cs)
    (hr : r ≠ -1)
    (hfit : isI64 (r + 1)) :
    sd_run_iter f = sd_flow.cont
      { f with state := { f.state with
          call_stack := { ents := cs }
          instruction_pointer := r + 1 } } := by
  have hw := wrap64_of_isI64 _ hfit
  rw [sd_run_iter_of_fetches f 125 hfetch, sd_run_decode_close]
  simp only [sd_case_close, sd_call_stack_pop, hcs, hr, sd_skip_intswitch, hw, if_false,
    ite_false]

/-! ## The result buffer across an iteration -/

theorem sd_keeps_of_frame (R : sd_result) (fl : sd_flow) (f : sd_frame)
    (h : fl.frame = some f) (hf : f.state.result = R) : sd_keeps R fl := by
  intro f1 h1
  rw [h] at h1
  cases h1
  exact hf

theorem sd_keeps_fault (R : sd_result) : sd_keeps R sd_flow.fault := by
  intro f1 h1; cases h1

theorem sd_keeps_timeout (R : sd_result) : sd_keeps R sd_flow.timeout := by
  intro f1 h1; cases h1

theorem sd_keeps_fallthrough (R : sd_result) (f : sd_frame) (hf : f.state.result = R) :
    sd_keeps R (sd_flow.fallthrough f) := sd_keeps_of_frame R _ f rfl hf

theorem sd_keeps_cont (R : sd_result) (f : sd_frame) (hf : f.state.result = R) :
    sd_keeps R (sd_flow.cont f) := sd_keeps_of_frame R _ f rfl hf

theorem sd_keeps_brk (R : sd_result) (f : sd_frame) (hf : f.state.result = R) :
    sd_keeps R (sd_flow.brk f) := sd_keeps_of_frame R _ f rfl hf

theorem SD_TRY_keeps (R : sd_result) (act : sd_status) (f : sd_frame) (k : sd_frame → sd_flow)
    (hf : f.state.result = R)
    (hk : ∀ f1 : sd_frame, f1.state.result = R → sd_keeps R (k f1)) :
    sd_keeps R (SD_TRY act f k) := by
  unfold SD_TRY
  by_cases h : act ≠ sd_status.STAT_OK
  · rw [if_pos h]; exact sd_keeps_brk R _ hf
  · rw [if_neg h]; exact hk _ hf

theorem SD_TRY_POP_ANY_keeps (R : sd_result) (f : sd_frame) (k : sd_item → sd_frame → sd_flow)
    (hf : f.state.result = R)
    (hk : ∀ (item : sd_item) (f1 : sd_frame), f1.state.result = R → sd_keeps R (k item f1)) :
    sd_keeps R (SD_TRY_POP_ANY f k) := by
  unfold SD_TRY_POP_ANY
  cases h : (sd_stack_pop f.state.stack).1 with
  | none => simp only [h]; exact sd_keeps_brk R _ hf
  | some item => simp only [h]; exact hk _ _ hf

theorem SD_TRY_POP_ITEM_keeps (R : sd_result) (type : sd_value_type) (f : sd_frame)
    (k : sd_item → sd_frame → sd_flow)
    (hf : f.state.result = R)
    (hk : ∀ (item : sd_item) (f1 : sd_frame), f1.state.result = R → sd_keeps R (k item f1)) :
    sd_keeps R (SD_TRY_POP_ITEM type f k) := by
  unfold SD_TRY_POP_ITEM
  cases h : (sd_stack_pop f.state.stack).1 with
  | none => simp only [h]; exact sd_keeps_brk R _ hf
  | some item =>
    simp only [h]
    by_cases ht : item.t ≠ type
    · rw [if_pos ht]; exact sd_keeps_brk R _ hf
    · rw [if_neg ht]; exact hk _ _ hf

theorem SD_TRY_JUMP_SUBROUTINE_keeps (R : sd_result) (name : Nat) (f : sd_frame)
    (k : sd_frame → sd_flow)
    (hf : f.state.result = R)
    (hk : ∀ f1 : sd_frame, f1.state.result = R → sd_keeps R (k f1)) :
    sd_keeps R (SD_TRY_JUMP_SUBROUTINE name f k) := by
  unfold SD_TRY_JUMP_SUBROUTINE
  by_cases h : sd_subr_table_get f.state.subroutines name = -1
  · simp only [h, if_true]; exact sd_keeps_brk R _ hf
  · simp only [h, if_false]; exact hk _ hf

theorem SD_TRY_PUSH_keeps (R : sd_result) (t : sd_value_type) (val : Int) (f : sd_frame)
    (k : sd_frame → sd_flow)
    (hf : f.state.result = R)
    (hk : ∀ f1 : sd_frame, f1.state.result = R → sd_keeps R (k f1)) :
    sd_keeps R (SD_TRY_PUSH t val f k) := by
  unfold SD_TRY_PUSH
  exact SD_TRY_keeps R _ _ k hf hk

theorem SD_TRY_ARITHMETIC_keeps (R : sd_result) (expression : Int → Int → Option Int)
    (f : sd_frame) (hf : f.state.result = R) :
    sd_keeps R (SD_TRY_ARITHMETIC expression f) := by
  unfold SD_TRY_ARITHMETIC
  refine SD_TRY_POP_ITEM_keeps R _ f _ hf (fun ib f1 h1 => ?_)
  refine SD_TRY_POP_ITEM_keeps R _ f1 _ h1 (fun ia f2 h2 => ?_)
  cases h : expression ia.v ib.v with
  | none => simp only [h]; exact sd_keeps_fault R
  | some val =>
    simp only [h]
    exact SD_TRY_PUSH_keeps R _ _ f2 _ h2 (fun f3 h3 => sd_keeps_fallthrough R f3 h3)

/-- The block skipper only moves the instruction pointer. -/
theorem sd_run_skip_loop_result (fuel level : Nat) (state state1 : sd_vm_state)
    (stat : sd_status) (h : sd_run_skip_loop fuel level state = sd_skip.done stat state1) :
    state1.result = state.result := by
  induction fuel generalizing level state with
  | zero => simp [sd_run_skip_loop] at h
  | succ n ih =>
    unfold sd_run_skip_loop at h
    by_cases hl : level > 0
    · rw [if_pos hl] at h
      simp only at h
      split at h
      · cases h; rfl
      · split at h
        · cases h
        · split at h
          · have h2 := ih _ _ h; exact h2
          · split at h
            · have h2 := ih _ _ h; exact h2
            · have h2 := ih _ _ h; exact h2
    · rw [if_neg hl] at h
      cases h; rfl

theorem sd_case_open_keeps (f : sd_frame) : sd_keeps f.state.result (sd_case_open f) := by
  unfold sd_case_open
  refine SD_TRY_PUSH_keeps _ _ _ f _ rfl (fun f1 h1 => ?_)
  cases h : sd_run_skip f1.state with
  | fault => simp only [h]; exact sd_keeps_fault _
  | timeout => simp only [h]; exact sd_keeps_timeout _
  | done stat state =>
    simp only [h]
    have hs := sd_run_skip_loop_result _ _ _ _ _ h
    exact SD_TRY_keeps _ _ _ _ (hs.trans h1) (fun f1 h1 => sd_keeps_fallthrough _ f1 h1)

theorem sd_case_close_keeps (f : sd_frame) : sd_keeps f.state.result (sd_case_close f) := by
  unfold sd_case_close
  simp only []
  split_ifs
  · exact sd_keeps_brk _ _ rfl
  · exact sd_keeps_fallthrough _ _ rfl

theorem sd_case_f_keeps (f : sd_frame) : sd_keeps f.state.result (sd_case_f f) := by
  unfold sd_case_f
  refine SD_TRY_POP_ITEM_keeps _ _ f _ rfl (fun item f1 h1 => ?_)
  refine SD_TRY_POP_ITEM_keeps _ _ f1 _ h1 (fun item1 f2 h2 => ?_)
  exact SD_TRY_keeps _ _ _ _ h2 (fun f1 h1 => sd_keeps_fallthrough _ f1 h1)

theorem sd_case_j_keeps (f : sd_frame) : sd_keeps f.state.result (sd_case_j f) := by
  unfold sd_case_j
  refine SD_TRY_POP_ANY_keeps _ f _ rfl (fun item f1 h1 => ?_)
  split_ifs
  · exact sd_keeps_cont _ _ h1
  · exact SD_TRY_JUMP_SUBROUTINE_keeps _ _ f1 _ h1 (fun f1 h1 => sd_keeps_fallthrough _ f1 h1)
  · exact sd_keeps_brk _ _ h1

theorem sd_case_c_keeps (f : sd_frame) : sd_keeps f.state.result (sd_case_c f) := by
  unfold sd_case_c
  refine SD_TRY_keeps _ _ _ _ rfl (fun f1 h1 => ?_)
  refine SD_TRY_POP_ITEM_keeps _ _ f1 _ h1 (fun item f2 h2 => ?_)
  exact SD_TRY_JUMP_SUBROUTINE_keeps _ _ f2 _ h2 (fun f1 h1 => sd_keeps_fallthrough _ f1 h1)

theorem sd_case_i_keeps (f : sd_frame) : sd_keeps f.state.result (sd_case_i f) := by
  unfold sd_case_i
  refine SD_TRY_POP_ITEM_keeps _ _ f _ rfl (fun item f1 h1 => ?_)
  refine SD_TRY_POP_ITEM_keeps _ _ f1 _ h1 (fun item1 f2 h2 => ?_)
  refine SD_TRY_POP_ITEM_keeps _ _ f2 _ h2 (fun item2 f3 h3 => ?_)
  refine SD_TRY_keeps _ _ _ _ h3 (fun f4 h4 => ?_)
  exact SD_TRY_JUMP_SUBROUTINE_keeps _ _ f4 _ h4 (fun f1 h1 => sd_keeps_fallthrough _ f1 h1)

theorem sd_case_k_keeps (f : sd_frame) : sd_keeps f.state.result (sd_case_k f) := by
  unfold sd_case_k
  refine SD_TRY_POP_ANY_keeps _ f _ rfl (fun bf f1 h1 => ?_)
  refine SD_TRY_POP_ANY_keeps _ f1 _ h1 (fun bt f2 h2 => ?_)
  refine SD_TRY_POP_ITEM_keeps _ _ f2 _ h2 (fun item2 f3 h3 => ?_)
  simp only []
  by_cases hs : (if item2.v = 0 then bf else bt).t = sd_value_type.VAL_SYMBOL
  · rw [if_pos hs]
    exact SD_TRY_JUMP_SUBROUTINE_keeps _ _ f3 _ h3 (fun f1 h1 => sd_keeps_fallthrough _ f1 h1)
  · rw [if_neg hs]
    by_cases hi : (if item2.v = 0 then bf else bt).t = sd_value_type.VAL_INTEGER
    · rw [if_pos hi]; exact sd_keeps_cont _ _ h3
    · rw [if_neg hi]; exact sd_keeps_brk _ _ h3

theorem sd_case_q_keeps (f : sd_frame) : sd_keeps f.state.result (sd_case_q f) := by
  exact sd_keeps_fallthrough _ _ rfl

theorem sd_case_w_keeps (f : sd_frame) : sd_keeps f.state.result (sd_case_w f) := by
  exact sd_keeps_fallthrough _ _ rfl

theorem sd_case_e_keeps (f : sd_frame) : sd_keeps f.state.result (sd_case_e f) := by
  unfold sd_case_e
  refine SD_TRY_POP_ANY_keeps _ f _ rfl (fun a f1 h1 => ?_)
  refine SD_TRY_POP_ANY_keeps _ f1 _ h1 (fun b f2 h2 => ?_)
  refine SD_TRY_PUSH_keeps _ _ _ f2 _ h2 (fun f3 h3 => ?_)
  exact SD_TRY_PUSH_keeps _ _ _ f3 _ h3 (fun f1 h1 => sd_keeps_fallthrough _ f1 h1)

theorem sd_case_z_keeps (f : sd_frame) : sd_keeps f.state.result (sd_case_z f) := by
  exact SD_TRY_PUSH_keeps _ _ _ f _ rfl (fun f1 h1 => sd_keeps_fallthrough _ f1 h1)

theorem sd_case_x_keeps (f : sd_frame) : sd_keeps f.state.result (sd_case_x f) := by
  unfold sd_case_x
  refine SD_TRY_POP_ITEM_keeps _ _ f _ rfl (fun item f1 h1 => ?_)
  cases h : sd_stack_duplicate_at f1.state.stack item.v with
  | none => simp only [h]; exact sd_keeps_fault _
  | some r =>
    simp only [h]
    exact SD_TRY_keeps _ _ _ _ h1 (fun f1 h1 => sd_keeps_fallthrough _ f1 h1)

theorem sd_case_y_keeps (f : sd_frame) : sd_keeps f.state.result (sd_case_y f) := by
  unfold sd_case_y
  refine SD_TRY_POP_ANY_keeps _ f _ rfl (fun value f1 h1 => ?_)
  refine SD_TRY_POP_ITEM_keeps _ _ f1 _ h1 (fun item f2 h2 => ?_)
  cases h : sd_stack_replace_at f2.state.stack item.v value.t value.v with
  | none => simp only [h]; exact sd_keeps_fault _
  | some r =>
    simp only [h]
    exact SD_TRY_keeps _ _ _ _ h2 (fun f1 h1 => sd_keeps_fallthrough _ f1 h1)

theorem sd_case_t_keeps (f : sd_frame) : sd_keeps f.state.result (sd_case_t f) := by
  unfold sd_case_t
  refine SD_TRY_POP_ITEM_keeps _ _ f _ rfl (fun item f1 h1 => ?_)
  exact SD_TRY_PUSH_keeps _ _ _ _ _ h1 (fun f1 h1 => sd_keeps_fallthrough _ f1 h1)

theorem sd_case_h_keeps (f : sd_frame) : sd_keeps f.state.result (sd_case_h f) := by
  exact sd_keeps_brk _ _ rfl

/-- The result buffer after each case of the switch other than `r`. -/
theorem sd_run_switch_keeps (instruction : Nat) (f : sd_frame) (hne : instruction ≠ 114) :
    sd_keeps f.state.result (sd_run_switch instruction f) := by
  unfold sd_run_switch
  by_cases h123 : instruction = 123
  · rw [if_pos h123]; exact sd_case_open_keeps f
  rw [if_neg h123]
  by_cases h125 : instruction = 125
  · rw [if_pos h125]; exact sd_case_close_keeps f
  rw [if_neg h125]
  by_cases h102 : instruction = 102
  · rw [if_pos h102]; exact sd_case_f_keeps f
  rw [if_neg h102]
  by_cases h97 : instruction = 97
  · rw [if_pos h97]; exact SD_TRY_ARITHMETIC_keeps _ _ f rfl
  rw [if_neg h97]
  by_cases h115 : instruction = 115
  · rw [if_pos h115]; exact SD_TRY_ARITHMETIC_keeps _ _ f rfl
  rw [if_neg h115]
  by_cases h109 : instruction = 109
  · rw [if_pos h109]; exact SD_TRY_ARITHMETIC_keeps _ _ f rfl
  rw [if_neg h109]
  by_cases h100 : instruction = 100
  · rw [if_pos h100]; exact SD_TRY_ARITHMETIC_keeps _ _ f rfl
  rw [if_neg h100]
  by_cases h106 : instruction = 106
  · rw [if_pos h106]; exact sd_case_j_keeps f
  rw [if_neg h106]
  by_cases h99 : instruction = 99
  · rw [if_pos h99]; exact sd_case_c_keeps f
  rw [if_neg h99]
  by_cases h105 : instruction = 105
  · rw [if_pos h105]; exact sd_case_i_keeps f
  rw [if_neg h105]
  by_cases h107 : instruction = 107
  · rw [if_pos h107]; exact sd_case_k_keeps f
  rw [if_neg h107]
  by_cases h114 : instruction = 114
  · exact absurd h114 hne
  rw [if_neg h114]
  by_cases h113 : instruction = 113
  · rw [if_pos h113]; exact sd_case_q_keeps f
  rw [if_neg h113]
  by_cases h119 : instruction = 119
  · rw [if_pos h119]; exact sd_case_w_keeps f
  rw [if_neg h119]
  by_cases h101 : instruction = 101
  · rw [if_pos h101]; exact sd_case_e_keeps f
  rw [if_neg h101]
  by_cases h122 : instruction = 122
  · rw [if_pos h122]; exact sd_case_z_keeps f
  rw [if_neg h122]
  by_cases h120 : instruction = 120
  · rw [if_pos h120]; exact sd_case_x_keeps f
  rw [if_neg h120]
  by_cases h121 : instruction = 121
  · rw [if_pos h121]; exact sd_case_y_keeps f
  rw [if_neg h121]
  by_cases h116 : instruction = 116
  · rw [if_pos h116]; exact sd_case_t_keeps f
  rw [if_neg h116]
  by_cases h104 : instruction = 104
  · rw [if_pos h104]; exact sd_case_h_keeps f
  rw [if_neg h104]
  exact sd_keeps_fallthrough _ _ rfl

/-- The result buffer after the body of an iteration on a byte other than `r`. -/
theorem sd_run_decode_keeps (instruction : Nat) (f : sd_frame) (hne : instruction ≠ 114) :
    sd_keeps f.state.result (sd_run_decode instruction f) := by
  unfold sd_run_decode
  by_cases hd : 48 ≤ instruction ∧ instruction ≤ 57
  · rw [if_pos hd]
    exact SD_TRY_PUSH_keeps _ _ _ f _ rfl (fun f1 h1 => sd_keeps_fallthrough _ f1 h1)
  rw [if_neg hd]
  by_cases hl : 65 ≤ instruction ∧ instruction ≤ 90
  · rw [if_pos hl]
    exact SD_TRY_PUSH_keeps _ _ _ f _ rfl (fun f1 h1 => sd_keeps_fallthrough _ f1 h1)
  rw [if_neg hl]
  exact sd_run_switch_keeps instruction f hne

/-- A granted growth leaves a valid pointer and the elements stored. -/
theorem sd_result_grow_ok (result : sd_result)
    (h : (sd_result_grow result).1 = sd_status.STAT_OK) :
    (sd_result_grow result).2.null = false ∧
    (sd_result_grow result).2.out = result.out ∧
    (sd_result_grow result).2.heap = result.heap ∧
    (sd_result_grow result).2.cap =
      (if result.cap = 0 then 256
        else (result.cap * (result.cap * 2)) % 18446744073709551616) := by
  unfold sd_result_grow at h ⊢
  simp only [] at h ⊢
  generalize (if result.cap = 0 then 256
    else (result.cap * (result.cap * 2)) % 18446744073709551616) = capn at h ⊢
  by_cases hb : capn * 8 % 18446744073709551616 = 0 ∨
      result.heap < capn * 8 % 18446744073709551616
  · rw [if_pos hb] at h
    exact sd_status.noConfusion h
  · rw [if_neg hb]
    exact ⟨rfl, rfl, rfl, rfl⟩

/-- A refused growth: `STAT_ERRMEM`, the pointer overwritten with `NULL`, the capacity
set to `SIZE_MAX`, the elements counted as before. -/
theorem sd_result_grow_refused (result : sd_result)
    (h : ¬ sd_result_granted result) :
    sd_result_grow result = (sd_status.STAT_ERRMEM,
      { result with cap := 18446744073709551615, null := true }) := by
  unfold sd_result_granted sd_result_grow at h
  unfold sd_result_grow
  simp only [] at h ⊢
  generalize (if result.cap = 0 then 256
    else (result.cap * (result.cap * 2)) % 18446744073709551616) = capn at h ⊢
  by_cases hb : capn * 8 % 18446744073709551616 = 0 ∨
      result.heap < capn * 8 % 18446744073709551616
  · rw [if_pos hb]
  · rw [if_neg hb] at h
    exact absurd rfl h

/-- A buffer of capacity 131072 asks for 2^35 elements, 2^38 bytes: refused on a host
that grants less. -/
theorem sd_result_refused_large (result : sd_result) (hcap : result.cap = 131072)
    (hheap : result.heap < 274877906944) : ¬ sd_result_granted result := by
  unfold sd_result_granted sd_result_grow
  simp only [hcap]
  rw [if_pos (Or.inr (by
    have h1 : (if (131072 : Nat) = 0 then 256
        else 131072 * (131072 * 2) % 18446744073709551616) * 8 % 18446744073709551616
        = 274877906944 := by decide
    rw [h1]; exact hheap))]
  exact fun hc => sd_status.noConfusion hc

/-- A buffer of capacity 2^35 asks for 2^71 elements, which wraps to 0: a request of
0 bytes, refused on every host. -/
theorem sd_result_refused_wrap (result : sd_result) (hcap : result.cap = 34359738368) :
    ¬ sd_result_granted result := by
  unfold sd_result_granted sd_result_grow
  simp only [hcap]
  rw [if_pos (Or.inl (by decide))]
  exact fun hc => sd_status.noConfusion hc

/-- The function `sd_result_append` on a buffer that can take one more element. -/
theorem sd_result_append_ok (result : sd_result) (val : Int) (h : sd_result_room result) :
    sd_result_append result val = some (sd_status.STAT_OK, sd_result_after result val) ∧
    (sd_result_after result val).out = result.out ++ [val] ∧
    (sd_result_after result val).null = false ∧
    (sd_result_after result val).heap = result.heap ∧
    (sd_result_after result val).cap =
      (if result.len = result.cap then (sd_result_grow result).2.cap else result.cap) := by
  unfold sd_result_room at h
  by_cases h1 : result.len = result.cap
  · rw [if_pos h1] at h
    obtain ⟨g1, g2, g3, _⟩ := sd_result_grow_ok result h
    have ha : sd_result_append result val = some (sd_status.STAT_OK,
        { (sd_result_grow result).2 with out := (sd_result_grow result).2.out ++ [val] }) := by
      unfold sd_result_append
      simp only [h1, if_true]
      rw [if_neg (by rw [h]; exact fun hc => hc rfl), if_neg (by rw [g1]; decide)]
    have hafter : sd_result_after result val =
        { (sd_result_grow result).2 with out := (sd_result_grow result).2.out ++ [val] } := by
      unfold sd_result_after
      rw [ha]
    rw [hafter, if_pos h1]
    exact ⟨ha, by show (sd_result_grow result).2.out ++ [val] = _; rw [g2], g1, g3, rfl⟩
  · rw [if_neg h1] at h
    have ha : sd_result_append result val = some (sd_status.STAT_OK,
        { result with out := result.out ++ [val] }) := by
      unfold sd_result_append
      simp only [h1, if_false]
      rw [if_neg (fun hc => hc rfl), if_neg (by rw [h]; decide)]
    have hafter : sd_result_after result val = { result with out := result.out ++ [val] } := by
      unfold sd_result_after
      rw [ha]
    rw [hafter, if_neg h1]
    exact ⟨ha, rfl, h, rfl, rfl⟩

/-- The function `sd_result_append` on a full buffer whose growth is refused. -/
theorem sd_result_append_refused (result : sd_result) (val : Int)
    (hfull : result.len = result.cap) (h : ¬ sd_result_granted result) :
    sd_result_append result val = some (sd_status.STAT_ERRMEM,
      { result with cap := 18446744073709551615, null := true }) := by
  unfold sd_result_append
  simp only [hfull, if_true]
  rw [sd_result_grow_refused result h]
  simp only []
  rw [if_pos (by decide)]

/-- The function `sd_result_append` on a buffer that is not full and whose pointer is
`NULL`: the store faults. -/
theorem sd_result_append_null (result : sd_result) (val : Int)
    (hfull : result.len ≠ result.cap) (h : result.null = true) :
    sd_result_append result val = none := by
  unfold sd_result_append
  simp only [hfull, if_false]
  rw [if_neg (fun hc => hc rfl), if_pos h]

/-- The case `r` with an INTEGER on top appends its value and leaves the stack. -/
theorem sd_case_r_integer (f : sd_frame) (v : Int) (rest : List sd_item)
    (hents : f.state.stack.ents = ⟨sd_value_type.VAL_INTEGER, v⟩ :: rest)
    (hroom : sd_result_room f.state.result) :
    sd_case_r f = sd_flow.fallthrough
      { state := { f.state with result := sd_result_after f.state.result v }
        stat := sd_status.STAT_OK } := by
  have hpeek : sd_stack_peek f.state.stack = some ⟨sd_value_type.VAL_INTEGER, v⟩ := by
    unfold sd_stack_peek; rw [hents]
  obtain ⟨hok, _⟩ := sd_result_append_ok f.state.result v hroom
  unfold sd_case_r
  rw [hpeek]
  simp only [ne_eq, not_true_eq_false, if_false]
  rw [hok]
  simp only []
  rw [SD_TRY_ok]

/-- The case `r` with an INTEGER on top of the stack, the buffer full and the growth
refused: the loop is left with `STAT_ERRMEM` and nothing is appended. -/
theorem sd_case_r_refused (f : sd_frame) (v : Int) (rest : List sd_item)
    (hents : f.state.stack.ents = ⟨sd_value_type.VAL_INTEGER, v⟩ :: rest)
    (hfull : f.state.result.len = f.state.result.cap)
    (href : ¬ sd_result_granted f.state.result) :
    sd_case_r f = sd_flow.brk
      { state := { f.state with
          result := { f.state.result with cap := 18446744073709551615, null := true } }
        stat := sd_status.STAT_ERRMEM } := by
  have hpeek : sd_stack_peek f.state.stack = some ⟨sd_value_type.VAL_INTEGER, v⟩ := by
    unfold sd_stack_peek; rw [hents]
  unfold sd_case_r
  rw [hpeek]
  simp only [ne_eq, not_true_eq_false, if_false]
  rw [sd_result_append_refused _ v hfull href]
  simp only []
  unfold SD_TRY
  rw [if_pos (by decide)]

/-- The case `r` with an INTEGER on top of the stack, the buffer not full and its
pointer `NULL`: the store faults. -/
theorem sd_case_r_null (f : sd_frame) (v : Int) (rest : List sd_item)
    (hents : f.state.stack.ents = ⟨sd_value_type.VAL_INTEGER, v⟩ :: rest)
    (hfull : f.state.result.len ≠ f.state.result.cap)
    (hnull : f.state.result.null = true) :
    sd_case_r f = sd_flow.fault := by
  have hpeek : sd_stack_peek f.state.stack = some ⟨sd_value_type.VAL_INTEGER, v⟩ := by
    unfold sd_stack_peek; rw [hents]
  unfold sd_case_r
  rw [hpeek]
  simp only [ne_eq, not_true_eq_false, if_false]
  rw [sd_result_append_null _ v hfull hnull]

/-- The case `r` without an INTEGER on top leaves the result buffer. -/
theorem sd_case_r_other (f : sd_frame)
    (hno : ¬ ∃ (v : Int) (rest : List sd_item),
      f.state.stack.ents = ⟨sd_value_type.VAL_INTEGER, v⟩ :: rest) :
    sd_keeps f.state.result (sd_case_r f) := by
  unfold sd_case_r sd_stack_peek
  cases he : f.state.stack.ents with
  | nil => exact sd_keeps_brk _ _ rfl
  | cons item rest =>
    simp only []
    by_cases ht : item.t ≠ sd_value_type.VAL_INTEGER
    · rw [if_pos ht]; exact sd_keeps_brk _ _ rfl
    · exfalso
      apply hno
      refine ⟨item.v, rest, ?_⟩
      rw [he]
      have : item.t = sd_value_type.VAL_INTEGER := not_not.mp ht
      cases item
      simp only at this
      rw [this]

/-- The increment at the end of an iteration does not touch the result buffer. -/
theorem sd_keeps_increment (R : sd_result) (fl : sd_flow) (h : sd_keeps R fl) :
    sd_keeps R (sd_skip_intswitch fl) := by
  cases fl with
  | fallthrough f1 => exact sd_keeps_cont R _ (h f1 rfl)
  | cont f1 => exact h
  | brk f1 => exact h
  | fault => exact h
  | timeout => exact h

/-- An iteration that does not execute `r` on an INTEGER leaves the result buffer. -/
theorem sd_run_iter_keeps (f : sd_frame)
    (hno : ¬ (sd_fetches f 114 ∧ ∃ (v : Int) (rest : List sd_item),
      f.state.stack.ents = ⟨sd_value_type.VAL_INTEGER, v⟩ :: rest)) :
    sd_keeps f.state.result (sd_run_iter f) := by
  by_cases hg : toU64 f.state.instruction_pointer > f.state.code_len
  · unfold sd_run_iter
    rw [if_pos hg]
    exact sd_keeps_brk _ _ rfl
  · cases hc : sd_code_at f.state.code f.state.instruction_pointer with
    | none =>
      unfold sd_run_iter
      rw [if_neg hg, hc]
      exact sd_keeps_fault _
    | some instruction =>
      rw [sd_run_iter_of_fetches f instruction ⟨hg, hc⟩]
      apply sd_keeps_increment
      by_cases hr : instruction = 114
      · subst hr
        rw [sd_run_decode_r]
        exact sd_case_r_other f (fun hex => hno ⟨⟨hg, hc⟩, hex⟩)
      · exact sd_run_decode_keeps instruction f hr

/-- C10 (defect): the iteration on `r` with an INTEGER on top of the stack.  When the
buffer can take one more element, it is extended by exactly that value and the operand
stack is left as it was.  When the buffer is full and `realloc` refuses the growth, the
loop is left with STAT_ERRMEM: nothing is appended and the pointer is overwritten with
`NULL` while the element count stays, so that the elements stored so far are lost and the
flush after the loop faults on them.  A full buffer of 131072 elements asks for 2^35
elements, 256 GiB, and is refused on every host that does not grant that much; a full
buffer of 2^35 elements asks for 0 bytes and is refused on every host.  Every iteration
other than `r` on an INTEGER leaves the buffer as it was. -/
theorem sd_result_monotone (f : sd_frame) :
    (∀ (v : Int) (rest : List sd_item), sd_fetches f 114 →
      f.state.stack.ents = ⟨sd_value_type.VAL_INTEGER, v⟩ :: rest →
      sd_result_room f.state.result →
      ∃ f1 : sd_frame, sd_run_iter f = sd_flow.cont f1 ∧
        f1.state.result.out = f.state.result.out ++ [v] ∧
        f1.state.result.null = false ∧
        f1.state.stack = f.state.stack) ∧
    (∀ (v : Int) (rest : List sd_item), sd_fetches f 114 →
      f.state.stack.ents = ⟨sd_value_type.VAL_INTEGER, v⟩ :: rest →
      f.state.result.len = f.state.result.cap →
      ¬ sd_result_granted f.state.result →
      sd_run_iter f = sd_flow.brk
        { state := { f.state with
            result := { f.state.result with cap := 18446744073709551615, null := true } }
          stat := sd_status.STAT_ERRMEM } ∧
      (f.state.result.out ≠ [] →
        sd_result_lost { f.state.result with cap := 18446744073709551615, null := true })) ∧
    (f.state.result.cap = 131072 → f.state.result.heap < 274877906944 →
      ¬ sd_result_granted f.state.result) ∧
    (f.state.result.cap = 34359738368 → ¬ sd_result_granted f.state.result) ∧
    (∀ f1 : sd_frame, (sd_run_iter f).frame = some f1 →
      ¬ (sd_fetches f 114 ∧ ∃ (v : Int) (rest : List sd_item),
          f.state.stack.ents = ⟨sd_value_type.VAL_INTEGER, v⟩ :: rest) →
      f1.state.result = f.state.result) := by
  refine ⟨fun v rest hfetch hents hroom => ?_, fun v rest hfetch hents hfull href => ?_,
    fun hcap hheap => ?_, fun hcap => ?_, fun f1 hf1 hno => sd_run_iter_keeps f hno f1 hf1⟩
  · obtain ⟨_, hout, hnull, _, _⟩ := sd_result_append_ok f.state.result v hroom
    refine ⟨sd_frame.mk { f.state with
        result := sd_result_after f.state.result v
        instruction_pointer := wrap64 (f.state.instruction_pointer + 1) } sd_status.STAT_OK,
      ?_, hout, hnull, rfl⟩
    rw [sd_run_iter_of_fetches f 114 hfetch, sd_run_decode_r,
      sd_case_r_integer f v rest hents hroom]
    rfl
  · refine ⟨?_, fun hne => ⟨rfl, hne⟩⟩
    rw [sd_run_iter_of_fetches f 114 hfetch, sd_run_decode_r,
      sd_case_r_refused f v rest hents hfull href]
    rfl
  · exact sd_result_refused_large f.state.result hcap hheap
  · exact sd_result_refused_wrap f.state.result hcap

/-! ## Definition and relative jump -/

/-- C8: in a state about to execute `f` whose stack holds SYMBOL `name` on top of
ADDRESS `addr`, the iteration pops both and afterwards `sd_subr_table_get` returns `addr`
for `name`, whatever the table held for it before, and returns for every other letter
what it returned before: the lookup of a letter `l` is `addr` if `l = name` and the former
lookup otherwise. -/
theorem sd_define_step (f : sd_frame) (name : Nat) (addr : Int) (rest : List sd_item)
    (hfetch : sd_fetches f 102)
    (hents : f.state.stack.ents =
      ⟨sd_value_type.VAL_SYMBOL, (name : Int)⟩ :: ⟨sd_value_type.VAL_IP, addr⟩ :: rest)
    (hname : 65 ≤ name ∧ name ≤ 90) :
    ∃ f1 : sd_frame, sd_run_iter f = sd_flow.cont f1 ∧
      f1.state.stack.ents = rest ∧
      sd_subr_table_get f1.state.subroutines name = addr ∧
      (∀ l : Nat, 65 ≤ l ∧ l ≤ 90 → l ≠ name →
        sd_subr_table_get f1.state.subroutines l = sd_subr_table_get f.state.subroutines l) ∧
      (∀ l : Nat, 65 ≤ l ∧ l ≤ 90 →
        sd_subr_table_get f1.state.subroutines l =
          if l = name then addr else sd_subr_table_get f.state.subroutines l) ∧
      f1.state.call_stack = f.state.call_stack ∧
      f1.state.result = f.state.result ∧
      f1.state.register_1 = f.state.register_1 := by
  have hsym : sd_symbol_of (name : Int) = name := sd_symbol_of_byte name (by omega)
  rw [sd_run_iter_of_fetches f 102 hfetch, sd_run_decode_f]
  obtain ⟨⟨⟨sz, ents⟩, tbl, cs, res, code, len, ip, reg⟩, stat⟩ := f
  simp only at hents
  subst hents
  have hc : sd_case_f ⟨⟨⟨sz, ⟨sd_value_type.VAL_SYMBOL, (name : Int)⟩ ::
      ⟨sd_value_type.VAL_IP, addr⟩ :: rest⟩, tbl, cs, res, code, len, ip, reg⟩, stat⟩ =
      sd_flow.fallthrough
        ⟨⟨⟨uint_dec (uint_dec sz), rest⟩,
          (sd_subr_table_set tbl (sd_symbol_of (name : Int)) addr).2, cs, res, code, len, ip, reg⟩,
          sd_status.STAT_OK⟩ := rfl
  rw [hc, hsym]
  refine ⟨_, rfl, rfl, ?_, ?_, ?_, rfl, rfl, rfl⟩
  · have h := sd_subr_table_get_set tbl name name addr hname hname
    rw [if_pos rfl] at h
    exact h
  · intro l hl hne
    have h := sd_subr_table_get_set tbl name l addr hname hl
    rw [if_neg hne] at h
    exact h
  · intro l hl
    exact sd_subr_table_get_set tbl name l addr hname hl

/-- C9: in a state at instruction pointer `p` about to execute `j` with INTEGER `x` on
top of the stack and `p + x` representable in 64 signed bits, the iteration pops `x` and
the next iteration starts at exactly `p + x` (no increment is applied); the call stack,
the subroutine table, the result buffer, the register and the status are unchanged. -/
theorem sd_jump_relative_step (f : sd_frame) (x : Int) (rest : List sd_item)
    (hfetch : sd_fetches f 106)
    (hents : f.state.stack.ents = ⟨sd_value_type.VAL_INTEGER, x⟩ :: rest)
    (hfit : isI64 (f.state.instruction_pointer + x)) :
    sd_run_iter f = sd_flow.cont
      { f with state := { f.state with
          stack := { size := uint_dec f.state.stack.size, ents := rest }
          instruction_pointer := f.state.instruction_pointer + x } } := by
  have hw := wrap64_of_isI64 _ hfit
  rw [sd_run_iter_of_fetches f 106 hfetch, sd_run_decode_j]
  simp only [sd_case_j, SD_TRY_POP_ANY, sd_stack_pop, hents, sd_skip_intswitch, hw, if_true,
    ite_true]

/-! ## Witnesses of the single-iteration theorems -/

/-- Counterexample to C6 as stated: in `{5rh}Af Ac` the frame before `c` has SYMBOL A on
top and A defined as address 0, the offset of the brace; after the iteration the pointer
is 1, not 0, so the next byte fetched is the `5` after the brace. -/
theorem sd_call_skips_brace :
    sd_fetches (sd_frame_after 5 sd_prog_name_first) 99 ∧
    (sd_frame_after 5 sd_prog_name_first).state.stack.ents =
      [⟨sd_value_type.VAL_SYMBOL, 65⟩] ∧
    sd_subr_table_get (sd_frame_after 5 sd_prog_name_first).state.subroutines 65 = 0 ∧
    sd_code_at sd_prog_name_first 0 = some 123 ∧
    sd_pointer (sd_run_iter (sd_frame_after 5 sd_prog_name_first)) = some 1 ∧
    sd_pointer (sd_run_iter (sd_frame_after 5 sd_prog_name_first)) ≠ some 0 := by
  decide

/-- Witness of C6 as amended: the call in `{5rh}Af Ac`, at offset 9, pops A, pushes 9 onto
the call stack and continues at offset 1. -/
theorem sd_call_step_witness :
    sd_fetches (sd_frame_after 5 sd_prog_name_first) 99 ∧
    (sd_frame_after 5 sd_prog_name_first).state.instruction_pointer = 9 ∧
    sd_pointer (sd_run_iter (sd_frame_after 5 sd_prog_name_first)) = some (0 + 1) ∧
    sd_returns (sd_run_iter (sd_frame_after 5 sd_prog_name_first)) = some [9] ∧
    sd_operands (sd_run_iter (sd_frame_after 5 sd_prog_name_first)) = some [] :=
  have h := sd_call_step (sd_frame_after 5 sd_prog_name_first) 65 0 []
    (by decide) (by decide) (by decide) (by decide) (by decide) (by decide)
  ⟨by decide, by decide, by rw [h]; rfl, by rw [h]; rfl, by rw [h]; rfl⟩

/-- Counterexample to C7 as stated: in `{1r}Af Ac 2r` the closing brace is executed with
the return address 8 on the call stack; after the iteration the pointer is 9, not 8. -/
theorem sd_return_skips_call :
    sd_fetches (sd_frame_after 8 sd_prog_return) 125 ∧
    (sd_frame_after 8 sd_prog_return).state.call_stack.ents = [8] ∧
    sd_pointer (sd_run_iter (sd_frame_after 8 sd_prog_return)) = some 9 ∧
    sd_pointer (sd_run_iter (sd_frame_after 8 sd_prog_return)) ≠ some 8 := by
  decide

/-- Witness of C7 as amended: the return in `{1r}Af Ac 2r` pops the address 8 and
continues at offset 9 with the operand stack and the result buffer as they were. -/
theorem sd_return_step_witness :
    sd_fetches (sd_frame_after 8 sd_prog_return) 125 ∧
    sd_pointer (sd_run_iter (sd_frame_after 8 sd_prog_return)) = some (8 + 1) ∧
    sd_returns (sd_run_iter (sd_frame_after 8 sd_prog_return)) = some [] ∧
    sd_operands (sd_run_iter (sd_frame_after 8 sd_prog_return)) =
      some (sd_frame_after 8 sd_prog_return).state.stack.ents ∧
    sd_appended (sd_run_iter (sd_frame_after 8 sd_prog_return)) = some [1] :=
  have h := sd_return_step (sd_frame_after 8 sd_prog_return) 8 []
    (by decide) (by decide) (by decide) (by decide)
  ⟨by decide, by rw [h]; rfl, by rw [h]; rfl, by rw [h]; rfl, by rw [h]; rfl⟩

/-- Witness of C8: the second `f` of `{}Af{}Af` finds A defined as 0 and redefines it as
4; the letter B stays undefined. -/
theorem sd_define_step_witness :
    sd_fetches (sd_frame_after 5 sd_prog_redefine) 102 ∧
    sd_subr_table_get (sd_frame_after 5 sd_prog_redefine).state.subroutines 65 = 0 ∧
    (∃ f1 : sd_frame, sd_run_iter (sd_frame_after 5 sd_prog_redefine) = sd_flow.cont f1 ∧
      f1.state.stack.ents = [] ∧
      sd_subr_table_get f1.state.subroutines 65 = 4) ∧
    sd_lookup (sd_run_iter (sd_frame_after 5 sd_prog_redefine)) 65 = some 4 ∧
    sd_lookup (sd_run_iter (sd_frame_after 5 sd_prog_redefine)) 66 = some (-1) :=
  have h := sd_define_step (sd_frame_after 5 sd_prog_redefine) 65 4 []
    (by decide) (by decide) (by decide)
  ⟨by decide, by decide,
    h.elim fun f1 h1 => ⟨f1, h1.1, h1.2.1, h1.2.2.1⟩,
    by decide, by decide⟩

/-- Witness of C9: the `j` of `02sj`, at offset 3 with -2 on top, continues at offset 1. -/
theorem sd_jump_relative_step_witness :
    sd_fetches (sd_frame_after 3 sd_prog_jump_back) 106 ∧
    (sd_frame_after 3 sd_prog_jump_back).state.instruction_pointer = 3 ∧
    (sd_frame_after 3 sd_prog_jump_back).state.stack.ents =
      [⟨sd_value_type.VAL_INTEGER, -2⟩] ∧
    sd_pointer (sd_run_iter (sd_frame_after 3 sd_prog_jump_back)) = some 1 ∧
    sd_operands (sd_run_iter (sd_frame_after 3 sd_prog_jump_back)) = some [] :=
  have h := sd_jump_relative_step (sd_frame_after 3 sd_prog_jump_back) (-2) []
    (by decide) (by decide) (by decide)
  ⟨by decide, by decide, by decide, by rw [h]; rfl, by rw [h]; rfl⟩

/-- Witness of C10: the `r` of `5r` appends 5 and keeps the stack, and the push before it
leaves the buffer; the `r` on a full buffer of two elements, on a host that grants 63
bytes where 64 are asked for, ends with STAT_ERRMEM and a lost buffer; a full buffer of
131072 elements is refused its growth on the host of the runs. -/
theorem sd_result_monotone_witness :
    sd_fetches (sd_frame_after 1 [53, 114]) 114 ∧
    (sd_frame_after 1 [53, 114]).state.stack.ents = [⟨sd_value_type.VAL_INTEGER, 5⟩] ∧
    (∃ f1 : sd_frame, sd_run_iter (sd_frame_after 1 [53, 114]) = sd_flow.cont f1 ∧
      f1.state.result.out = (sd_frame_after 1 [53, 114]).state.result.out ++ [5] ∧
      f1.state.result.null = false ∧
      f1.state.stack = (sd_frame_after 1 [53, 114]).state.stack) ∧
    (sd_frame_after 1 [53, 114]).state.result = (sd_frame_after 0 [53, 114]).state.result ∧
    sd_appended (sd_run_iter (sd_frame_after 1 [53, 114])) = some [5] ∧
    sd_status_of (sd_run_iter (sd_frame_full 2 63)) = some sd_status.STAT_ERRMEM ∧
    sd_result_lost { (sd_frame_full 2 63).state.result with
      cap := 18446744073709551615, null := true } ∧
    ¬ sd_result_granted (sd_frame_full 131072 sd_heap_default).state.result :=
  ⟨by decide, by decide,
    (sd_result_monotone (sd_frame_after 1 [53, 114])).1 5 [] (by decide) (by decide)
      (by decide),
    (sd_result_monotone (sd_frame_after 0 [53, 114])).2.2.2.2 (sd_frame_after 1 [53, 114]) rfl
      (fun hr => absurd hr.1 (by decide)),
    by decide,
    congrArg sd_status_of
      ((sd_result_monotone (sd_frame_full 2 63)).2.1 5 [] (by decide) rfl (by decide)
        (by decide)).1,
    ((sd_result_monotone (sd_frame_full 2 63)).2.1 5 [] (by decide) rfl (by decide)
        (by decide)).2 (by decide),
    (sd_result_monotone (sd_frame_full 131072 sd_heap_default)).2.2.1 rfl (by decide)⟩

/-! ## Whole runs -/

theorem sd_run_loop_cont (n : Nat) (f f1 : sd_frame) (h : sd_run_iter f = sd_flow.cont f1) :
    sd_run_loop (n + 1) f = sd_run_loop n f1 := by
  simp only [sd_run_loop, h]

/-- A run whose first `n` iterations end with the loop still running continues from the
frame they reach. -/
theorem sd_run_loop_steps (n m : Nat) (f f1 : sd_frame)
    (h : sd_run_steps n f = sd_flow.cont f1) :
    sd_run_loop (n + m) f = sd_run_loop m f1 := by
  induction n generalizing f with
  | zero =>
    simp only [sd_run_steps] at h
    cases h
    rw [Nat.zero_add]
  | succ k ih =>
    cases hi : sd_run_iter f with
    | cont f2 =>
      simp only [sd_run_steps, hi] at h
      rw [show k + 1 + m = (k + m) + 1 by omega, sd_run_loop_cont _ f f2 hi]
      exact ih f2 h
    | fallthrough f2 => simp [sd_run_steps, hi] at h
    | brk f2 => simp [sd_run_steps, hi] at h
    | fault => simp [sd_run_steps, hi] at h
    | timeout => simp [sd_run_steps, hi] at h

/-- Counterexample to C3 as stated: the run of `{5rh}Af cAc` ends at the first `c`
(offset 8) with the status STAT_ERRSTATE and writes no result byte. -/
theorem sd_spec_program_fails :
    sd_run_stdout sd_prog_call_first 11 sd_status.STAT_NOOP (fun _ => 0) 5 =
      some { diag := some (sd_status.STAT_ERRSTATE, 8), bytes := [] } ∧
    sd_run_stdout sd_prog_call_first 11 sd_status.STAT_NOOP (fun _ => 0) 5 ≠
      some { diag := none, bytes := [5] } := by
  decide

/-- C3 (as amended): from the initial state, whatever the uninitialised `stat` and table
array hold, the run of `{5rh}Af cAc` defines A as address 0 and then ends at the first
`c` (offset 8), which finds the operand stack empty, with the status STAT_ERRSTATE and an
empty result buffer: no result byte is written.  The run of `{5rh}Af Ac`, where the name
is pushed before the call, defines A, calls it from offset 9, appends 5 and halts through
the `h` inside A (offset 3), and writes exactly the byte 5. -/
theorem sd_subroutine_scenario (stat0 : sd_status) (junk : Nat → Int) :
    (∃ f : sd_frame, sd_run sd_prog_call_first 11 stat0 junk 5 = sd_flow.brk f ∧
      f.stat = sd_status.STAT_ERRSTATE ∧
      f.state.instruction_pointer = 8 ∧
      sd_subr_table_get f.state.subroutines 65 = 0 ∧
      f.state.result.out = [] ∧
      sd_run_output f = { diag := some (sd_status.STAT_ERRSTATE, 8), bytes := [] }) ∧
    (∃ f : sd_frame, sd_run sd_prog_name_first 10 stat0 junk 9 = sd_flow.brk f ∧
      f.stat = sd_status.STAT_HALT ∧
      f.state.instruction_pointer = 3 ∧
      f.state.call_stack.ents = [9] ∧
      sd_subr_table_get f.state.subroutines 65 = 0 ∧
      f.state.result.out = [5] ∧
      sd_run_output f = { diag := none, bytes := [5] }) := by
  have hget : sd_subr_table_get (sd_subr_table_set (sd_subr_table_init junk) 65 0).2 65 = 0 :=
    (sd_subr_table_get_set _ 65 65 0 (by decide) (by decide)).trans (if_pos rfl)
  constructor
  · exact ⟨_, rfl, rfl, rfl, hget, rfl, rfl⟩
  · have h5 : sd_run_steps 5 (sd_run_start sd_prog_name_first 10 stat0 junk) = sd_flow.cont
        ⟨⟨⟨1, [⟨sd_value_type.VAL_SYMBOL, ((65 : Nat) : Int)⟩]⟩,
          (sd_subr_table_set (sd_subr_table_init junk) 65 0).2, ⟨[]⟩, ⟨0, [], true, sd_heap_default⟩,
          sd_prog_name_first, 10, 9, 0⟩, sd_status.STAT_OK⟩ := rfl
    have hcall : sd_run_iter
        ⟨⟨⟨1, [⟨sd_value_type.VAL_SYMBOL, ((65 : Nat) : Int)⟩]⟩,
          (sd_subr_table_set (sd_subr_table_init junk) 65 0).2, ⟨[]⟩, ⟨0, [], true, sd_heap_default⟩,
          sd_prog_name_first, 10, 9, 0⟩, sd_status.STAT_OK⟩ = sd_flow.cont
        ⟨⟨⟨0, []⟩, (sd_subr_table_set (sd_subr_table_init junk) 65 0).2, ⟨[9]⟩, ⟨0, [], true, sd_heap_default⟩,
          sd_prog_name_first, 10, 1, 0⟩, sd_status.STAT_OK⟩ := by
      have hfetch : sd_fetches
          ⟨⟨⟨1, [⟨sd_value_type.VAL_SYMBOL, ((65 : Nat) : Int)⟩]⟩,
            (sd_subr_table_set (sd_subr_table_init junk) 65 0).2, ⟨[]⟩, ⟨0, [], true, sd_heap_default⟩,
            sd_prog_name_first, 10, 9, 0⟩, sd_status.STAT_OK⟩ 99 :=
        ⟨show ¬ (toU64 9 > 10) by decide, rfl⟩
      rw [sd_run_iter_of_fetches _ 99 hfetch, sd_run_decode_c,
        sd_case_c_ok _ 65 0 [] rfl (by decide) hget (by decide)]
      rfl
    have hpush : sd_run_iter
        ⟨⟨⟨0, []⟩, (sd_subr_table_set (sd_subr_table_init junk) 65 0).2, ⟨[9]⟩,
          ⟨0, [], true, sd_heap_default⟩, sd_prog_name_first, 10, 1, 0⟩,
          sd_status.STAT_OK⟩ = sd_flow.cont
        ⟨⟨⟨1, [⟨sd_value_type.VAL_INTEGER, 5⟩]⟩,
          (sd_subr_table_set (sd_subr_table_init junk) 65 0).2, ⟨[9]⟩,
          ⟨0, [], true, sd_heap_default⟩, sd_prog_name_first, 10, 2, 0⟩,
          sd_status.STAT_OK⟩ := rfl
    have happend : sd_run_iter
        ⟨⟨⟨1, [⟨sd_value_type.VAL_INTEGER, 5⟩]⟩,
          (sd_subr_table_set (sd_subr_table_init junk) 65 0).2, ⟨[9]⟩,
          ⟨0, [], true, sd_heap_default⟩, sd_prog_name_first, 10, 2, 0⟩,
          sd_status.STAT_OK⟩ = sd_flow.cont
        ⟨⟨⟨1, [⟨sd_value_type.VAL_INTEGER, 5⟩]⟩,
          (sd_subr_table_set (sd_subr_table_init junk) 65 0).2, ⟨[9]⟩,
          ⟨256, [5], false, sd_heap_default⟩, sd_prog_name_first, 10, 3, 0⟩,
          sd_status.STAT_OK⟩ := by
      have hafter : sd_result_after ⟨0, [], true, sd_heap_default⟩ 5 =
          ⟨256, [5], false, sd_heap_default⟩ := by decide
      have hfetch : sd_fetches
          ⟨⟨⟨1, [⟨sd_value_type.VAL_INTEGER, 5⟩]⟩,
            (sd_subr_table_set (sd_subr_table_init junk) 65 0).2, ⟨[9]⟩,
            ⟨0, [], true, sd_heap_default⟩, sd_prog_name_first, 10, 2, 0⟩,
            sd_status.STAT_OK⟩ 114 :=
        ⟨show ¬ (toU64 2 > 10) by decide, rfl⟩
      rw [sd_run_iter_of_fetches _ 114 hfetch, sd_run_decode_r,
        sd_case_r_integer _ 5 [] rfl
          (show sd_result_room ⟨0, [], true, sd_heap_default⟩ by decide)]
      simp only [hafter]
      rfl
    have hrun : sd_run sd_prog_name_first 10 stat0 junk 9 = sd_flow.brk
        ⟨⟨⟨1, [⟨sd_value_type.VAL_INTEGER, 5⟩]⟩,
          (sd_subr_table_set (sd_subr_table_init junk) 65 0).2, ⟨[9]⟩,
          ⟨256, [5], false, sd_heap_default⟩,
          sd_prog_name_first, 10, 3, 0⟩, sd_status.STAT_HALT⟩ := by
      unfold sd_run
      rw [sd_run_loop_steps 5 4 _ _ h5, sd_run_loop_cont 3 _ _ hcall,
        sd_run_loop_cont 2 _ _ hpush, sd_run_loop_cont 1 _ _ happend]
      rfl
    exact ⟨_, hrun, rfl, rfl, rfl, hget, rfl, rfl⟩

/-- C4: the claim fails on the code.  The program `9r` (length 2) lies in a memory whose
next byte is `r`.  After two iterations 9 has been appended and the pointer equals the
length; the bound check of the loop lets it pass, the loop fetches the byte after the
program and appends 9 a second time: the output is two bytes, not one.  Likewise `9r8r7r`
followed by `r` writes four bytes, followed by `c` it ends with a type error, and only
when followed by a byte that is no opcode (here 0) does it write 09 08 07. -/
theorem sd_digits_overrun :
    sd_prog_digits [9] = [57, 114] ∧
    sd_appended (sd_run_steps 2 (sd_run_start (sd_prog_digits [9] ++ [114]) 2
      sd_status.STAT_NOOP (fun _ => 0))) = some [9] ∧
    sd_pointer (sd_run_steps 2 (sd_run_start (sd_prog_digits [9] ++ [114]) 2
      sd_status.STAT_NOOP (fun _ => 0))) = some 2 ∧
    sd_run_stdout (sd_prog_digits [9] ++ [114]) 2 sd_status.STAT_NOOP (fun _ => 0) 4 =
      some { diag := none, bytes := [9, 9] } ∧
    sd_run_stdout (sd_prog_digits [9, 8, 7] ++ [114]) 6 sd_status.STAT_NOOP (fun _ => 0) 8 =
      some { diag := none, bytes := [9, 8, 7, 7] } ∧
    sd_run_stdout (sd_prog_digits [9, 8, 7] ++ [99]) 6 sd_status.STAT_NOOP (fun _ => 0) 8 =
      some { diag := some (sd_status.STAT_ERRTYPE, 6), bytes := [9, 8, 7] } ∧
    sd_run_stdout (sd_prog_digits [9, 8, 7] ++ [0]) 6 sd_status.STAT_NOOP (fun _ => 0) 8 =
      some { diag := none, bytes := [9, 8, 7] } := by
  decide

/-! ## Termination of the block skipper -/

theorem sd_toU64_next (x : Int) (n : Nat) (h1 : toU64 x ≤ n) (h2 : n < 9223372036854775808) :
    toU64 (wrap64 (x + 1)) = toU64 x + 1 := by
  unfold toU64 wrap64 at *
  omega

/-- The loop of `sd_run_skip` returns within the fuel whenever the fuel covers the bytes
that remain up to one past the end of the code. -/
theorem sd_run_skip_loop_returns (fuel level : Nat) (state : sd_vm_state)
    (hlen : state.code_len < 9223372036854775808)
    (hfuel : 1 ≤ fuel)
    (hbound : state.code_len + 2 ≤ fuel + toU64 (wrap64 (state.instruction_pointer + 1))) :
    sd_run_skip_loop fuel level state ≠ sd_skip.timeout := by
  induction fuel generalizing level state with
  | zero => omega
  | succ n ih =>
    unfold sd_run_skip_loop
    by_cases hl : level > 0
    · rw [if_pos hl]
      simp only []
      by_cases hg : toU64 (wrap64 (state.instruction_pointer + 1)) > state.code_len
      · rw [if_pos hg]
        exact fun h => sd_skip.noConfusion h
      · rw [if_neg hg]
        have hnext := sd_toU64_next (wrap64 (state.instruction_pointer + 1)) state.code_len
          (by omega) hlen
        cases hc : sd_code_at state.code (wrap64 (state.instruction_pointer + 1)) with
        | none => exact fun h => sd_skip.noConfusion h
        | some b =>
          simp only []
          by_cases h123 : b = 123
          · rw [if_pos h123]
            exact ih _ _ hlen (by omega) (by simp only []; omega)
          · rw [if_neg h123]
            by_cases h125 : b = 125
            · rw [if_pos h125]
              exact ih _ _ hlen (by omega) (by simp only []; omega)
            · rw [if_neg h125]
              exact ih _ _ hlen (by omega) (by simp only []; omega)
    · rw [if_neg hl]
      exact fun h => sd_skip.noConfusion h

/-- The function `sd_run_skip` always returns (or faults): the fuel of the model is not
exhausted, for every code shorter than `2 ^ 63` bytes. -/
theorem sd_run_skip_returns (state : sd_vm_state)
    (hlen : state.code_len < 9223372036854775808) :
    sd_run_skip state ≠ sd_skip.timeout := by
  unfold sd_run_skip
  exact sd_run_skip_loop_returns _ 1 state hlen (by omega) (by omega)

/-! ## Every iteration returns -/

theorem SD_TRY_returns (act : sd_status) (f : sd_frame) (k : sd_frame → sd_flow)
    (hk : ∀ f1 : sd_frame, k f1 ≠ sd_flow.timeout) :
    SD_TRY act f k ≠ sd_flow.timeout := by
  unfold SD_TRY
  by_cases h : act ≠ sd_status.STAT_OK
  · rw [if_pos h]; exact fun h => sd_flow.noConfusion h
  · rw [if_neg h]; exact hk _

theorem SD_TRY_POP_ANY_returns (f : sd_frame) (k : sd_item → sd_frame → sd_flow)
    (hk : ∀ (item : sd_item) (f1 : sd_frame), k item f1 ≠ sd_flow.timeout) :
    SD_TRY_POP_ANY f k ≠ sd_flow.timeout := by
  unfold SD_TRY_POP_ANY
  cases h : (sd_stack_pop f.state.stack).1 with
  | none => simp only [h]; exact fun h => sd_flow.noConfusion h
  | some item => simp only [h]; exact hk _ _

theorem SD_TRY_POP_ITEM_returns (type : sd_value_type) (f : sd_frame)
    (k : sd_item → sd_frame → sd_flow)
    (hk : ∀ (item : sd_item) (f1 : sd_frame), k item f1 ≠ sd_flow.timeout) :
    SD_TRY_POP_ITEM type f k ≠ sd_flow.timeout := by
  unfold SD_TRY_POP_ITEM
  cases h : (sd_stack_pop f.state.stack).1 with
  | none => simp only [h]; exact fun h => sd_flow.noConfusion h
  | some item =>
    simp only [h]
    by_cases ht : item.t ≠ type
    · rw [if_pos ht]; exact fun h => sd_flow.noConfusion h
    · rw [if_neg ht]; exact hk _ _

theorem SD_TRY_JUMP_SUBROUTINE_returns (name : Nat) (f : sd_frame) (k : sd_frame → sd_flow)
    (hk : ∀ f1 : sd_frame, k f1 ≠ sd_flow.timeout) :
    SD_TRY_JUMP_SUBROUTINE name f k ≠ sd_flow.timeout := by
  unfold SD_TRY_JUMP_SUBROUTINE
  by_cases h : sd_subr_table_get f.state.subroutines name = -1
  · simp only [h, if_true]; exact fun h => sd_flow.noConfusion h
  · simp only [h, if_false]; exact hk _

theorem SD_TRY_PUSH_returns (t : sd_value_type) (val : Int) (f : sd_frame)
    (k : sd_frame → sd_flow) (hk : ∀ f1 : sd_frame, k f1 ≠ sd_flow.timeout) :
    SD_TRY_PUSH t val f k ≠ sd_flow.timeout := by
  unfold SD_TRY_PUSH
  exact SD_TRY_returns _ _ k hk

theorem sd_fallthrough_returns (f1 : sd_frame) : sd_flow.fallthrough f1 ≠ sd_flow.timeout :=
  fun h => sd_flow.noConfusion h

theorem SD_TRY_ARITHMETIC_returns (expression : Int → Int → Option Int) (f : sd_frame) :
    SD_TRY_ARITHMETIC expression f ≠ sd_flow.timeout := by
  unfold SD_TRY_ARITHMETIC
  refine SD_TRY_POP_ITEM_returns _ f _ (fun ib f1 => ?_)
  refine SD_TRY_POP_ITEM_returns _ f1 _ (fun ia f2 => ?_)
  cases h : expression ia.v ib.v with
  | none => simp only [h]; exact fun h => sd_flow.noConfusion h
  | some val =>
    simp only [h]
    exact SD_TRY_PUSH_returns _ _ f2 _ sd_fallthrough_returns

theorem sd_case_open_returns (f : sd_frame) (hlen : f.state.code_len < 9223372036854775808) :
    sd_case_open f ≠ sd_flow.timeout := by
  unfold sd_case_open SD_TRY_PUSH SD_TRY
  simp only []
  by_cases h : (sd_stack_push f.state.stack sd_value_type.VAL_IP
      f.state.instruction_pointer).1 ≠ sd_status.STAT_OK
  · rw [if_pos h]; exact fun h => sd_flow.noConfusion h
  · rw [if_neg h]
    cases hs : sd_run_skip
        { f.state with stack := (sd_stack_push f.state.stack sd_value_type.VAL_IP
            f.state.instruction_pointer).2 } with
    | fault => simp only [hs]; exact fun h => sd_flow.noConfusion h
    | timeout => exact absurd hs (sd_run_skip_returns _ hlen)
    | done stat state =>
      simp only [hs]
      by_cases h2 : stat ≠ sd_status.STAT_OK
      · rw [if_pos h2]; exact fun h => sd_flow.noConfusion h
      · rw [if_neg h2]; exact fun h => sd_flow.noConfusion h

theorem sd_case_close_returns (f : sd_frame) : sd_case_close f ≠ sd_flow.timeout := by
  unfold sd_case_close
  simp only []
  split_ifs <;> exact fun h => sd_flow.noConfusion h

theorem sd_case_f_returns (f : sd_frame) : sd_case_f f ≠ sd_flow.timeout := by
  unfold sd_case_f
  refine SD_TRY_POP_ITEM_returns _ f _ (fun item f1 => ?_)
  refine SD_TRY_POP_ITEM_returns _ f1 _ (fun item1 f2 => ?_)
  exact SD_TRY_returns _ _ _ sd_fallthrough_returns

theorem sd_case_j_returns (f : sd_frame) : sd_case_j f ≠ sd_flow.timeout := by
  unfold sd_case_j
  refine SD_TRY_POP_ANY_returns f _ (fun item f1 => ?_)
  split_ifs
  · exact fun h => sd_flow.noConfusion h
  · exact SD_TRY_JUMP_SUBROUTINE_returns _ f1 _ sd_fallthrough_returns
  · exact fun h => sd_flow.noConfusion h

theorem sd_case_c_returns (f : sd_frame) : sd_case_c f ≠ sd_flow.timeout := by
  unfold sd_case_c
  refine SD_TRY_returns _ _ _ (fun f1 => ?_)
  refine SD_TRY_POP_ITEM_returns _ f1 _ (fun item f2 => ?_)
  exact SD_TRY_JUMP_SUBROUTINE_returns _ f2 _ sd_fallthrough_returns

theorem sd_case_i_returns (f : sd_frame) : sd_case_i f ≠ sd_flow.timeout := by
  unfold sd_case_i
  refine SD_TRY_POP_ITEM_returns _ f _ (fun item f1 => ?_)
  refine SD_TRY_POP_ITEM_returns _ f1 _ (fun item1 f2 => ?_)
  refine SD_TRY_POP_ITEM_returns _ f2 _ (fun item2 f3 => ?_)
  refine SD_TRY_returns _ _ _ (fun f4 => ?_)
  exact SD_TRY_JUMP_SUBROUTINE_returns _ f4 _ sd_fallthrough_returns

theorem sd_case_k_returns (f : sd_frame) : sd_case_k f ≠ sd_flow.timeout := by
  unfold sd_case_k
  refine SD_TRY_POP_ANY_returns f _ (fun bf f1 => ?_)
  refine SD_TRY_POP_ANY_returns f1 _ (fun bt f2 => ?_)
  refine SD_TRY_POP_ITEM_returns _ f2 _ (fun item2 f3 => ?_)
  simp only []
  by_cases hs : (if item2.v = 0 then bf else bt).t = sd_value_type.VAL_SYMBOL
  · rw [if_pos hs]
    exact SD_TRY_JUMP_SUBROUTINE_returns _ f3 _ sd_fallthrough_returns
  · rw [if_neg hs]
    by_cases hi : (if item2.v = 0 then bf else bt).t = sd_value_type.VAL_INTEGER
    · rw [if_pos hi]; exact fun h => sd_flow.noConfusion h
    · rw [if_neg hi]; exact fun h => sd_flow.noConfusion h

theorem sd_case_r_returns (f : sd_frame) : sd_case_r f ≠ sd_flow.timeout := by
  unfold sd_case_r
  cases hp : sd_stack_peek f.state.stack with
  | none => exact fun h => sd_flow.noConfusion h
  | some item =>
    simp only []
    by_cases ht : item.t ≠ sd_value_type.VAL_INTEGER
    · rw [if_pos ht]; exact fun h => sd_flow.noConfusion h
    · rw [if_neg ht]
      cases ha : sd_result_append f.state.result item.v with
      | none => exact fun h => sd_flow.noConfusion h
      | some r => exact SD_TRY_returns _ _ _ sd_fallthrough_returns

theorem sd_case_e_returns (f : sd_frame) : sd_case_e f ≠ sd_flow.timeout := by
  unfold sd_case_e
  refine SD_TRY_POP_ANY_returns f _ (fun a f1 => ?_)
  refine SD_TRY_POP_ANY_returns f1 _ (fun b f2 => ?_)
  refine SD_TRY_PUSH_returns _ _ f2 _ (fun f3 => ?_)
  exact SD_TRY_PUSH_returns _ _ f3 _ sd_fallthrough_returns

theorem sd_case_x_returns (f : sd_frame) : sd_case_x f ≠ sd_flow.timeout := by
  unfold sd_case_x
  refine SD_TRY_POP_ITEM_returns _ f _ (fun item f1 => ?_)
  cases h : sd_stack_duplicate_at f1.state.stack item.v with
  | none => simp only [h]; exact fun h => sd_flow.noConfusion h
  | some r => simp only [h]; exact SD_TRY_returns _ _ _ sd_fallthrough_returns

theorem sd_case_y_returns (f : sd_frame) : sd_case_y f ≠ sd_flow.timeout := by
  unfold sd_case_y
  refine SD_TRY_POP_ANY_returns f _ (fun value f1 => ?_)
  refine SD_TRY_POP_ITEM_returns _ f1 _ (fun item f2 => ?_)
  cases h : sd_stack_replace_at f2.state.stack item.v value.t value.v with
  | none => simp only [h]; exact fun h => sd_flow.noConfusion h
  | some r => simp only [h]; exact SD_TRY_returns _ _ _ sd_fallthrough_returns

theorem sd_case_t_returns (f : sd_frame) : sd_case_t f ≠ sd_flow.timeout := by
  unfold sd_case_t
  refine SD_TRY_POP_ITEM_returns _ f _ (fun item f1 => ?_)
  exact SD_TRY_PUSH_returns _ _ _ _ sd_fallthrough_returns

theorem sd_run_switch_returns (instruction : Nat) (f : sd_frame)
    (hlen : f.state.code_len < 9223372036854775808) :
    sd_run_switch instruction f ≠ sd_flow.timeout := by
  unfold sd_run_switch
  by_cases h123 : instruction = 123
  · rw [if_pos h123]; exact sd_case_open_returns f hlen
  rw [if_neg h123]
  by_cases h125 : instruction = 125
  · rw [if_pos h125]; exact sd_case_close_returns f
  rw [if_neg h125]
  by_cases h102 : instruction = 102
  · rw [if_pos h102]; exact sd_case_f_returns f
  rw [if_neg h102]
  by_cases h97 : instruction = 97
  · rw [if_pos h97]; exact SD_TRY_ARITHMETIC_returns _ f
  rw [if_neg h97]
  by_cases h115 : instruction = 115
  · rw [if_pos h115]; exact SD_TRY_ARITHMETIC_returns _ f
  rw [if_neg h115]
  by_cases h109 : instruction = 109
  · rw [if_pos h109]; exact SD_TRY_ARITHMETIC_returns _ f
  rw [if_neg h109]
  by_cases h100 : instruction = 100
  · rw [if_pos h100]; exact SD_TRY_ARITHMETIC_returns _ f
  rw [if_neg h100]
  by_cases h106 : instruction = 106
  · rw [if_pos h106]; exact sd_case_j_returns f
  rw [if_neg h106]
  by_cases h99 : instruction = 99
  · rw [if_pos h99]; exact sd_case_c_returns f
  rw [if_neg h99]
  by_cases h105 : instruction = 105
  · rw [if_pos h105]; exact sd_case_i_returns f
  rw [if_neg h105]
  by_cases h107 : instruction = 107
  · rw [if_pos h107]; exact sd_case_k_returns f
  rw [if_neg h107]
  by_cases h114 : instruction = 114
  · rw [if_pos h114]; exact sd_case_r_returns f
  rw [if_neg h114]
  by_cases h113 : instruction = 113
  · rw [if_pos h113]; exact sd_fallthrough_returns _
  rw [if_neg h113]
  by_cases h119 : instruction = 119
  · rw [if_pos h119]; exact sd_fallthrough_returns _
  rw [if_neg h119]
  by_cases h101 : instruction = 101
  · rw [if_pos h101]; exact sd_case_e_returns f
  rw [if_neg h101]
  by_cases h122 : instruction = 122
  · rw [if_pos h122]; exact SD_TRY_PUSH_returns _ _ f _ sd_fallthrough_returns
  rw [if_neg h122]
  by_cases h120 : instruction = 120
  · rw [if_pos h120]; exact sd_case_x_returns f
  rw [if_neg h120]
  by_cases h121 : instruction = 121
  · rw [if_pos h121]; exact sd_case_y_returns f
  rw [if_neg h121]
  by_cases h116 : instruction = 116
  · rw [if_pos h116]; exact sd_case_t_returns f
  rw [if_neg h116]
  by_cases h104 : instruction = 104
  · rw [if_pos h104]; exact fun h => sd_flow.noConfusion h
  rw [if_neg h104]
  exact sd_fallthrough_returns _

/-- One iteration of the loop always returns (continues, leaves the loop, or faults):
the fuel of the model is never what ends it, for every code shorter than `2 ^ 63` bytes. -/
theorem sd_run_iter_returns (f : sd_frame) (hlen : f.state.code_len < 9223372036854775808) :
    sd_run_iter f ≠ sd_flow.timeout := by
  unfold sd_run_iter
  by_cases hg : toU64 f.state.instruction_pointer > f.state.code_len
  · rw [if_pos hg]; exact fun h => sd_flow.noConfusion h
  · rw [if_neg hg]
    cases hc : sd_code_at f.state.code f.state.instruction_pointer with
    | none => exact fun h => sd_flow.noConfusion h
    | some instruction =>
      simp only []
      have hd : sd_run_decode instruction f ≠ sd_flow.timeout := by
        unfold sd_run_decode
        by_cases h1 : 48 ≤ instruction ∧ instruction ≤ 57
        · rw [if_pos h1]; exact SD_TRY_PUSH_returns _ _ f _ sd_fallthrough_returns
        · rw [if_neg h1]
          by_cases h2 : 65 ≤ instruction ∧ instruction ≤ 90
          · rw [if_pos h2]; exact SD_TRY_PUSH_returns _ _ f _ sd_fallthrough_returns
          · rw [if_neg h2]; exact sd_run_switch_returns instruction f hlen
      cases hr : sd_run_decode instruction f with
      | fallthrough f1 => exact fun h => sd_flow.noConfusion h
      | cont f1 => exact fun h => sd_flow.noConfusion h
      | brk f1 => exact fun h => sd_flow.noConfusion h
      | fault => exact fun h => sd_flow.noConfusion h
      | timeout => exact absurd hr hd

/-! ## Programs of digits followed by `r` -/

theorem sd_run_steps_cont (n : Nat) (f f1 : sd_frame) (h : sd_run_iter f = sd_flow.cont f1) :
    sd_run_steps (n + 1) f = sd_run_steps n f1 := by
  simp only [sd_run_steps, h]

/-- The iteration on a digit pushes its value. -/
theorem sd_digit_step (f : sd_frame) (d : Nat) (hd : d ≤ 9)
    (hfetch : sd_fetches f (48 + d))
    (hok : sd_stack_ok f.state.stack)
    (hroom : f.state.stack.ents.length + 1 < 4294967296)
    (hip : f.state.instruction_pointer + 1 < 9223372036854775808) :
    sd_run_iter f = sd_flow.cont
      { state := { f.state with
          stack := { size := f.state.stack.ents.length + 1,
                     ents := ⟨sd_value_type.VAL_INTEGER, (d : Int)⟩ :: f.state.stack.ents }
          instruction_pointer := f.state.instruction_pointer + 1 }
        stat := sd_status.STAT_OK } := by
  have hip0 := sd_code_at_nonneg hfetch.2
  have hw : wrap64 (f.state.instruction_pointer + 1) = f.state.instruction_pointer + 1 :=
    wrap64_of_isI64 _ ⟨by omega, hip⟩
  have hval : (9 : Int) - (57 - ((48 + d : Nat) : Int)) = (d : Int) := by push_cast; ring
  have hsz : (f.state.stack.size + 1) % 4294967296 = f.state.stack.ents.length + 1 := by
    rw [hok.1]; omega
  have hne : f.state.stack.ents.length + 1 ≠ 0 := by omega
  rw [sd_run_iter_of_fetches f _ hfetch]
  unfold sd_run_decode
  rw [if_pos ⟨by omega, by omega⟩]
  simp only [SD_TRY_PUSH, SD_TRY, sd_stack_push, hval, hsz, hne, ne_eq, not_true_eq_false,
    if_false, ite_false, not_false_eq_true, sd_skip_intswitch, hw]

/-- The iteration on `r` with an INTEGER on top appends its value. -/
theorem sd_append_step (f : sd_frame) (v : Int) (rest : List sd_item)
    (hfetch : sd_fetches f 114)
    (hents : f.state.stack.ents = ⟨sd_value_type.VAL_INTEGER, v⟩ :: rest)
    (hroom : sd_result_room f.state.result)
    (hip : f.state.instruction_pointer + 1 < 9223372036854775808) :
    sd_run_iter f = sd_flow.cont
      { state := { f.state with
          result := sd_result_after f.state.result v
          instruction_pointer := f.state.instruction_pointer + 1 }
        stat := sd_status.STAT_OK } := by
  have hip0 := sd_code_at_nonneg hfetch.2
  have hw : wrap64 (f.state.instruction_pointer + 1) = f.state.instruction_pointer + 1 :=
    wrap64_of_isI64 _ ⟨by omega, hip⟩
  rw [sd_run_iter_of_fetches f 114 hfetch, sd_run_decode_r,
    sd_case_r_integer f v rest hents hroom]
  simp only [sd_skip_intswitch, hw]

/-- A buffer that takes `n + 1` more elements can take one, and then `n` more. -/
theorem sd_result_fits_succ (result : sd_result) (val : Int) (n : Nat)
    (h : sd_result_fits result (n + 1)) :
    sd_result_room result ∧ sd_result_fits (sd_result_after result val) n := by
  have hroom : sd_result_room result := by
    unfold sd_result_room
    rcases h with ⟨h1, h2⟩ | ⟨h1, h2, h3, h4⟩
    · rw [if_neg (by omega)]; exact h1
    · have hlen : result.len = 0 := by unfold sd_result.len; rw [h2]; rfl
      rw [if_pos (by rw [hlen, h1])]
      unfold sd_result_granted sd_result_grow
      simp only [h1, if_true]
      rw [if_neg (by omega)]
  obtain ⟨_, ho, hn, _, hc⟩ := sd_result_append_ok result val hroom
  refine ⟨hroom, Or.inl ⟨hn, ?_⟩⟩
  have hlen : (sd_result_after result val).len = result.len + 1 := by
    unfold sd_result.len; rw [ho, List.length_append]; rfl
  rw [hlen, hc]
  rcases h with ⟨h1, h2⟩ | ⟨h1, h2, h3, h4⟩
  · rw [if_neg (by omega)]; omega
  · have hl0 : result.len = 0 := by unfold sd_result.len; rw [h2]; rfl
    rw [if_pos (by rw [hl0, h1])]
    have hg : (sd_result_grow result).1 = sd_status.STAT_OK := by
      unfold sd_result_grow
      simp only [h1, if_true]
      rw [if_neg (by omega)]
    rw [(sd_result_grow_ok result hg).2.2.2, if_pos h1, hl0]
    omega

theorem sd_fetches_at (f : sd_frame) (pre rest : List Nat) (b : Nat)
    (hcode : f.state.code = pre ++ b :: rest)
    (hip : f.state.instruction_pointer = (pre.length : Int))
    (hlen : pre.length ≤ f.state.code_len)
    (hsmall : f.state.code_len < 9223372036854775807) :
    sd_fetches f b := by
  constructor
  · rw [hip]; unfold toU64; omega
  · unfold sd_code_at
    rw [hip, if_neg (by omega), hcode, Int.toNat_ofNat,
      List.getElem?_append_right (le_refl _)]
    simp

/-- From any frame positioned at the start of `d1 r ... dn r`, the 2n iterations on these
bytes append the digits in order, leave them on the stack, and stop on the byte after. -/
theorem sd_digits_steps (ds : List Nat) (hds : ∀ d ∈ ds, d ≤ 9) (f : sd_frame)
    (pre post : List Nat)
    (hcode : f.state.code = pre ++ sd_prog_digits ds ++ post)
    (hip : f.state.instruction_pointer = (pre.length : Int))
    (hlen : pre.length + 2 * ds.length ≤ f.state.code_len)
    (hsmall : f.state.code_len < 9223372036854775807)
    (hok : sd_stack_ok f.state.stack)
    (hroom : f.state.stack.ents.length + ds.length < 4294967296)
    (hfits : sd_result_fits f.state.result ds.length) :
    ∃ f1 : sd_frame, sd_run_steps (2 * ds.length) f = sd_flow.cont f1 ∧
      f1.state.result.out = f.state.result.out ++ ds.map (fun d : Nat => (d : Int)) ∧
      f1.state.instruction_pointer = ((pre.length + 2 * ds.length : Nat) : Int) ∧
      f1.state.stack.ents =
        (ds.reverse.map fun d : Nat => (⟨sd_value_type.VAL_INTEGER, (d : Int)⟩ : sd_item))
          ++ f.state.stack.ents ∧
      f1.state.code = f.state.code ∧
      f1.state.code_len = f.state.code_len ∧
      f1.state.call_stack = f.state.call_stack := by
  induction ds generalizing f pre with
  | nil =>
    exact ⟨f, rfl, by simp, by simpa using hip, by simp, rfl, rfl, rfl⟩
  | cons d ds ih =>
    have hd : d ≤ 9 := hds d (List.mem_cons_self _ _)
    have hds1 : ∀ x ∈ ds, x ≤ 9 := fun x hx => hds x (List.mem_cons_of_mem _ hx)
    simp only [List.length_cons] at hlen hroom hfits
    obtain ⟨hfroom, hfrest⟩ := sd_result_fits_succ f.state.result (d : Int) ds.length hfits
    have hcode1 : f.state.code = pre ++ (48 + d) :: (114 :: (sd_prog_digits ds ++ post)) := by
      rw [hcode]; simp [sd_prog_digits]
    -- the digit
    have hf1 := sd_fetches_at f pre _ (48 + d) hcode1 hip (by omega) hsmall
    have hs1 := sd_digit_step f d hd hf1 hok (by omega) (by rw [hip]; omega)
    -- the `r`
    have hcode2 : f.state.code = (pre ++ [48 + d]) ++ 114 :: (sd_prog_digits ds ++ post) := by
      rw [hcode1]; simp
    have hf2 := sd_fetches_at
      { state := { f.state with
          stack := { size := f.state.stack.ents.length + 1,
                     ents := ⟨sd_value_type.VAL_INTEGER, (d : Int)⟩ :: f.state.stack.ents }
          instruction_pointer := f.state.instruction_pointer + 1 }
        stat := sd_status.STAT_OK } (pre ++ [48 + d]) _ 114 hcode2
      (by simp only [List.length_append, List.length_singleton]; rw [hip]; push_cast; rfl)
      (by simp only [List.length_append, List.length_singleton]; show _ ≤ f.state.code_len; omega)
      hsmall
    have hs2 := sd_append_step _ (d : Int) f.state.stack.ents hf2 rfl hfroom
      (by show f.state.instruction_pointer + 1 + 1 < _; rw [hip]; omega)
    -- the remaining digits
    have hcode3 : f.state.code = (pre ++ [48 + d, 114]) ++ sd_prog_digits ds ++ post := by
      rw [hcode1]; simp
    obtain ⟨f3, hrun, hout, hip3, hents, hc, hl, hcs⟩ := ih hds1
      { state := { f.state with
          stack := { size := f.state.stack.ents.length + 1,
                     ents := ⟨sd_value_type.VAL_INTEGER, (d : Int)⟩ :: f.state.stack.ents }
          result := sd_result_after f.state.result (d : Int)
          instruction_pointer := f.state.instruction_pointer + 1 + 1 }
        stat := sd_status.STAT_OK } (pre ++ [48 + d, 114]) hcode3
      (by simp only [List.length_append, List.length_cons, List.length_nil]
          show f.state.instruction_pointer + 1 + 1 = _
          rw [hip]; push_cast; ring)
      (by simp only [List.length_append, List.length_cons, List.length_nil]
          show _ ≤ f.state.code_len; omega)
      hsmall
      ⟨rfl, by show f.state.stack.ents.length + 1 < _; omega⟩
      (by show f.state.stack.ents.length + 1 + ds.length < _; omega)
      hfrest
    refine ⟨f3, ?_, ?_, ?_, ?_, hc, hl, hcs⟩
    · show sd_run_steps (2 * (ds.length + 1)) f = _
      rw [show 2 * (ds.length + 1) = (2 * ds.length + 1) + 1 by ring,
        sd_run_steps_cont _ f _ hs1, sd_run_steps_cont _ _ _ hs2]
      exact hrun
    · rw [hout]
      simp only [(sd_result_append_ok f.state.result (d : Int) hfroom).2.1, List.map_cons,
        List.append_assoc, List.singleton_append]
    · rw [hip3]
      simp only [List.length_append, List.length_cons, List.length_nil]
      congr 1
      omega
    · rw [hents]
      simp

theorem sd_prog_digits_length (ds : List Nat) : (sd_prog_digits ds).length = 2 * ds.length := by
  induction ds with
  | nil => rfl
  | cons d ds ih =>
    have h : sd_prog_digits (d :: ds) = [48 + d, 114] ++ sd_prog_digits ds := rfl
    rw [h, List.length_append, ih, List.length_cons]
    simp only [List.length_cons, List.length_nil]
    omega

/-- The run of `d1 r ... dn r`, for at most the 256 digits the first growth of the buffer
holds, up to the end of the program: after 2n iterations the digits have been appended
in order and the pointer equals the length of the program; the loop has not stopped,
and its next iteration fetches whatever byte `b` the memory holds after the program. -/
theorem sd_digits_run (ds : List Nat) (hds : ∀ d ∈ ds, d ≤ 9) (hn : ds.length ≤ 256)
    (post : List Nat) (stat0 : sd_status) (junk : Nat → Int) :
    ∃ f1 : sd_frame,
      sd_run_steps (2 * ds.length)
        (sd_run_start (sd_prog_digits ds ++ post) (2 * ds.length) stat0 junk) = sd_flow.cont f1 ∧
      f1.state.result.out = ds.map (fun d : Nat => (d : Int)) ∧
      f1.state.instruction_pointer = ((2 * ds.length : Nat) : Int) ∧
      f1.state.code_len = 2 * ds.length ∧
      ∀ (b : Nat) (rest : List Nat), post = b :: rest → sd_fetches f1 b := by
  obtain ⟨f1, hrun, hout, hip, _, hc, hl, _⟩ := sd_digits_steps ds hds
    (sd_run_start (sd_prog_digits ds ++ post) (2 * ds.length) stat0 junk) [] post
    (by simp [sd_run_start]) (by simp [sd_run_start, sd_vm_init])
    (by simp [sd_run_start]) (by simp only [sd_run_start]; omega)
    ⟨rfl, by simp [sd_run_start, sd_vm_init, sd_stack_init]⟩
    (by simp only [sd_run_start, sd_vm_init, sd_stack_init, List.length_nil]; omega)
    (Or.inr ⟨rfl, rfl, hn, show 2048 ≤ sd_heap_default by decide⟩)
  have hl2 : f1.state.code_len = 2 * ds.length := by rw [hl]; rfl
  have hlen := sd_prog_digits_length ds
  refine ⟨f1, hrun, ?_, ?_, hl2, ?_⟩
  · rw [hout]; simp [sd_run_start, sd_vm_init, sd_result_init]
  · rw [hip]; simp
  · intro b rest hpost
    refine sd_fetches_at f1 (sd_prog_digits ds) rest b ?_ ?_ ?_ ?_
    · rw [hc, hpost]; rfl
    · rw [hip, hlen]; simp
    · rw [hl2, hlen]
    · rw [hl2]; omega

/-! ## Stack opcodes -/

theorem sd_run_decode_i (f : sd_frame) : sd_run_decode 105 f = sd_case_i f := rfl
theorem sd_run_decode_k (f : sd_frame) : sd_run_decode 107 f = sd_case_k f := rfl
theorem sd_run_decode_q (f : sd_frame) : sd_run_decode 113 f = sd_case_q f := rfl
theorem sd_run_decode_w (f : sd_frame) : sd_run_decode 119 f = sd_case_w f := rfl
theorem sd_run_decode_e (f : sd_frame) : sd_run_decode 101 f = sd_case_e f := rfl
theorem sd_run_decode_z (f : sd_frame) : sd_run_decode 122 f = sd_case_z f := rfl
theorem sd_run_decode_x (f : sd_frame) : sd_run_decode 120 f = sd_case_x f := rfl
theorem sd_run_decode_y (f : sd_frame) : sd_run_decode 121 f = sd_case_y f := rfl
theorem sd_run_decode_t (f : sd_frame) : sd_run_decode 116 f = sd_case_t f := rfl
theorem sd_run_decode_h (f : sd_frame) : sd_run_decode 104 f = sd_case_h f := rfl

theorem uint_dec_inc (n : Nat) (h : n < 4294967296) : uint_dec ((n + 1) % 4294967296) = n := by
  unfold uint_dec
  by_cases hw : (n + 1) % 4294967296 = 0
  · rw [if_pos hw]; omega
  · rw [if_neg hw]; omega

/-- Fetching at the next offset depends on the code and the pointer only. -/
theorem sd_fetches_next (f : sd_frame) (b2 : Nat) (st : sd_vm_state) (stat : sd_status)
    (h2 : sd_fetches ⟨{ f.state with instruction_pointer := f.state.instruction_pointer + 1 },
      f.stat⟩ b2)
    (hc : st.code = f.state.code) (hl : st.code_len = f.state.code_len)
    (hp : st.instruction_pointer = f.state.instruction_pointer + 1) :
    sd_fetches ⟨st, stat⟩ b2 := by
  unfold sd_fetches at *
  simp only at h2 ⊢
  rw [hc, hl, hp]
  exact h2

/-- The iteration on `w`: a copy of the top is linked, on an empty stack nothing happens;
the status `sd_stack_duplicate` returns is ignored. -/
theorem sd_w_step (f : sd_frame) (hfetch : sd_fetches f 119)
    (hip : f.state.instruction_pointer + 1 < 9223372036854775808) :
    sd_run_iter f = sd_flow.cont
      { f with state := { f.state with
          stack := (sd_stack_duplicate f.state.stack).2
          instruction_pointer := f.state.instruction_pointer + 1 } } := by
  have hip0 := sd_code_at_nonneg hfetch.2
  have hw : wrap64 (f.state.instruction_pointer + 1) = f.state.instruction_pointer + 1 :=
    wrap64_of_isI64 _ ⟨by omega, hip⟩
  rw [sd_run_iter_of_fetches f 119 hfetch, sd_run_decode_w]
  simp only [sd_case_w, sd_skip_intswitch, hw]

/-- The iteration on `q`: the top is unlinked, on an empty stack nothing happens. -/
theorem sd_q_step (f : sd_frame) (hfetch : sd_fetches f 113)
    (hip : f.state.instruction_pointer + 1 < 9223372036854775808) :
    sd_run_iter f = sd_flow.cont
      { f with state := { f.state with
          stack := (sd_stack_pop f.state.stack).2
          instruction_pointer := f.state.instruction_pointer + 1 } } := by
  have hip0 := sd_code_at_nonneg hfetch.2
  have hw : wrap64 (f.state.instruction_pointer + 1) = f.state.instruction_pointer + 1 :=
    wrap64_of_isI64 _ ⟨by omega, hip⟩
  rw [sd_run_iter_of_fetches f 113 hfetch, sd_run_decode_q]
  simp only [sd_case_q, sd_skip_intswitch, hw]

/-- Unlinking after duplicating gives the stack back, counter included. -/
theorem sd_stack_pop_duplicate (stack : sd_stack) (hsize : stack.size < 4294967296) :
    (sd_stack_pop (sd_stack_duplicate stack).2).2 = stack := by
  obtain ⟨size, ents⟩ := stack
  cases ents with
  | nil => rfl
  | cons top rest =>
    simp only [sd_stack_duplicate, sd_stack_push, sd_stack_pop] at hsize ⊢
    split_ifs <;> simp [uint_dec_inc size hsize]

/-- C14: for every operand stack, empty or not, whose counter is an `unsigned int`,
executing `w` and then `q` leaves the stack with exactly its prior entries and counter;
no status is raised (the status variable and every other component are as before) and
the pointer has advanced by two. -/
theorem sd_duplicate_discard (f : sd_frame)
    (hw : sd_fetches f 119)
    (hq : sd_fetches ⟨{ f.state with instruction_pointer := f.state.instruction_pointer + 1 },
      f.stat⟩ 113)
    (hsize : f.state.stack.size < 4294967296)
    (hip : f.state.instruction_pointer + 2 < 9223372036854775808) :
    sd_run_steps 2 f = sd_flow.cont
      { f with state := { f.state with
          instruction_pointer := f.state.instruction_pointer + 2 } } := by
  have hip0 := sd_code_at_nonneg hw.2
  have h1 := sd_w_step f hw (by omega)
  have hq2 := sd_fetches_next f 113
    { f.state with
      stack := (sd_stack_duplicate f.state.stack).2
      instruction_pointer := f.state.instruction_pointer + 1 } f.stat hq rfl rfl rfl
  have h2 := sd_q_step _ hq2 (by show f.state.instruction_pointer + 1 + 1 < _; omega)
  rw [sd_run_steps_cont 1 f _ h1, sd_run_steps_cont 0 _ _ h2]
  simp only [sd_run_steps, sd_stack_pop_duplicate f.state.stack hsize]
  have : f.state.instruction_pointer + 1 + 1 = f.state.instruction_pointer + 2 := by ring
  rw [this]


theorem sd_duplicate_discard_witness :
    sd_fetches (sd_frame_at [119, 113] 0 []) 119 ∧
    sd_run_steps 2 (sd_frame_at [119, 113] 0 []) =
      sd_flow.cont (sd_frame_at [119, 113] 2 []) ∧
    sd_run_steps 2 (sd_frame_at [53, 119, 113] 1 [⟨sd_value_type.VAL_INTEGER, 5⟩]) =
      sd_flow.cont (sd_frame_at [53, 119, 113] 3 [⟨sd_value_type.VAL_INTEGER, 5⟩]) :=
  ⟨by decide,
   sd_duplicate_discard (sd_frame_at [119, 113] 0 []) (by decide) (by decide) (by decide)
     (by decide),
   sd_duplicate_discard (sd_frame_at [53, 119, 113] 1 [⟨sd_value_type.VAL_INTEGER, 5⟩])
     (by decide) (by decide) (by decide) (by decide)⟩

theorem sd_stack_push_ok (stack : sd_stack) (t : sd_value_type) (v : Int)
    (hroom : (stack.size + 1) % 4294967296 ≠ 0) :
    sd_stack_push stack t v = (sd_status.STAT_OK,
      { size := (stack.size + 1) % 4294967296, ents := ⟨t, v⟩ :: stack.ents }) := by
  unfold sd_stack_push
  simp only []
  rw [if_neg hroom]

theorem SD_TRY_PUSH_ok (t : sd_value_type) (v : Int) (f : sd_frame) (k : sd_frame → sd_flow)
    (hroom : (f.state.stack.size + 1) % 4294967296 ≠ 0) :
    SD_TRY_PUSH t v f k = k
      { state := { f.state with
          stack := { size := (f.state.stack.size + 1) % 4294967296,
                     ents := ⟨t, v⟩ :: f.state.stack.ents } }
        stat := sd_status.STAT_OK } := by
  unfold SD_TRY_PUSH
  simp only []
  rw [sd_stack_push_ok _ t v hroom]
  exact SD_TRY_ok _ k

/-- The case `e` on a stack of at least two entries. -/
theorem sd_case_e_ok (f : sd_frame) (a b : sd_item) (rest : List sd_item)
    (hents : f.state.stack.ents = a :: b :: rest) (hok : sd_stack_ok f.state.stack) :
    sd_case_e f = sd_flow.fallthrough
      { state := { f.state with
          stack := { size := f.state.stack.size, ents := b :: a :: rest } }
        stat := sd_status.STAT_OK } := by
  obtain ⟨⟨⟨sz, ents⟩, tbl, cs, res, code, len, ip, reg⟩, stat⟩ := f
  simp only at hents
  subst hents
  obtain ⟨h1, h2⟩ := hok
  simp only [List.length_cons] at h1 h2
  subst h1
  have e3 : (rest.length + 1) % 4294967296 = rest.length + 1 := Nat.mod_eq_of_lt (by omega)
  have e4 : (rest.length + 1 + 1) % 4294967296 = rest.length + 1 + 1 :=
    Nat.mod_eq_of_lt (by omega)
  unfold sd_case_e
  rw [SD_TRY_POP_ANY_ok _ _ a (b :: rest) rfl]
  simp only [uint_dec_succ]
  rw [SD_TRY_POP_ANY_ok _ _ b rest rfl]
  simp only [uint_dec_succ]
  rw [SD_TRY_PUSH_ok _ _ _ _ (by simp only [e3]; omega)]
  simp only [e3]
  rw [SD_TRY_PUSH_ok _ _ _ _ (by simp only [e4]; omega)]
  simp only [e4]

/-- The case `e` on a stack of fewer than two entries. -/
theorem sd_case_e_short (f : sd_frame) (h : f.state.stack.ents.length < 2) :
    ∃ f1 : sd_frame, sd_case_e f = sd_flow.brk f1 ∧ f1.stat = sd_status.STAT_ERRSTATE := by
  obtain ⟨⟨⟨sz, ents⟩, tbl, cs, res, code, len, ip, reg⟩, stat⟩ := f
  match ents, h with
  | [], _ => exact ⟨_, rfl, rfl⟩
  | [a], _ => exact ⟨_, rfl, rfl⟩
  | _ :: _ :: _, h => exact absurd h (by simp only [List.length_cons]; omega)

/-- C15: on a consistent operand stack `a :: b :: rest` (top first) the iteration on `e`
leaves `b :: a :: rest` with the same counter, status OK and the pointer advanced by
one, so the entries beneath are untouched; a second `e` right after it gives the
original stack back; on a stack of fewer than two entries the loop is left with
STAT_ERRSTATE. -/
theorem sd_exchange_step (f : sd_frame) (hfetch : sd_fetches f 101)
    (hok : sd_stack_ok f.state.stack)
    (hip : f.state.instruction_pointer + 2 < 9223372036854775808) :
    (∀ (a b : sd_item) (rest : List sd_item), f.state.stack.ents = a :: b :: rest →
      sd_run_iter f = sd_flow.cont
        { state := { f.state with
            stack := { size := f.state.stack.size, ents := b :: a :: rest }
            instruction_pointer := f.state.instruction_pointer + 1 }
          stat := sd_status.STAT_OK } ∧
      (sd_fetches ⟨{ f.state with instruction_pointer := f.state.instruction_pointer + 1 },
          f.stat⟩ 101 →
        sd_run_steps 2 f = sd_flow.cont
          { state := { f.state with
              instruction_pointer := f.state.instruction_pointer + 2 }
            stat := sd_status.STAT_OK })) ∧
    (f.state.stack.ents.length < 2 →
      ∃ f1 : sd_frame, sd_run_iter f = sd_flow.brk f1 ∧ f1.stat = sd_status.STAT_ERRSTATE) := by
  have hip0 := sd_code_at_nonneg hfetch.2
  have hw : wrap64 (f.state.instruction_pointer + 1) = f.state.instruction_pointer + 1 :=
    wrap64_of_isI64 _ ⟨by omega, by omega⟩
  have hw2 : wrap64 (f.state.instruction_pointer + 1 + 1) = f.state.instruction_pointer + 2 :=
    (wrap64_of_isI64 _ ⟨by omega, by omega⟩).trans (by ring)
  refine ⟨fun a b rest hents => ?_, fun hshort => ?_⟩
  · have h1 : sd_run_iter f = sd_flow.cont
        { state := { f.state with
            stack := { size := f.state.stack.size, ents := b :: a :: rest }
            instruction_pointer := f.state.instruction_pointer + 1 }
          stat := sd_status.STAT_OK } := by
      rw [sd_run_iter_of_fetches f 101 hfetch, sd_run_decode_e, sd_case_e_ok f a b rest hents hok]
      simp only [sd_skip_intswitch, hw]
    refine ⟨h1, fun hnext => ?_⟩
    have hlen : f.state.stack.ents.length = rest.length + 1 + 1 := by rw [hents]; rfl
    have hnext2 := sd_fetches_next f 101
      { f.state with
        stack := { size := f.state.stack.size, ents := b :: a :: rest }
        instruction_pointer := f.state.instruction_pointer + 1 } sd_status.STAT_OK
      hnext rfl rfl rfl
    have hst : sd_stack_ok { size := f.state.stack.size, ents := b :: a :: rest } :=
      ⟨by rw [hok.1, hlen]; rfl, by have := hok.2; rw [hlen] at this; exact this⟩
    have h2 := sd_case_e_ok
      (sd_frame.mk { f.state with
        stack := { size := f.state.stack.size, ents := b :: a :: rest }
        instruction_pointer := f.state.instruction_pointer + 1 } sd_status.STAT_OK)
      b a rest rfl hst
    rw [sd_run_steps_cont 1 f _ h1]
    simp only [sd_run_steps]
    rw [sd_run_iter_of_fetches _ 101 hnext2, sd_run_decode_e, h2]
    simp only [sd_skip_intswitch, hw2]
    obtain ⟨⟨⟨sz, ents⟩, tbl, cs, res, code, len, ip, reg⟩, stat⟩ := f
    simp only at hents
    subst hents
    rfl
  · obtain ⟨f1, h1, h2⟩ := sd_case_e_short f hshort
    refine ⟨f1, ?_, h2⟩
    rw [sd_run_iter_of_fetches f 101 hfetch, sd_run_decode_e, h1]
    rfl

theorem sd_exchange_step_witness :
    sd_run_iter (sd_frame_at [101, 101] 0
        [⟨sd_value_type.VAL_INTEGER, 1⟩, ⟨sd_value_type.VAL_SYMBOL, 66⟩,
          ⟨sd_value_type.VAL_INTEGER, 3⟩]) =
      sd_flow.cont (sd_frame_at [101, 101] 1
        [⟨sd_value_type.VAL_SYMBOL, 66⟩, ⟨sd_value_type.VAL_INTEGER, 1⟩,
          ⟨sd_value_type.VAL_INTEGER, 3⟩]) ∧
    sd_run_steps 2 (sd_frame_at [101, 101] 0
        [⟨sd_value_type.VAL_INTEGER, 1⟩, ⟨sd_value_type.VAL_SYMBOL, 66⟩,
          ⟨sd_value_type.VAL_INTEGER, 3⟩]) =
      sd_flow.cont (sd_frame_at [101, 101] 2
        [⟨sd_value_type.VAL_INTEGER, 1⟩, ⟨sd_value_type.VAL_SYMBOL, 66⟩,
          ⟨sd_value_type.VAL_INTEGER, 3⟩]) ∧
    (∃ f1 : sd_frame,
      sd_run_iter (sd_frame_at [101] 0 [⟨sd_value_type.VAL_INTEGER, 1⟩]) = sd_flow.brk f1 ∧
      f1.stat = sd_status.STAT_ERRSTATE) :=
  have h := sd_exchange_step (sd_frame_at [101, 101] 0
      [⟨sd_value_type.VAL_INTEGER, 1⟩, ⟨sd_value_type.VAL_SYMBOL, 66⟩,
        ⟨sd_value_type.VAL_INTEGER, 3⟩]) (by decide) (by decide) (by decide)
  have h1 := h.1 _ _ _ rfl
  ⟨h1.1, h1.2 (by decide),
    (sd_exchange_step (sd_frame_at [101] 0 [⟨sd_value_type.VAL_INTEGER, 1⟩])
      (by decide) (by decide) (by decide)).2 (by decide)⟩

/-! ## Dispatch -/

/-- A byte without a case label leaves the switch at once. -/
theorem sd_run_switch_other (instruction : Nat) (f : sd_frame)
    (hop : instruction ∉ sd_opcodes) :
    sd_run_switch instruction f = sd_flow.fallthrough f := by
  simp only [sd_opcodes, List.mem_cons, List.mem_singleton, List.not_mem_nil, or_false,
    not_or] at hop
  obtain ⟨h1, h2, h3, h4, h5, h6, h7, h8, h9, h10, h11, h12, h13, h14, h15, h16, h17, h18,
    h19, h20⟩ := hop
  unfold sd_run_switch
  rw [if_neg h1, if_neg h2, if_neg h3, if_neg h4, if_neg h5, if_neg h6, if_neg h7, if_neg h8,
    if_neg h9, if_neg h10, if_neg h11, if_neg h12, if_neg h13, if_neg h14, if_neg h15,
    if_neg h16, if_neg h17, if_neg h18, if_neg h19, if_neg h20]

/-- C17: one iteration on a fetched byte `b` that is no digit, no uppercase letter and no
case label of the switch changes nothing but the instruction pointer, which advances by
one (the status variable is left alone too); on a digit it pushes INTEGER `b - 48`, on an
uppercase letter SYMBOL `b`, with status OK, whenever the size counter does not wrap. -/
theorem sd_dispatch_total (f : sd_frame) (b : Nat) (hfetch : sd_fetches f b)
    (hip : f.state.instruction_pointer + 1 < 9223372036854775808) :
    (¬ (48 ≤ b ∧ b ≤ 57) → ¬ (65 ≤ b ∧ b ≤ 90) → b ∉ sd_opcodes →
      sd_run_iter f = sd_flow.cont
        { f with state := { f.state with
            instruction_pointer := f.state.instruction_pointer + 1 } }) ∧
    (48 ≤ b ∧ b ≤ 57 → (f.state.stack.size + 1) % 4294967296 ≠ 0 →
      sd_run_iter f = sd_flow.cont
        { state := { f.state with
            stack := { size := (f.state.stack.size + 1) % 4294967296,
                       ents := ⟨sd_value_type.VAL_INTEGER, (b : Int) - 48⟩ ::
                         f.state.stack.ents }
            instruction_pointer := f.state.instruction_pointer + 1 }
          stat := sd_status.STAT_OK }) ∧
    (65 ≤ b ∧ b ≤ 90 → (f.state.stack.size + 1) % 4294967296 ≠ 0 →
      sd_run_iter f = sd_flow.cont
        { state := { f.state with
            stack := { size := (f.state.stack.size + 1) % 4294967296,
                       ents := ⟨sd_value_type.VAL_SYMBOL, (b : Int)⟩ :: f.state.stack.ents }
            instruction_pointer := f.state.instruction_pointer + 1 }
          stat := sd_status.STAT_OK }) := by
  have hip0 := sd_code_at_nonneg hfetch.2
  have hw : wrap64 (f.state.instruction_pointer + 1) = f.state.instruction_pointer + 1 :=
    wrap64_of_isI64 _ ⟨by omega, hip⟩
  rw [sd_run_iter_of_fetches f b hfetch]
  refine ⟨fun hd hl hop => ?_, fun hd hroom => ?_, fun hl hroom => ?_⟩
  · unfold sd_run_decode
    rw [if_neg hd, if_neg hl, sd_run_switch_other b f hop]
    simp only [sd_skip_intswitch, hw]
  · have hval : (9 : Int) - (57 - (b : Int)) = (b : Int) - 48 := by ring
    unfold sd_run_decode
    rw [if_pos hd]
    simp only [hval]
    rw [SD_TRY_PUSH_ok _ _ _ _ hroom]
    simp only [sd_skip_intswitch, hw]
  · unfold sd_run_decode
    rw [if_neg (by omega), if_pos hl]
    simp only []
    rw [SD_TRY_PUSH_ok _ _ _ _ hroom]
    simp only [sd_skip_intswitch, hw]

theorem sd_dispatch_total_witness :
    sd_run_iter (sd_frame_at [32, 55, 90] 0 []) =
      sd_flow.cont (sd_frame_at [32, 55, 90] 1 []) ∧
    sd_run_iter (sd_frame_at [32, 55, 90] 1 []) =
      sd_flow.cont (sd_frame_at [32, 55, 90] 2 [⟨sd_value_type.VAL_INTEGER, 7⟩]) ∧
    sd_run_iter (sd_frame_at [32, 55, 90] 2 [⟨sd_value_type.VAL_INTEGER, 7⟩]) =
      sd_flow.cont (sd_frame_at [32, 55, 90] 3
        [⟨sd_value_type.VAL_SYMBOL, 90⟩, ⟨sd_value_type.VAL_INTEGER, 7⟩]) :=
  ⟨(sd_dispatch_total (sd_frame_at [32, 55, 90] 0 []) 32 (by decide) (by decide)).1
      (by decide) (by decide) (by decide),
   (sd_dispatch_total (sd_frame_at [32, 55, 90] 1 []) 55 (by decide) (by decide)).2.1
      (by decide) (by decide),
   (sd_dispatch_total (sd_frame_at [32, 55, 90] 2 [⟨sd_value_type.VAL_INTEGER, 7⟩]) 90
      (by decide) (by decide)).2.2 (by decide) (by decide)⟩

/-! ## Return with an empty call stack -/

/-- The iteration on `}` with an empty call stack leaves the loop with the pointer at -1
and the status variable untouched. -/
theorem sd_close_empty (f : sd_frame) (hfetch : sd_fetches f 125)
    (hcs : f.state.call_stack.ents = []) :
    sd_run_iter f = sd_flow.brk
      { f with state := { f.state with instruction_pointer := -1 } } := by
  rw [sd_run_iter_of_fetches f 125 hfetch, sd_run_decode_close]
  obtain ⟨⟨stk, tbl, ⟨cs⟩, res, code, len, ip, reg⟩, stat⟩ := f
  simp only at hcs
  subst hcs
  rfl

/-- C12 (defect): when `}` is the first instruction, the loop is left without any
assignment to the status variable, so the output depends on the value `stat0` the
uninitialised local happens to hold: it is the diagnostic of `stat0` at offset -1 when
`stat0` is one of the five error statuses (here STAT_ERRSTATE), and the plain flush of
the empty buffer only otherwise (here STAT_OK). -/
theorem sd_close_first_status :
    (∀ (stat0 : sd_status) (junk : Nat → Int),
      sd_run [125] 1 stat0 junk 1 = sd_flow.brk
        { state := { (sd_run_start [125] 1 stat0 junk).state with instruction_pointer := -1 }
          stat := stat0 }) ∧
    sd_run_stdout [125] 1 sd_status.STAT_ERRSTATE (fun _ => 0) 1 =
      some ⟨some (sd_status.STAT_ERRSTATE, -1), []⟩ ∧
    sd_run_stdout [125] 1 sd_status.STAT_OK (fun _ => 0) 1 = some ⟨none, []⟩ := by
  refine ⟨fun stat0 junk => ?_, by decide, by decide⟩
  have h := sd_close_empty (sd_run_start [125] 1 stat0 junk)
    ⟨show ¬ (toU64 0 > 1) by decide, rfl⟩ rfl
  unfold sd_run sd_run_loop
  rw [h]
  rfl

/-! ## The state invariant across an iteration -/

theorem sd_all_fault (P : sd_frame → Prop) : sd_all P sd_flow.fault := by
  intro f1 h1; cases h1

theorem sd_all_timeout (P : sd_frame → Prop) : sd_all P sd_flow.timeout := by
  intro f1 h1; cases h1

theorem sd_all_brk (P : sd_frame → Prop) (f : sd_frame) (h : P f) :
    sd_all P (sd_flow.brk f) := by
  intro f1 h1
  have h2 : some f = some f1 := h1
  cases h2; exact h

theorem sd_all_cont (P : sd_frame → Prop) (f : sd_frame) (h : P f) :
    sd_all P (sd_flow.cont f) := by
  intro f1 h1
  have h2 : some f = some f1 := h1
  cases h2; exact h

theorem sd_all_fallthrough (P : sd_frame → Prop) (f : sd_frame) (h : P f) :
    sd_all P (sd_flow.fallthrough f) := by
  intro f1 h1
  have h2 : some f = some f1 := h1
  cases h2; exact h

theorem sd_all_mono (P Q : sd_frame → Prop) (fl : sd_flow) (h : sd_all P fl)
    (hPQ : ∀ f : sd_frame, P f → Q f) : sd_all Q fl :=
  fun f1 h1 => hPQ f1 (h f1 h1)

theorem wrap64_isI64 (x : Int) : isI64 (wrap64 x) := by
  unfold isI64 wrap64; omega

theorem sd_address_isI64 (L : Nat) (ip : Int) (hL : L < 9223372036854775808)
    (h : sd_address_ok L ip) : isI64 ip := by
  unfold sd_address_ok at h; unfold isI64; omega

theorem sd_mid_fin (L : Nat) (f0 f1 : sd_frame) (h : sd_mid L f0 f1) : sd_fin L f0 f1 :=
  ⟨h.1, h.2.1, h.2.2.1, by rw [h.2.2.2.1]; exact sd_address_isI64 L _ h.1.1 h.2.2.2.2⟩

theorem sd_uint_dec_mod (n : Nat) :
    uint_dec ((n + 1) % 4294967296) = n % 4294967296 := by
  unfold uint_dec
  by_cases hw : (n + 1) % 4294967296 = 0
  · rw [if_pos hw]; omega
  · rw [if_neg hw]; omega

theorem sd_stack_push_snd (stack : sd_stack) (t : sd_value_type) (v : Int) :
    (sd_stack_push stack t v).2 =
      { size := (stack.size + 1) % 4294967296, ents := ⟨t, v⟩ :: stack.ents } := by
  unfold sd_stack_push
  simp only []
  split_ifs <;> rfl

/-- Unlinking the top entry keeps the invariant; the entry unlinked satisfies it. -/
theorem sd_inv_pop (L : Nat) (s : sd_vm_state) (h : sd_inv L s) :
    sd_inv L { s with stack := (sd_stack_pop s.stack).2 } ∧
    ∀ item : sd_item, (sd_stack_pop s.stack).1 = some item → sd_item_ok L item := by
  obtain ⟨⟨sz, ents⟩, tbl, cs, res, code, len, ip, reg⟩ := s
  obtain ⟨h0, h1, h2, h3, h4, h5⟩ := h
  cases ents with
  | nil => exact ⟨⟨h0, h1, h2, h3, h4, h5⟩, fun item hi => by cases hi⟩
  | cons top rest =>
    refine ⟨⟨h0, h1, ?_, fun item hm => h3 item (List.mem_cons_of_mem _ hm), h4, h5⟩,
      fun item hi => ?_⟩
    · show uint_dec sz = rest.length % 4294967296
      have h2' : sz = (rest.length + 1) % 4294967296 := h2
      rw [h2']
      exact sd_uint_dec_mod _
    · have hi' : some top = some item := hi
      cases hi'
      exact h3 top (List.mem_cons_self _ _)

/-- Linking an entry that satisfies the invariant keeps it. -/
theorem sd_inv_push (L : Nat) (s : sd_vm_state) (t : sd_value_type) (v : Int)
    (h : sd_inv L s) (hv : sd_item_ok L ⟨t, v⟩) :
    sd_inv L { s with stack := (sd_stack_push s.stack t v).2 } := by
  rw [sd_stack_push_snd]
  obtain ⟨h0, h1, h2, h3, h4, h5⟩ := h
  refine ⟨h0, h1, ?_, ?_, h4, h5⟩
  · show (s.stack.size + 1) % 4294967296 = (s.stack.ents.length + 1) % 4294967296
    rw [h2]; omega
  · intro item hm
    have hm' : item ∈ (⟨t, v⟩ : sd_item) :: s.stack.ents := hm
    rcases List.mem_cons.mp hm' with he | hm2
    · rw [he]; exact hv
    · exact h3 item hm2

theorem SD_TRY_mid (L : Nat) (f0 : sd_frame) (P : sd_frame → Prop)
    (act : sd_status) (f : sd_frame) (k : sd_frame → sd_flow)
    (hP : ∀ f1 : sd_frame, sd_fin L f0 f1 → P f1)
    (hf : sd_mid L f0 f)
    (hk : ∀ f1 : sd_frame, sd_mid L f0 f1 → sd_all P (k f1)) :
    sd_all P (SD_TRY act f k) := by
  unfold SD_TRY
  by_cases h : act ≠ sd_status.STAT_OK
  · rw [if_pos h]; exact sd_all_brk P _ (hP _ (sd_mid_fin L f0 _ hf))
  · rw [if_neg h]; exact hk _ hf

theorem SD_TRY_POP_ANY_mid (L : Nat) (f0 : sd_frame) (P : sd_frame → Prop)
    (f : sd_frame) (k : sd_item → sd_frame → sd_flow)
    (hP : ∀ f1 : sd_frame, sd_fin L f0 f1 → P f1)
    (hf : sd_mid L f0 f)
    (hk : ∀ (item : sd_item) (f1 : sd_frame), sd_mid L f0 f1 → sd_item_ok L item →
      sd_all P (k item f1)) :
    sd_all P (SD_TRY_POP_ANY f k) := by
  unfold SD_TRY_POP_ANY
  have hp := sd_inv_pop L f.state hf.1
  have hm : sd_mid L f0 { f with state := { f.state with
      stack := (sd_stack_pop f.state.stack).2 } } := ⟨hp.1, hf.2⟩
  cases h : (sd_stack_pop f.state.stack).1 with
  | none => simp only [h]; exact sd_all_brk P _ (hP _ (sd_mid_fin L f0 _ hm))
  | some item => simp only [h]; exact hk item _ hm (hp.2 item h)

theorem SD_TRY_POP_ITEM_mid (L : Nat) (f0 : sd_frame) (P : sd_frame → Prop)
    (type : sd_value_type) (f : sd_frame) (k : sd_item → sd_frame → sd_flow)
    (hP : ∀ f1 : sd_frame, sd_fin L f0 f1 → P f1)
    (hf : sd_mid L f0 f)
    (hk : ∀ (item : sd_item) (f1 : sd_frame), sd_mid L f0 f1 → sd_item_ok L item →
      item.t = type → sd_all P (k item f1)) :
    sd_all P (SD_TRY_POP_ITEM type f k) := by
  unfold SD_TRY_POP_ITEM
  have hp := sd_inv_pop L f.state hf.1
  have hm : sd_mid L f0 { f with state := { f.state with
      stack := (sd_stack_pop f.state.stack).2 } } := ⟨hp.1, hf.2⟩
  cases h : (sd_stack_pop f.state.stack).1 with
  | none => simp only [h]; exact sd_all_brk P _ (hP _ (sd_mid_fin L f0 _ hm))
  | some item =>
    simp only [h]
    by_cases ht : item.t ≠ type
    · rw [if_pos ht]; exact sd_all_brk P _ (hP _ (sd_mid_fin L f0 _ hm))
    · rw [if_neg ht]; exact hk item _ hm (hp.2 item h) (not_not.mp ht)

/-- A defined letter looks up an address of the program. -/
theorem sd_subr_table_get_ok (L : Nat) (s : sd_vm_state) (name : Nat) (h : sd_inv L s)
    (hne : sd_subr_table_get s.subroutines name ≠ -1) :
    sd_address_ok L (sd_subr_table_get s.subroutines name) := by
  unfold sd_subr_table_get at hne ⊢
  simp only [] at hne ⊢
  by_cases hb : s.subroutines.has_subroutines_bitfield &&& (1 <<< sd_subr_index name) ≠ 0
  · rw [if_pos hb]; exact h.2.2.2.2.1 _ hb
  · rw [if_neg hb] at hne; exact absurd rfl hne

theorem SD_TRY_JUMP_SUBROUTINE_fin (L : Nat) (f0 : sd_frame) (P : sd_frame → Prop)
    (name : Nat) (f : sd_frame)
    (hP : ∀ f1 : sd_frame, sd_fin L f0 f1 → P f1)
    (hf : sd_mid L f0 f) :
    sd_all P (SD_TRY_JUMP_SUBROUTINE name f sd_flow.fallthrough) := by
  unfold SD_TRY_JUMP_SUBROUTINE
  by_cases h : sd_subr_table_get f.state.subroutines name = -1
  · simp only [h, if_true]; exact sd_all_brk P _ (hP _ (sd_mid_fin L f0 _ hf))
  · simp only [h, if_false]
    exact sd_all_fallthrough P _ (hP _ ⟨hf.1, hf.2.1, hf.2.2.1,
      sd_address_isI64 L _ hf.1.1 (sd_subr_table_get_ok L f.state name hf.1 h)⟩)

theorem SD_TRY_PUSH_mid (L : Nat) (f0 : sd_frame) (P : sd_frame → Prop)
    (t : sd_value_type) (val : Int) (f : sd_frame) (k : sd_frame → sd_flow)
    (hP : ∀ f1 : sd_frame, sd_fin L f0 f1 → P f1)
    (hval : sd_item_ok L ⟨t, val⟩)
    (hf : sd_mid L f0 f)
    (hk : ∀ f1 : sd_frame, sd_mid L f0 f1 → sd_all P (k f1)) :
    sd_all P (SD_TRY_PUSH t val f k) := by
  unfold SD_TRY_PUSH
  exact SD_TRY_mid L f0 P _ _ k hP ⟨sd_inv_push L f.state t val hf.1 hval, hf.2⟩ hk

theorem sd_integer_ok (L : Nat) (v : Int) : sd_item_ok L ⟨sd_value_type.VAL_INTEGER, v⟩ :=
  fun h => absurd (show sd_value_type.VAL_INTEGER = sd_value_type.VAL_IP from h) (by decide)

theorem sd_symbol_ok (L : Nat) (v : Int) : sd_item_ok L ⟨sd_value_type.VAL_SYMBOL, v⟩ :=
  fun h => absurd (show sd_value_type.VAL_SYMBOL = sd_value_type.VAL_IP from h) (by decide)

theorem SD_TRY_ARITHMETIC_fin (L : Nat) (f0 : sd_frame) (P : sd_frame → Prop)
    (expression : Int → Int → Option Int) (f : sd_frame)
    (hP : ∀ f1 : sd_frame, sd_fin L f0 f1 → P f1)
    (hf : sd_mid L f0 f) :
    sd_all P (SD_TRY_ARITHMETIC expression f) := by
  unfold SD_TRY_ARITHMETIC
  refine SD_TRY_POP_ITEM_mid L f0 P _ f _ hP hf (fun ib f1 h1 _ _ => ?_)
  refine SD_TRY_POP_ITEM_mid L f0 P _ f1 _ hP h1 (fun ia f2 h2 _ _ => ?_)
  cases h : expression ia.v ib.v with
  | none => simp only [h]; exact sd_all_fault P
  | some val =>
    simp only [h]
    exact SD_TRY_PUSH_mid L f0 P _ _ f2 _ hP (sd_integer_ok L val) h2
      (fun f3 h3 => sd_all_fallthrough P f3 (hP _ (sd_mid_fin L f0 _ h3)))

/-- The entry the walk stops at is one of the entries walked over. -/
theorem sd_stack_walk_mem (index : Int) (nexts : List sd_item) (i k : Nat) (ent : sd_item)
    (k1 : Nat) (ent1 : sd_item)
    (h : sd_stack_walk index i k ent nexts = some (k1, ent1)) : ent1 ∈ ent :: nexts := by
  induction nexts generalizing i k ent with
  | nil =>
    unfold sd_stack_walk at h
    by_cases hi : (i : Int) = index
    · rw [if_pos hi] at h; cases h; exact List.mem_cons_self _ _
    · rw [if_neg hi] at h; cases h
  | cons n ns ih =>
    unfold sd_stack_walk at h
    by_cases hi : (i : Int) = index
    · rw [if_pos hi] at h; cases h; exact List.mem_cons_self _ _
    · rw [if_neg hi] at h
      exact List.mem_cons_of_mem _ (ih _ _ _ h)

theorem sd_inv_stack (L : Nat) (s : sd_vm_state) (stack : sd_stack) (h : sd_inv L s)
    (hsize : stack.size = stack.ents.length % 4294967296)
    (hents : ∀ item ∈ stack.ents, sd_item_ok L item) :
    sd_inv L { s with stack := stack } :=
  ⟨h.1, h.2.1, hsize, hents, h.2.2.2.2.1, h.2.2.2.2.2⟩

/-- The function `sd_stack_duplicate_at` keeps the invariant whenever it returns. -/
theorem sd_inv_duplicate_at (L : Nat) (s : sd_vm_state) (index : Int)
    (r : sd_status × sd_stack) (h : sd_inv L s)
    (hr : sd_stack_duplicate_at s.stack index = some r) :
    sd_inv L { s with stack := r.2 } := by
  unfold sd_stack_duplicate_at at hr
  by_cases hgt : index > (s.stack.size : Int)
  · rw [if_pos hgt] at hr; cases hr; exact h
  · rw [if_neg hgt] at hr
    cases hrev : s.stack.ents.reverse with
    | nil => rw [hrev] at hr; cases hr
    | cons bottom nexts =>
      rw [hrev] at hr
      simp only [] at hr
      cases hw : sd_stack_walk index 0 0 bottom nexts with
      | none => rw [hw] at hr; cases hr; exact h
      | some p =>
        obtain ⟨k1, ent⟩ := p
        rw [hw] at hr
        cases hr
        have hm := sd_stack_walk_mem index nexts 0 0 bottom k1 ent hw
        rw [← hrev] at hm
        exact sd_inv_push L s ent.t ent.v h (h.2.2.2.1 ent (List.mem_reverse.mp hm))

/-- The function `sd_stack_replace_at` keeps the invariant whenever it returns. -/
theorem sd_inv_replace_at (L : Nat) (s : sd_vm_state) (index : Int) (t : sd_value_type)
    (v : Int) (r : sd_status × sd_stack) (h : sd_inv L s) (hv : sd_item_ok L ⟨t, v⟩)
    (hr : sd_stack_replace_at s.stack index t v = some r) :
    sd_inv L { s with stack := r.2 } := by
  unfold sd_stack_replace_at at hr
  by_cases hgt : index > (s.stack.size : Int)
  · rw [if_pos hgt] at hr; cases hr; exact h
  · rw [if_neg hgt] at hr
    cases hrev : s.stack.ents.reverse with
    | nil => rw [hrev] at hr; cases hr
    | cons bottom nexts =>
      rw [hrev] at hr
      simp only [] at hr
      cases hw : sd_stack_walk index 0 0 bottom nexts with
      | none => rw [hw] at hr; cases hr; exact h
      | some p =>
        obtain ⟨k1, ent⟩ := p
        rw [hw] at hr
        cases hr
        refine sd_inv_stack L s _ h ?_ ?_
        · show s.stack.size = (((bottom :: nexts).set k1 ⟨t, v⟩).reverse).length % 4294967296
          rw [List.length_reverse, List.length_set, ← hrev, List.length_reverse]
          exact h.2.2.1
        · intro item hm
          have hm1 : item ∈ ((bottom :: nexts).set k1 ⟨t, v⟩).reverse := hm
          rcases List.mem_or_eq_of_mem_set (List.mem_reverse.mp hm1) with h1 | h1
          · rw [← hrev] at h1
            exact h.2.2.2.1 item (List.mem_reverse.mp h1)
          · rw [h1]; exact hv

/-- The function `sd_stack_duplicate` keeps the invariant. -/
theorem sd_inv_duplicate (L : Nat) (s : sd_vm_state) (h : sd_inv L s) :
    sd_inv L { s with stack := (sd_stack_duplicate s.stack).2 } := by
  unfold sd_stack_duplicate
  cases hents : s.stack.ents with
  | nil => exact h
  | cons top rest =>
    exact sd_inv_push L s top.t top.v h
      (h.2.2.2.1 top (by rw [hents]; exact List.mem_cons_self _ _))

/-- The function `sd_call_stack_push` with an address of the program keeps the invariant. -/
theorem sd_inv_call_push (L : Nat) (s : sd_vm_state) (ip : Int) (h : sd_inv L s)
    (hip : sd_address_ok L ip) :
    sd_inv L { s with call_stack := (sd_call_stack_push s.call_stack ip).2 } := by
  refine ⟨h.1, h.2.1, h.2.2.1, h.2.2.2.1, h.2.2.2.2.1, ?_⟩
  intro a ha
  have ha1 : a ∈ ip :: s.call_stack.ents := ha
  rcases List.mem_cons.mp ha1 with he | hm
  · rw [he]; exact hip
  · exact h.2.2.2.2.2 a hm

/-- The function `sd_call_stack_pop` keeps the invariant and returns an `int64_t`. -/
theorem sd_inv_call_pop (L : Nat) (s : sd_vm_state) (h : sd_inv L s) :
    sd_inv L { s with call_stack := (sd_call_stack_pop s.call_stack).2 } ∧
    isI64 (sd_call_stack_pop s.call_stack).1 := by
  obtain ⟨stk, tbl, ⟨cs⟩, res, code, len, ip, reg⟩ := s
  cases cs with
  | nil => exact ⟨h, show isI64 (-1) by decide⟩
  | cons a rest =>
    refine ⟨⟨h.1, h.2.1, h.2.2.1, h.2.2.2.1, h.2.2.2.2.1, ?_⟩, ?_⟩
    · intro b hb
      exact h.2.2.2.2.2 b (List.mem_cons_of_mem _ hb)
    · exact sd_address_isI64 L a h.1 (h.2.2.2.2.2 a (List.mem_cons_self _ _))

/-- The function `sd_subr_table_set` with an address of the program keeps the invariant. -/
theorem sd_inv_table_set (L : Nat) (s : sd_vm_state) (name : Nat) (v : Int)
    (h : sd_inv L s) (hv : sd_address_ok L v) :
    sd_inv L { s with subroutines := (sd_subr_table_set s.subroutines name v).2 } := by
  refine ⟨h.1, h.2.1, h.2.2.1, h.2.2.2.1, ?_, h.2.2.2.2.2⟩
  intro index hdef
  unfold sd_slot_defined at hdef
  unfold sd_subr_table_set at hdef ⊢
  simp only [] at hdef ⊢
  by_cases hi : index = sd_subr_index name
  · rw [if_pos hi]; exact hv
  · rw [if_neg hi]
    apply h.2.2.2.2.1 index
    unfold sd_slot_defined
    rw [sd_land_shift_ne_zero] at hdef ⊢
    have h32 : (4294967296 : Nat) = 2 ^ 32 := by norm_num
    rw [h32, Nat.testBit_mod_two_pow, Nat.testBit_or, Nat.one_shiftLeft,
      Nat.testBit_two_pow] at hdef
    have hne : ¬ (sd_subr_index name = index) := fun e => hi e.symm
    simp only [hne, decide_False, Bool.or_false, Bool.and_eq_true, decide_eq_true_eq] at hdef
    exact hdef.2

/-- The block skipper only moves the instruction pointer, to an `int64_t`. -/
theorem sd_run_skip_loop_only_ip (fuel level : Nat) (state state1 : sd_vm_state)
    (stat : sd_status) (h : sd_run_skip_loop fuel level state = sd_skip.done stat state1)
    (hi : isI64 state.instruction_pointer) :
    ∃ p : Int, isI64 p ∧ state1 = { state with instruction_pointer := p } := by
  induction fuel generalizing level state with
  | zero => simp [sd_run_skip_loop] at h
  | succ n ih =>
    unfold sd_run_skip_loop at h
    by_cases hl : level > 0
    · rw [if_pos hl] at h
      simp only at h
      have hw := wrap64_isI64 (state.instruction_pointer + 1)
      split at h
      · cases h; exact ⟨_, hw, rfl⟩
      · split at h
        · cases h
        · split at h
          · obtain ⟨p, hp, he⟩ := ih _ _ h hw; exact ⟨p, hp, he⟩
          · split at h
            · obtain ⟨p, hp, he⟩ := ih _ _ h hw; exact ⟨p, hp, he⟩
            · obtain ⟨p, hp, he⟩ := ih _ _ h hw; exact ⟨p, hp, he⟩
    · rw [if_neg hl] at h
      cases h; exact ⟨_, hi, rfl⟩

theorem sd_fin_post (L instruction : Nat) (f0 f1 : sd_frame) (h : sd_fin L f0 f1) :
    sd_post L instruction f0 f1 :=
  ⟨h.1, h.2.2.1, h.2.2.2, fun _ => h.2.1⟩

theorem sd_mid_refl (L : Nat) (f : sd_frame) (hinv : sd_inv L f.state)
    (hip : sd_address_ok L f.state.instruction_pointer) : sd_mid L f f :=
  ⟨hinv, rfl, rfl, rfl, hip⟩

theorem sd_case_open_fin (L : Nat) (f : sd_frame) (hinv : sd_inv L f.state)
    (hip : sd_address_ok L f.state.instruction_pointer) :
    sd_all (sd_fin L f) (sd_case_open f) := by
  unfold sd_case_open
  refine SD_TRY_PUSH_mid L f _ _ _ f _ (fun _ h => h) (fun _ => hip)
    (sd_mid_refl L f hinv hip) (fun f1 h1 => ?_)
  cases h : sd_run_skip f1.state with
  | fault => simp only [h]; exact sd_all_fault _
  | timeout => simp only [h]; exact sd_all_timeout _
  | done stat state =>
    simp only [h]
    obtain ⟨p, hp, he⟩ := sd_run_skip_loop_only_ip _ _ _ _ _ h
      (by rw [h1.2.2.2.1]; exact sd_address_isI64 L _ hinv.1 hip)
    subst he
    have hfin : sd_fin L f ⟨{ f1.state with instruction_pointer := p }, stat⟩ :=
      ⟨h1.1, h1.2.1, h1.2.2.1, hp⟩
    unfold SD_TRY
    by_cases hs : stat ≠ sd_status.STAT_OK
    · rw [if_pos hs]; exact sd_all_brk _ _ hfin
    · rw [if_neg hs]; exact sd_all_fallthrough _ _ hfin

theorem sd_case_close_fin (L : Nat) (f : sd_frame) (hinv : sd_inv L f.state) :
    sd_all (sd_fin L f) (sd_case_close f) := by
  unfold sd_case_close
  have hp := sd_inv_call_pop L f.state hinv
  have hfin : sd_fin L f { f with state := { f.state with
      call_stack := (sd_call_stack_pop f.state.call_stack).2
      instruction_pointer := (sd_call_stack_pop f.state.call_stack).1 } } :=
    ⟨hp.1, rfl, rfl, hp.2⟩
  simp only []
  split_ifs
  · exact sd_all_brk _ _ hfin
  · exact sd_all_fallthrough _ _ hfin

theorem sd_case_f_post (L : Nat) (f : sd_frame) (hinv : sd_inv L f.state)
    (hip : sd_address_ok L f.state.instruction_pointer) :
    sd_all (sd_post L 102 f) (sd_case_f f) := by
  unfold sd_case_f
  refine SD_TRY_POP_ITEM_mid L f _ _ f _ (fun _ h => sd_fin_post L 102 f _ h)
    (sd_mid_refl L f hinv hip) (fun item f1 h1 _ _ => ?_)
  refine SD_TRY_POP_ITEM_mid L f _ _ f1 _ (fun _ h => sd_fin_post L 102 f _ h)
    h1 (fun item1 f2 h2 hok ht => ?_)
  have hset := sd_inv_table_set L f2.state (sd_symbol_of item.v) item1.v h2.1 (hok ht)
  have hfin := sd_mid_fin L f f2 h2
  have hpost : ∀ stat : sd_status, sd_post L 102 f
      ⟨{ f2.state with subroutines :=
          (sd_subr_table_set f2.state.subroutines (sd_symbol_of item.v) item1.v).2 }, stat⟩ :=
    fun stat => ⟨hset, hfin.2.2.1, hfin.2.2.2, fun hne => absurd rfl hne⟩
  simp only []
  unfold SD_TRY
  split_ifs
  · exact sd_all_brk _ _ (hpost _)
  · exact sd_all_fallthrough _ _ (hpost _)

theorem sd_case_j_fin (L : Nat) (f : sd_frame) (hinv : sd_inv L f.state)
    (hip : sd_address_ok L f.state.instruction_pointer) :
    sd_all (sd_fin L f) (sd_case_j f) := by
  unfold sd_case_j
  refine SD_TRY_POP_ANY_mid L f _ f _ (fun _ h => h) (sd_mid_refl L f hinv hip)
    (fun item f1 h1 _ => ?_)
  split_ifs
  · exact sd_all_cont _ _ ⟨h1.1, h1.2.1, h1.2.2.1, wrap64_isI64 _⟩
  · exact SD_TRY_JUMP_SUBROUTINE_fin L f _ _ f1 (fun _ h => h) h1
  · exact sd_all_brk _ _ (sd_mid_fin L f _ h1)

theorem sd_case_c_fin (L : Nat) (f : sd_frame) (hinv : sd_inv L f.state)
    (hip : sd_address_ok L f.state.instruction_pointer) :
    sd_all (sd_fin L f) (sd_case_c f) := by
  unfold sd_case_c
  have hm : sd_mid L f { f with state := { f.state with
      call_stack := (sd_call_stack_push f.state.call_stack f.state.instruction_pointer).2 } } :=
    ⟨sd_inv_call_push L f.state _ hinv hip, rfl, rfl, rfl, hip⟩
  refine SD_TRY_mid L f _ _ _ _ (fun _ h => h) hm (fun f1 h1 => ?_)
  refine SD_TRY_POP_ITEM_mid L f _ _ f1 _ (fun _ h => h) h1 (fun item f2 h2 _ _ => ?_)
  exact SD_TRY_JUMP_SUBROUTINE_fin L f _ _ f2 (fun _ h => h) h2

theorem sd_case_i_fin (L : Nat) (f : sd_frame) (hinv : sd_inv L f.state)
    (hip : sd_address_ok L f.state.instruction_pointer) :
    sd_all (sd_fin L f) (sd_case_i f) := by
  unfold sd_case_i
  refine SD_TRY_POP_ITEM_mid L f _ _ f _ (fun _ h => h) (sd_mid_refl L f hinv hip)
    (fun item f1 h1 _ _ => ?_)
  refine SD_TRY_POP_ITEM_mid L f _ _ f1 _ (fun _ h => h) h1 (fun item1 f2 h2 _ _ => ?_)
  refine SD_TRY_POP_ITEM_mid L f _ _ f2 _ (fun _ h => h) h2 (fun item2 f3 h3 _ _ => ?_)
  have hm : sd_mid L f { f3 with state := { f3.state with
      call_stack :=
        (sd_call_stack_push f3.state.call_stack f3.state.instruction_pointer).2 } } :=
    ⟨sd_inv_call_push L f3.state _ h3.1 (by rw [h3.2.2.2.1]; exact hip), h3.2⟩
  refine SD_TRY_mid L f _ _ _ _ (fun _ h => h) hm (fun f4 h4 => ?_)
  exact SD_TRY_JUMP_SUBROUTINE_fin L f _ _ f4 (fun _ h => h) h4

theorem sd_case_k_fin (L : Nat) (f : sd_frame) (hinv : sd_inv L f.state)
    (hip : sd_address_ok L f.state.instruction_pointer) :
    sd_all (sd_fin L f) (sd_case_k f) := by
  unfold sd_case_k
  refine SD_TRY_POP_ANY_mid L f _ f _ (fun _ h => h) (sd_mid_refl L f hinv hip)
    (fun bf f1 h1 _ => ?_)
  refine SD_TRY_POP_ANY_mid L f _ f1 _ (fun _ h => h) h1 (fun bt f2 h2 _ => ?_)
  refine SD_TRY_POP_ITEM_mid L f _ _ f2 _ (fun _ h => h) h2 (fun item2 f3 h3 _ _ => ?_)
  simp only []
  by_cases hs : (if item2.v = 0 then bf else bt).t = sd_value_type.VAL_SYMBOL
  · rw [if_pos hs]
    exact SD_TRY_JUMP_SUBROUTINE_fin L f _ _ f3 (fun _ h => h) h3
  · rw [if_neg hs]
    by_cases hi : (if item2.v = 0 then bf else bt).t = sd_value_type.VAL_INTEGER
    · rw [if_pos hi]; exact sd_all_cont _ _ ⟨h3.1, h3.2.1, h3.2.2.1, wrap64_isI64 _⟩
    · rw [if_neg hi]; exact sd_all_brk _ _ (sd_mid_fin L f _ h3)

theorem sd_case_r_fin (L : Nat) (f : sd_frame) (hinv : sd_inv L f.state)
    (hip : sd_address_ok L f.state.instruction_pointer) :
    sd_all (sd_fin L f) (sd_case_r f) := by
  have hm := sd_mid_refl L f hinv hip
  unfold sd_case_r
  cases h : sd_stack_peek f.state.stack with
  | none => simp only [h]; exact sd_all_brk _ _ (sd_mid_fin L f _ hm)
  | some item =>
    simp only [h]
    by_cases ht : item.t ≠ sd_value_type.VAL_INTEGER
    · rw [if_pos ht]; exact sd_all_brk _ _ (sd_mid_fin L f _ hm)
    · rw [if_neg ht]
      cases ha : sd_result_append f.state.result item.v with
      | none => exact sd_all_fault _
      | some r =>
        exact SD_TRY_mid L f _ _ _ _ (fun _ h => h) hm
          (fun f1 h1 => sd_all_fallthrough _ _ (sd_mid_fin L f _ h1))

theorem sd_case_q_fin (L : Nat) (f : sd_frame) (hinv : sd_inv L f.state)
    (hip : sd_address_ok L f.state.instruction_pointer) :
    sd_all (sd_fin L f) (sd_case_q f) :=
  sd_all_fallthrough _ _ (sd_mid_fin L f _
    ⟨(sd_inv_pop L f.state hinv).1, rfl, rfl, rfl, hip⟩)

theorem sd_case_w_fin (L : Nat) (f : sd_frame) (hinv : sd_inv L f.state)
    (hip : sd_address_ok L f.state.instruction_pointer) :
    sd_all (sd_fin L f) (sd_case_w f) :=
  sd_all_fallthrough _ _ (sd_mid_fin L f _
    ⟨sd_inv_duplicate L f.state hinv, rfl, rfl, rfl, hip⟩)

theorem sd_case_e_fin (L : Nat) (f : sd_frame) (hinv : sd_inv L f.state)
    (hip : sd_address_ok L f.state.instruction_pointer) :
    sd_all (sd_fin L f) (sd_case_e f) := by
  unfold sd_case_e
  refine SD_TRY_POP_ANY_mid L f _ f _ (fun _ h => h) (sd_mid_refl L f hinv hip)
    (fun a f1 h1 ha => ?_)
  refine SD_TRY_POP_ANY_mid L f _ f1 _ (fun _ h => h) h1 (fun b f2 h2 hb => ?_)
  refine SD_TRY_PUSH_mid L f _ _ _ f2 _ (fun _ h => h) ha h2 (fun f3 h3 => ?_)
  exact SD_TRY_PUSH_mid L f _ _ _ f3 _ (fun _ h => h) hb h3
    (fun f4 h4 => sd_all_fallthrough _ _ (sd_mid_fin L f _ h4))

theorem sd_case_z_fin (L : Nat) (f : sd_frame) (hinv : sd_inv L f.state)
    (hip : sd_address_ok L f.state.instruction_pointer) :
    sd_all (sd_fin L f) (sd_case_z f) :=
  SD_TRY_PUSH_mid L f _ _ _ f _ (fun _ h => h) (sd_integer_ok L _)
    (sd_mid_refl L f hinv hip) (fun _ h1 => sd_all_fallthrough _ _ (sd_mid_fin L f _ h1))

theorem sd_case_x_fin (L : Nat) (f : sd_frame) (hinv : sd_inv L f.state)
    (hip : sd_address_ok L f.state.instruction_pointer) :
    sd_all (sd_fin L f) (sd_case_x f) := by
  unfold sd_case_x
  refine SD_TRY_POP_ITEM_mid L f _ _ f _ (fun _ h => h) (sd_mid_refl L f hinv hip)
    (fun item f1 h1 _ _ => ?_)
  cases h : sd_stack_duplicate_at f1.state.stack item.v with
  | none => simp only [h]; exact sd_all_fault _
  | some r =>
    simp only [h]
    exact SD_TRY_mid L f _ _ _ _ (fun _ h => h)
      ⟨sd_inv_duplicate_at L f1.state item.v r h1.1 h, h1.2⟩
      (fun f2 h2 => sd_all_fallthrough _ _ (sd_mid_fin L f _ h2))

theorem sd_case_y_fin (L : Nat) (f : sd_frame) (hinv : sd_inv L f.state)
    (hip : sd_address_ok L f.state.instruction_pointer) :
    sd_all (sd_fin L f) (sd_case_y f) := by
  unfold sd_case_y
  refine SD_TRY_POP_ANY_mid L f _ f _ (fun _ h => h) (sd_mid_refl L f hinv hip)
    (fun value f1 h1 hv => ?_)
  refine SD_TRY_POP_ITEM_mid L f _ _ f1 _ (fun _ h => h) h1 (fun item f2 h2 _ _ => ?_)
  cases h : sd_stack_replace_at f2.state.stack item.v value.t value.v with
  | none => simp only [h]; exact sd_all_fault _
  | some r =>
    simp only [h]
    exact SD_TRY_mid L f _ _ _ _ (fun _ h => h)
      ⟨sd_inv_replace_at L f2.state item.v value.t value.v r h2.1 hv h, h2.2⟩
      (fun f3 h3 => sd_all_fallthrough _ _ (sd_mid_fin L f _ h3))

theorem sd_case_t_fin (L : Nat) (f : sd_frame) (hinv : sd_inv L f.state)
    (hip : sd_address_ok L f.state.instruction_pointer) :
    sd_all (sd_fin L f) (sd_case_t f) := by
  unfold sd_case_t
  refine SD_TRY_POP_ITEM_mid L f _ _ f _ (fun _ h => h) (sd_mid_refl L f hinv hip)
    (fun item f1 h1 _ _ => ?_)
  have hm : sd_mid L f { f1 with state := { f1.state with register_1 := item.v } } := h1
  exact SD_TRY_PUSH_mid L f _ _ _ _ _ (fun _ h => h) (sd_integer_ok L _) hm
    (fun f2 h2 => sd_all_fallthrough _ _ (sd_mid_fin L f _ h2))

theorem sd_case_h_fin (L : Nat) (f : sd_frame) (hinv : sd_inv L f.state)
    (hip : sd_address_ok L f.state.instruction_pointer) :
    sd_all (sd_fin L f) (sd_case_h f) :=
  sd_all_brk _ _ (sd_mid_fin L f _ (sd_mid_refl L f hinv hip))

/-- The invariant after each case of the switch. -/
theorem sd_run_switch_post (L instruction : Nat) (f : sd_frame) (hinv : sd_inv L f.state)
    (hip : sd_address_ok L f.state.instruction_pointer) :
    sd_all (sd_post L instruction f) (sd_run_switch instruction f) := by
  have hmono : ∀ fl : sd_flow, sd_all (sd_fin L f) fl → sd_all (sd_post L instruction f) fl :=
    fun fl h => sd_all_mono _ _ fl h (fun f1 h1 => sd_fin_post L instruction f f1 h1)
  unfold sd_run_switch
  by_cases h123 : instruction = 123
  · rw [if_pos h123]; exact hmono _ (sd_case_open_fin L f hinv hip)
  rw [if_neg h123]
  by_cases h125 : instruction = 125
  · rw [if_pos h125]; exact hmono _ (sd_case_close_fin L f hinv)
  rw [if_neg h125]
  by_cases h102 : instruction = 102
  · rw [if_pos h102, h102]; exact sd_case_f_post L f hinv hip
  rw [if_neg h102]
  by_cases h97 : instruction = 97
  · rw [if_pos h97]; exact hmono _ (SD_TRY_ARITHMETIC_fin L f _ _ f (fun _ h => h) (sd_mid_refl L f hinv hip))
  rw [if_neg h97]
  by_cases h115 : instruction = 115
  · rw [if_pos h115]; exact hmono _ (SD_TRY_ARITHMETIC_fin L f _ _ f (fun _ h => h) (sd_mid_refl L f hinv hip))
  rw [if_neg h115]
  by_cases h109 : instruction = 109
  · rw [if_pos h109]; exact hmono _ (SD_TRY_ARITHMETIC_fin L f _ _ f (fun _ h => h) (sd_mid_refl L f hinv hip))
  rw [if_neg h109]
  by_cases h100 : instruction = 100
  · rw [if_pos h100]; exact hmono _ (SD_TRY_ARITHMETIC_fin L f _ _ f (fun _ h => h) (sd_mid_refl L f hinv hip))
  rw [if_neg h100]
  by_cases h106 : instruction = 106
  · rw [if_pos h106]; exact hmono _ (sd_case_j_fin L f hinv hip)
  rw [if_neg h106]
  by_cases h99 : instruction = 99
  · rw [if_pos h99]; exact hmono _ (sd_case_c_fin L f hinv hip)
  rw [if_neg h99]
  by_cases h105 : instruction = 105
  · rw [if_pos h105]; exact hmono _ (sd_case_i_fin L f hinv hip)
  rw [if_neg h105]
  by_cases h107 : instruction = 107
  · rw [if_pos h107]; exact hmono _ (sd_case_k_fin L f hinv hip)
  rw [if_neg h107]
  by_cases h114 : instruction = 114
  · rw [if_pos h114]; exact hmono _ (sd_case_r_fin L f hinv hip)
  rw [if_neg h114]
  by_cases h113 : instruction = 113
  · rw [if_pos h113]; exact hmono _ (sd_case_q_fin L f hinv hip)
  rw [if_neg h113]
  by_cases h119 : instruction = 119
  · rw [if_pos h119]; exact hmono _ (sd_case_w_fin L f hinv hip)
  rw [if_neg h119]
  by_cases h101 : instruction = 101
  · rw [if_pos h101]; exact hmono _ (sd_case_e_fin L f hinv hip)
  rw [if_neg h101]
  by_cases h122 : instruction = 122
  · rw [if_pos h122]; exact hmono _ (sd_case_z_fin L f hinv hip)
  rw [if_neg h122]
  by_cases h120 : instruction = 120
  · rw [if_pos h120]; exact hmono _ (sd_case_x_fin L f hinv hip)
  rw [if_neg h120]
  by_cases h121 : instruction = 121
  · rw [if_pos h121]; exact hmono _ (sd_case_y_fin L f hinv hip)
  rw [if_neg h121]
  by_cases h116 : instruction = 116
  · rw [if_pos h116]; exact hmono _ (sd_case_t_fin L f hinv hip)
  rw [if_neg h116]
  by_cases h104 : instruction = 104
  · rw [if_pos h104]; exact hmono _ (sd_case_h_fin L f hinv hip)
  rw [if_neg h104]
  exact hmono _ (sd_all_fallthrough _ _ (sd_mid_fin L f _ (sd_mid_refl L f hinv hip)))

/-- The invariant after the body of an iteration. -/
theorem sd_run_decode_post (L instruction : Nat) (f : sd_frame) (hinv : sd_inv L f.state)
    (hip : sd_address_ok L f.state.instruction_pointer) :
    sd_all (sd_post L instruction f) (sd_run_decode instruction f) := by
  unfold sd_run_decode
  by_cases hd : 48 ≤ instruction ∧ instruction ≤ 57
  · rw [if_pos hd]
    exact SD_TRY_PUSH_mid L f _ _ _ f _ (fun _ h => sd_fin_post L instruction f _ h)
      (sd_integer_ok L _) (sd_mid_refl L f hinv hip)
      (fun f1 h1 => sd_all_fallthrough _ _ (sd_fin_post L instruction f _ (sd_mid_fin L f _ h1)))
  rw [if_neg hd]
  by_cases hl : 65 ≤ instruction ∧ instruction ≤ 90
  · rw [if_pos hl]
    exact SD_TRY_PUSH_mid L f _ _ _ f _ (fun _ h => sd_fin_post L instruction f _ h)
      (sd_symbol_ok L _) (sd_mid_refl L f hinv hip)
      (fun f1 h1 => sd_all_fallthrough _ _ (sd_fin_post L instruction f _ (sd_mid_fin L f _ h1)))
  rw [if_neg hl]
  exact sd_run_switch_post L instruction f hinv hip

theorem sd_skip_intswitch_post (L instruction : Nat) (f : sd_frame) (fl : sd_flow)
    (h : sd_all (sd_post L instruction f) fl) :
    sd_all (sd_post L instruction f) (sd_skip_intswitch fl) := by
  cases fl with
  | fallthrough f1 =>
    have h1 := h f1 rfl
    exact sd_all_cont _ _ ⟨h1.1, h1.2.1, wrap64_isI64 _, h1.2.2.2⟩
  | cont f1 => exact h
  | brk f1 => exact h
  | fault => exact h
  | timeout => exact h

/-- A pointer that passes the bound check of the loop is an offset into the program. -/
theorem sd_guard_address (L : Nat) (ip : Int) (hL : L < 9223372036854775808)
    (hi : isI64 ip) (hg : ¬ (toU64 ip > L)) : sd_address_ok L ip := by
  unfold isI64 at hi
  unfold toU64 at hg
  unfold sd_address_ok
  omega

/-- One iteration keeps the invariant, the code and the range of the pointer; it keeps
the table unless the byte executed is `f`. -/
theorem sd_run_iter_post (L : Nat) (f f1 : sd_frame) (hinv : sd_inv L f.state)
    (hi : isI64 f.state.instruction_pointer)
    (h1 : (sd_run_iter f).frame = some f1) :
    sd_inv L f1.state ∧ f1.state.code = f.state.code ∧
      isI64 f1.state.instruction_pointer ∧
      (¬ sd_fetches f 102 → f1.state.subroutines = f.state.subroutines) := by
  unfold sd_run_iter at h1
  by_cases hg : toU64 f.state.instruction_pointer > f.state.code_len
  · rw [if_pos hg] at h1
    have h2 : some f = some f1 := h1
    cases h2
    exact ⟨hinv, rfl, hi, fun _ => rfl⟩
  · rw [if_neg hg] at h1
    cases hc : sd_code_at f.state.code f.state.instruction_pointer with
    | none => rw [hc] at h1; cases h1
    | some instruction =>
      rw [hc] at h1
      simp only [] at h1
      have hip : sd_address_ok L f.state.instruction_pointer :=
        sd_guard_address L _ hinv.1 hi (by rw [← hinv.2.1]; exact hg)
      have hp := sd_skip_intswitch_post L instruction f _
        (sd_run_decode_post L instruction f hinv hip) f1 h1
      refine ⟨hp.1, hp.2.1, hp.2.2.1, fun hnf => hp.2.2.2 (fun h102 => hnf ⟨hg, ?_⟩)⟩
      rw [hc, h102]

/-- The frame `sd_run` starts with satisfies the invariant. -/
theorem sd_run_start_inv (source : List Nat) (source_len : Nat) (stat0 : sd_status)
    (junk : Nat → Int) (hlen : source_len < 9223372036854775808) :
    sd_inv source_len (sd_run_start source source_len stat0 junk).state := by
  refine ⟨hlen, rfl, rfl, ?_, ?_, ?_⟩
  · intro item hm; cases hm
  · intro index hdef
    exact absurd (show (0 : Nat) &&& (1 <<< index) = 0 from Nat.zero_and _) hdef
  · intro ip hm; cases hm

/-- Every frame of a run that starts in the invariant satisfies it. -/
theorem sd_run_steps_inv (L : Nat) (n : Nat) (f f1 : sd_frame) (hinv : sd_inv L f.state)
    (hi : isI64 f.state.instruction_pointer)
    (h1 : (sd_run_steps n f).frame = some f1) :
    sd_inv L f1.state ∧ f1.state.code = f.state.code ∧
      isI64 f1.state.instruction_pointer := by
  induction n generalizing f with
  | zero =>
    have h2 : some f = some f1 := h1
    cases h2
    exact ⟨hinv, rfl, hi⟩
  | succ n ih =>
    unfold sd_run_steps at h1
    cases hit : sd_run_iter f with
    | cont f2 =>
      rw [hit] at h1
      have hp := sd_run_iter_post L f f2 hinv hi (by rw [hit]; rfl)
      have h3 := ih f2 hp.1 hp.2.2.1 h1
      exact ⟨h3.1, h3.2.1.trans hp.2.1, h3.2.2⟩
    | fallthrough f2 =>
      rw [hit] at h1
      have hp := sd_run_iter_post L f f1 hinv hi (by rw [hit]; exact h1)
      exact ⟨hp.1, hp.2.1, hp.2.2.1⟩
    | brk f2 =>
      rw [hit] at h1
      have hp := sd_run_iter_post L f f1 hinv hi (by rw [hit]; exact h1)
      exact ⟨hp.1, hp.2.1, hp.2.2.1⟩
    | fault => rw [hit] at h1; cases h1
    | timeout => rw [hit] at h1; cases h1

/-! ## Addresses and stack length in reachable states -/

theorem sd_skip_intswitch_all (P : sd_frame → Prop) (fl : sd_flow) (h : sd_all P fl)
    (hP : ∀ (f1 : sd_frame) (p : Int), P f1 →
      P { f1 with state := { f1.state with instruction_pointer := p } }) :
    sd_all P (sd_skip_intswitch fl) := by
  cases fl with
  | fallthrough f1 => exact sd_all_cont _ _ (hP f1 _ (h f1 rfl))
  | cont f1 => exact h
  | brk f1 => exact h
  | fault => exact h
  | timeout => exact h

/-- The block skipper does not touch the operand stack. -/
theorem sd_run_skip_loop_stack (fuel level : Nat) (state state1 : sd_vm_state)
    (stat : sd_status) (h : sd_run_skip_loop fuel level state = sd_skip.done stat state1) :
    state1.stack = state.stack := by
  induction fuel generalizing level state with
  | zero => simp [sd_run_skip_loop] at h
  | succ n ih =>
    unfold sd_run_skip_loop at h
    by_cases hl : level > 0
    · rw [if_pos hl] at h
      simp only at h
      split at h
      · cases h; rfl
      · split at h
        · cases h
        · split at h
          · have h2 := ih _ _ h; exact h2
          · split at h
            · have h2 := ih _ _ h; exact h2
            · have h2 := ih _ _ h; exact h2
    · rw [if_neg hl] at h
      cases h; rfl

/-- Every frame the case of the opening brace ends in has the offset of the brace,
tagged `VAL_IP`, linked on top of the former entries. -/
theorem sd_case_open_ents (f : sd_frame) :
    sd_all (fun f1 => f1.state.stack.ents =
      ⟨sd_value_type.VAL_IP, f.state.instruction_pointer⟩ :: f.state.stack.ents)
      (sd_case_open f) := by
  unfold sd_case_open SD_TRY_PUSH
  simp only []
  unfold SD_TRY
  have he : (sd_stack_push f.state.stack sd_value_type.VAL_IP f.state.instruction_pointer).2.ents
      = ⟨sd_value_type.VAL_IP, f.state.instruction_pointer⟩ :: f.state.stack.ents := by
    rw [sd_stack_push_snd]
  by_cases hs : (sd_stack_push f.state.stack sd_value_type.VAL_IP
      f.state.instruction_pointer).1 ≠ sd_status.STAT_OK
  · rw [if_pos hs]; exact sd_all_brk _ _ he
  · rw [if_neg hs]
    cases h : sd_run_skip { f.state with stack := (sd_stack_push f.state.stack
        sd_value_type.VAL_IP f.state.instruction_pointer).2 } with
    | fault => simp only [h]; exact sd_all_fault _
    | timeout => simp only [h]; exact sd_all_timeout _
    | done stat state =>
      simp only [h]
      have hst : state.stack = (sd_stack_push f.state.stack sd_value_type.VAL_IP
          f.state.instruction_pointer).2 := sd_run_skip_loop_stack _ _ _ _ _ h
      split_ifs
      · exact sd_all_brk _ _ (by show state.stack.ents = _; rw [hst, he])
      · exact sd_all_fallthrough _ _ (by show state.stack.ents = _; rw [hst, he])

/-- C19: in every frame a run reaches from the initial state (the program being shorter
than 2^63 bytes), every entry of the operand stack tagged `VAL_IP`, the content of every
slot of the table flagged as defined, and every entry of the call stack lies in
`[0, source_len]`; and the iteration on an opening brace links the offset of that brace
itself on the operand stack. -/
theorem sd_address_invariant (source : List Nat) (source_len : Nat) (stat0 : sd_status)
    (junk : Nat → Int) (n : Nat) (f : sd_frame)
    (hlen : source_len < 9223372036854775808)
    (hreach : (sd_run_steps n (sd_run_start source source_len stat0 junk)).frame = some f) :
    (∀ item ∈ f.state.stack.ents, item.t = sd_value_type.VAL_IP →
      0 ≤ item.v ∧ item.v ≤ (source_len : Int)) ∧
    (∀ index : Nat, sd_slot_defined f.state.subroutines index →
      0 ≤ f.state.subroutines.subroutines index ∧
      f.state.subroutines.subroutines index ≤ (source_len : Int)) ∧
    (∀ ip ∈ f.state.call_stack.ents, 0 ≤ ip ∧ ip ≤ (source_len : Int)) ∧
    (sd_fetches f 123 → ∀ f1 : sd_frame, (sd_run_iter f).frame = some f1 →
      f1.state.stack.ents =
        ⟨sd_value_type.VAL_IP, f.state.instruction_pointer⟩ :: f.state.stack.ents) := by
  have h := sd_run_steps_inv source_len n _ f
    (sd_run_start_inv source source_len stat0 junk hlen) (show isI64 0 by decide) hreach
  obtain ⟨⟨_, _, _, h3, h4, h5⟩, _, _⟩ := h
  refine ⟨h3, h4, h5, fun hfetch f1 h1 => ?_⟩
  rw [sd_run_iter_of_fetches f 123 hfetch, sd_run_decode_open] at h1
  exact sd_skip_intswitch_all _ _ (sd_case_open_ents f) (fun _ _ hp => hp) f1 h1

theorem sd_address_invariant_witness :
    (sd_frame_after 1 [32, 123, 125]).state.instruction_pointer = 1 ∧
    (sd_frame_after 2 [32, 123, 125]).state.stack.ents = [⟨sd_value_type.VAL_IP, 1⟩] ∧
    ((0 : Int) ≤ 1 ∧ (1 : Int) ≤ ((3 : Nat) : Int)) ∧
    ((0 : Int) ≤ 9 ∧ (9 : Int) ≤ ((10 : Nat) : Int)) ∧
    ((0 : Int) ≤ 0 ∧ (0 : Int) ≤ ((10 : Nat) : Int)) :=
  ⟨rfl,
   (sd_address_invariant [32, 123, 125] 3 sd_status.STAT_NOOP (fun _ => 0) 1
      (sd_frame_after 1 [32, 123, 125]) (by decide) rfl).2.2.2 (by decide)
      (sd_frame_after 2 [32, 123, 125]) rfl,
   (sd_address_invariant [32, 123, 125] 3 sd_status.STAT_NOOP (fun _ => 0) 2
      (sd_frame_after 2 [32, 123, 125]) (by decide) rfl).1 ⟨sd_value_type.VAL_IP, 1⟩
      (by decide) rfl,
   (sd_address_invariant sd_prog_name_first 10 sd_status.STAT_NOOP (fun _ => 0) 6
      (sd_frame_after 6 sd_prog_name_first) (by decide) rfl).2.2.1 9 (by decide),
   (sd_address_invariant sd_prog_name_first 10 sd_status.STAT_NOOP (fun _ => 0) 6
      (sd_frame_after 6 sd_prog_name_first) (by decide) rfl).2.1 0 (by decide)⟩

/-- Every frame the case `z` ends in has the value of the size counter, tagged
`VAL_INTEGER`, linked on top of the former entries. -/
theorem sd_case_z_ents (f : sd_frame) :
    sd_all (fun f1 => f1.state.stack.ents =
      ⟨sd_value_type.VAL_INTEGER, (f.state.stack.size : Int)⟩ :: f.state.stack.ents)
      (sd_case_z f) := by
  unfold sd_case_z SD_TRY_PUSH
  simp only []
  unfold SD_TRY
  have he : (sd_stack_push f.state.stack sd_value_type.VAL_INTEGER
      (f.state.stack.size : Int)).2.ents
      = ⟨sd_value_type.VAL_INTEGER, (f.state.stack.size : Int)⟩ :: f.state.stack.ents := by
    rw [sd_stack_push_snd]
  split_ifs
  · exact sd_all_brk _ _ he
  · exact sd_all_fallthrough _ _ he

/-- C20: in every frame a run reaches from the initial state (the program being shorter
than 2^63 bytes) with fewer than 2^32 entries linked in the operand stack, the size
counter is the number of linked entries; the iteration on `z` then links an INTEGER
equal to the number of entries that were linked before it. -/
theorem sd_stack_accounting (source : List Nat) (source_len : Nat) (stat0 : sd_status)
    (junk : Nat → Int) (n : Nat) (f : sd_frame)
    (hlen : source_len < 9223372036854775808)
    (hreach : (sd_run_steps n (sd_run_start source source_len stat0 junk)).frame = some f)
    (hfew : f.state.stack.ents.length < 4294967296) :
    f.state.stack.size = f.state.stack.ents.length ∧
    (sd_fetches f 122 → ∀ f1 : sd_frame, (sd_run_iter f).frame = some f1 →
      f1.state.stack.ents =
        ⟨sd_value_type.VAL_INTEGER, (f.state.stack.ents.length : Int)⟩ ::
          f.state.stack.ents) := by
  have h := sd_run_steps_inv source_len n _ f
    (sd_run_start_inv source source_len stat0 junk hlen) (show isI64 0 by decide) hreach
  have hsize : f.state.stack.size = f.state.stack.ents.length := by
    rw [h.1.2.2.1]; exact Nat.mod_eq_of_lt hfew
  refine ⟨hsize, fun hfetch f1 h1 => ?_⟩
  rw [sd_run_iter_of_fetches f 122 hfetch, sd_run_decode_z] at h1
  rw [← hsize]
  exact sd_skip_intswitch_all _ _ (sd_case_z_ents f) (fun _ _ hp => hp) f1 h1

theorem sd_stack_accounting_witness :
    (sd_frame_after 2 [55, 56, 122]).state.stack.size = 2 ∧
    (sd_frame_after 3 [55, 56, 122]).state.stack.ents =
      [⟨sd_value_type.VAL_INTEGER, 2⟩, ⟨sd_value_type.VAL_INTEGER, 8⟩,
        ⟨sd_value_type.VAL_INTEGER, 7⟩] :=
  have h := sd_stack_accounting [55, 56, 122] 3 sd_status.STAT_NOOP (fun _ => 0) 2
    (sd_frame_after 2 [55, 56, 122]) (by decide) rfl (by decide)
  ⟨h.1, h.2 (by decide) (sd_frame_after 3 [55, 56, 122]) rfl⟩

/-! ## Undefined letters -/

theorem SD_TRY_POP_ITEM_all (P : sd_frame → Prop) (type : sd_value_type) (f : sd_frame)
    (k : sd_item → sd_frame → sd_flow)
    (hbrk : ∀ stat : sd_status,
      P ⟨{ f.state with stack := (sd_stack_pop f.state.stack).2 }, stat⟩)
    (hk : ∀ (item : sd_item) (rest : List sd_item), f.state.stack.ents = item :: rest →
      item.t = type →
      sd_all P (k item { f with state := { f.state with
        stack := { size := uint_dec f.state.stack.size, ents := rest } } })) :
    sd_all P (SD_TRY_POP_ITEM type f k) := by
  cases hents : f.state.stack.ents with
  | nil =>
    unfold SD_TRY_POP_ITEM
    have hp : (sd_stack_pop f.state.stack).1 = none := by unfold sd_stack_pop; rw [hents]
    simp only [hp]
    exact sd_all_brk P _ (hbrk _)
  | cons item rest =>
    by_cases ht : item.t = type
    · rw [SD_TRY_POP_ITEM_ok type f k item rest hents ht]
      exact hk item rest hents ht
    · unfold SD_TRY_POP_ITEM
      have hp : (sd_stack_pop f.state.stack).1 = some item := by
        unfold sd_stack_pop; rw [hents]
      simp only [hp]
      rw [if_pos ht]
      exact sd_all_brk P _ (hbrk _)

theorem sd_symbol_of_lt (v : Int) : sd_symbol_of v < 256 := by
  unfold sd_symbol_of; omega

theorem sd_subr_index_inj (x y : Nat) (hx : x < 256) (hy : y < 256)
    (h : sd_subr_index x = sd_subr_index y) : x = y := by
  unfold sd_subr_index at h; omega

/-- The lookup of a letter that is not flagged is the sentinel, whatever the array holds. -/
theorem sd_subr_table_get_undefined (table : sd_subr_table) (symbol : Nat)
    (h : ¬ sd_subr_defined table symbol) : sd_subr_table_get table symbol = -1 := by
  unfold sd_subr_table_get
  simp only []
  exact if_neg h

/-- Defining one letter does not flag another. -/
theorem sd_subr_table_set_other (table : sd_subr_table) (name symbol : Nat) (v : Int)
    (hname : name < 256) (hsym : symbol < 256) (hne : name ≠ symbol)
    (h : ¬ sd_subr_defined table symbol) :
    ¬ sd_subr_defined (sd_subr_table_set table name v).2 symbol := by
  intro hdef
  apply h
  unfold sd_subr_defined sd_slot_defined at hdef ⊢
  unfold sd_subr_table_set at hdef
  simp only [] at hdef
  rw [sd_land_shift_ne_zero] at hdef ⊢
  have h32 : (4294967296 : Nat) = 2 ^ 32 := by norm_num
  rw [h32, Nat.testBit_mod_two_pow, Nat.testBit_or, Nat.one_shiftLeft,
    Nat.testBit_two_pow] at hdef
  have hi : ¬ (sd_subr_index name = sd_subr_index symbol) :=
    fun e => hne (sd_subr_index_inj name symbol hname hsym e)
  simp only [hi, decide_False, Bool.or_false, Bool.and_eq_true, decide_eq_true_eq] at hdef
  exact hdef.2

/-- The case `f` on a stack that does not name `symbol` leaves `symbol` undefined. -/
theorem sd_case_f_undefined (f : sd_frame) (symbol : Nat) (hsym : symbol < 256)
    (hundef : ¬ sd_subr_defined f.state.subroutines symbol)
    (hnd : ¬ sd_names f.state.stack.ents symbol) :
    sd_all (fun f1 => ¬ sd_subr_defined f1.state.subroutines symbol) (sd_case_f f) := by
  unfold sd_case_f
  refine SD_TRY_POP_ITEM_all _ _ f _ (fun _ => hundef) (fun a rest1 he1 ha => ?_)
  refine SD_TRY_POP_ITEM_all _ _ _ _ (fun _ => hundef) (fun b rest he2 hb => ?_)
  have he2' : rest1 = b :: rest := he2
  have hne : sd_symbol_of a.v ≠ symbol := by
    intro e
    apply hnd
    rw [he1, he2']
    exact ⟨ha, e, hb⟩
  have hset := sd_subr_table_set_other f.state.subroutines (sd_symbol_of a.v) symbol b.v
    (sd_symbol_of_lt _) hsym hne hundef
  simp only []
  unfold SD_TRY
  split_ifs
  · exact sd_all_brk _ _ hset
  · exact sd_all_fallthrough _ _ hset

/-- An iteration that does not define `symbol` leaves it undefined. -/
theorem sd_run_iter_undefined (L : Nat) (f f1 : sd_frame) (symbol : Nat)
    (hinv : sd_inv L f.state) (hi : isI64 f.state.instruction_pointer)
    (hsym : symbol < 256)
    (hundef : ¬ sd_subr_defined f.state.subroutines symbol)
    (hnd : ¬ sd_defines f symbol)
    (h1 : (sd_run_iter f).frame = some f1) :
    ¬ sd_subr_defined f1.state.subroutines symbol := by
  by_cases hf : sd_fetches f 102
  · rw [sd_run_iter_of_fetches f 102 hf, sd_run_decode_f] at h1
    exact sd_skip_intswitch_all _ _
      (sd_case_f_undefined f symbol hsym hundef (fun hn => hnd ⟨hf, hn⟩))
      (fun _ _ hp => hp) f1 h1
  · rw [(sd_run_iter_post L f f1 hinv hi h1).2.2.2 hf]
    exact hundef

/-- A run none of whose iterations defines `symbol` leaves it undefined. -/
theorem sd_run_steps_undefined (L : Nat) (symbol : Nat) (hsym : symbol < 256) (n : Nat)
    (f f1 : sd_frame)
    (hinv : sd_inv L f.state) (hi : isI64 f.state.instruction_pointer)
    (hundef : ¬ sd_subr_defined f.state.subroutines symbol)
    (hnever : ∀ m < n, ∀ fm : sd_frame, sd_run_steps m f = sd_flow.cont fm →
      ¬ sd_defines fm symbol)
    (h1 : sd_run_steps n f = sd_flow.cont f1) :
    ¬ sd_subr_defined f1.state.subroutines symbol := by
  induction n generalizing f with
  | zero =>
    have h2 : sd_flow.cont f = sd_flow.cont f1 := h1
    cases h2
    exact hundef
  | succ n ih =>
    have h0 := hnever 0 (Nat.succ_pos n) f rfl
    cases hit : sd_run_iter f with
    | cont f2 =>
      have hp := sd_run_iter_post L f f2 hinv hi (by rw [hit]; rfl)
      have hu := sd_run_iter_undefined L f f2 symbol hinv hi hsym hundef h0
        (by rw [hit]; rfl)
      refine ih f2 hp.1 hp.2.2.1 hu (fun m hm fm hfm => ?_) ?_
      · exact hnever (m + 1) (Nat.succ_lt_succ hm) fm
          (by rw [sd_run_steps_cont m f f2 hit]; exact hfm)
      · rw [sd_run_steps_cont n f f2 hit] at h1; exact h1
    | fallthrough f2 => unfold sd_run_steps at h1; rw [hit] at h1; cases h1
    | brk f2 => unfold sd_run_steps at h1; rw [hit] at h1; cases h1
    | fault => unfold sd_run_steps at h1; rw [hit] at h1; cases h1
    | timeout => unfold sd_run_steps at h1; rw [hit] at h1; cases h1

theorem SD_TRY_JUMP_SUBROUTINE_undefined (name : Nat) (f : sd_frame) (k : sd_frame → sd_flow)
    (h : ¬ sd_subr_defined f.state.subroutines name) :
    SD_TRY_JUMP_SUBROUTINE name f k =
      sd_flow.brk { f with stat := sd_status.STAT_ERRSUBROUTINE } := by
  unfold SD_TRY_JUMP_SUBROUTINE
  rw [sd_subr_table_get_undefined _ _ h]
  simp only [if_true]

/-- The case `c` with an undefined letter on top. -/
theorem sd_case_c_undefined (f : sd_frame) (v : Int) (rest : List sd_item)
    (hents : f.state.stack.ents = ⟨sd_value_type.VAL_SYMBOL, v⟩ :: rest)
    (h : ¬ sd_subr_defined f.state.subroutines (sd_symbol_of v)) :
    ∃ f1 : sd_frame, sd_case_c f = sd_flow.brk f1 ∧
      f1.stat = sd_status.STAT_ERRSUBROUTINE := by
  obtain ⟨⟨⟨sz, ents⟩, tbl, cs, res, code, len, ip, reg⟩, stat⟩ := f
  simp only at hents h
  subst hents
  have hc : sd_case_c ⟨⟨⟨sz, ⟨sd_value_type.VAL_SYMBOL, v⟩ :: rest⟩, tbl, cs, res, code,
      len, ip, reg⟩, stat⟩ =
      SD_TRY_JUMP_SUBROUTINE (sd_symbol_of v)
        ⟨⟨⟨uint_dec sz, rest⟩, tbl, ⟨ip :: cs.ents⟩, res, code, len, ip, reg⟩,
          sd_status.STAT_OK⟩ sd_flow.fallthrough := rfl
  rw [hc, SD_TRY_JUMP_SUBROUTINE_undefined _ _ _ h]
  exact ⟨_, rfl, rfl⟩

/-- The case `j` with an undefined letter on top. -/
theorem sd_case_j_undefined (f : sd_frame) (v : Int) (rest : List sd_item)
    (hents : f.state.stack.ents = ⟨sd_value_type.VAL_SYMBOL, v⟩ :: rest)
    (h : ¬ sd_subr_defined f.state.subroutines (sd_symbol_of v)) :
    ∃ f1 : sd_frame, sd_case_j f = sd_flow.brk f1 ∧
      f1.stat = sd_status.STAT_ERRSUBROUTINE := by
  obtain ⟨⟨⟨sz, ents⟩, tbl, cs, res, code, len, ip, reg⟩, stat⟩ := f
  simp only at hents h
  subst hents
  have hc : sd_case_j ⟨⟨⟨sz, ⟨sd_value_type.VAL_SYMBOL, v⟩ :: rest⟩, tbl, cs, res, code,
      len, ip, reg⟩, stat⟩ =
      SD_TRY_JUMP_SUBROUTINE (sd_symbol_of v)
        ⟨⟨⟨uint_dec sz, rest⟩, tbl, cs, res, code, len, ip, reg⟩, stat⟩
        sd_flow.fallthrough := rfl
  rw [hc, SD_TRY_JUMP_SUBROUTINE_undefined _ _ _ h]
  exact ⟨_, rfl, rfl⟩

/-- The case `i` whose selected branch is an undefined letter. -/
theorem sd_case_i_undefined (f : sd_frame) (vf vt c : Int) (rest : List sd_item)
    (hents : f.state.stack.ents = ⟨sd_value_type.VAL_SYMBOL, vf⟩ ::
      ⟨sd_value_type.VAL_SYMBOL, vt⟩ :: ⟨sd_value_type.VAL_INTEGER, c⟩ :: rest)
    (h : ¬ sd_subr_defined f.state.subroutines (sd_symbol_of (if c = 0 then vf else vt))) :
    ∃ f1 : sd_frame, sd_case_i f = sd_flow.brk f1 ∧
      f1.stat = sd_status.STAT_ERRSUBROUTINE := by
  obtain ⟨⟨⟨sz, ents⟩, tbl, cs, res, code, len, ip, reg⟩, stat⟩ := f
  simp only at hents h
  subst hents
  have hc : sd_case_i ⟨⟨⟨sz, ⟨sd_value_type.VAL_SYMBOL, vf⟩ ::
      ⟨sd_value_type.VAL_SYMBOL, vt⟩ :: ⟨sd_value_type.VAL_INTEGER, c⟩ :: rest⟩, tbl, cs,
      res, code, len, ip, reg⟩, stat⟩ =
      SD_TRY_JUMP_SUBROUTINE (if c = 0 then sd_symbol_of vf else sd_symbol_of vt)
        ⟨⟨⟨uint_dec (uint_dec (uint_dec sz)), rest⟩, tbl, ⟨ip :: cs.ents⟩, res, code, len,
          ip, reg⟩, sd_status.STAT_OK⟩ sd_flow.fallthrough := rfl
  have hb : (if c = 0 then sd_symbol_of vf else sd_symbol_of vt) =
      sd_symbol_of (if c = 0 then vf else vt) := by split_ifs <;> rfl
  rw [hc, hb, SD_TRY_JUMP_SUBROUTINE_undefined _ _ _ h]
  exact ⟨_, rfl, rfl⟩

/-- The case `k` whose selected branch is an undefined letter. -/
theorem sd_case_k_undefined (f : sd_frame) (bf bt : sd_item) (c v : Int)
    (rest : List sd_item)
    (hents : f.state.stack.ents = bf :: bt :: ⟨sd_value_type.VAL_INTEGER, c⟩ :: rest)
    (hsel : (if c = 0 then bf else bt) = ⟨sd_value_type.VAL_SYMBOL, v⟩)
    (h : ¬ sd_subr_defined f.state.subroutines (sd_symbol_of v)) :
    ∃ f1 : sd_frame, sd_case_k f = sd_flow.brk f1 ∧
      f1.stat = sd_status.STAT_ERRSUBROUTINE := by
  obtain ⟨⟨⟨sz, ents⟩, tbl, cs, res, code, len, ip, reg⟩, stat⟩ := f
  simp only at hents h
  subst hents
  unfold sd_case_k
  rw [SD_TRY_POP_ANY_ok _ _ bf _ rfl]
  rw [SD_TRY_POP_ANY_ok _ _ bt _ rfl]
  rw [SD_TRY_POP_ITEM_ok _ _ _ ⟨sd_value_type.VAL_INTEGER, c⟩ rest rfl rfl]
  simp only [hsel, if_true]
  rw [SD_TRY_JUMP_SUBROUTINE_undefined _ _ _ h]
  exact ⟨_, rfl, rfl⟩

/-- C11: let a run from the initial state (any garbage in the table array, program
shorter than 2^63 bytes) reach the frame `f` without any iteration that defines the
letter of the SYMBOL value `v` by `f`.  Then the lookup of that letter is the sentinel
-1, and the iteration on `c` or `j` with that SYMBOL on top, on `i` with the branch
selected by the condition being that SYMBOL, and on `k` likewise, leaves the loop with
STAT_ERRSUBROUTINE. -/
theorem sd_undefined_letter (source : List Nat) (source_len : Nat) (stat0 : sd_status)
    (junk : Nat → Int) (n : Nat) (f : sd_frame) (v : Int)
    (hlen : source_len < 9223372036854775808)
    (hreach : sd_run_steps n (sd_run_start source source_len stat0 junk) = sd_flow.cont f)
    (hnever : ∀ m < n, ∀ fm : sd_frame,
      sd_run_steps m (sd_run_start source source_len stat0 junk) = sd_flow.cont fm →
      ¬ sd_defines fm (sd_symbol_of v)) :
    sd_subr_table_get f.state.subroutines (sd_symbol_of v) = -1 ∧
    (sd_fetches f 99 →
      (∃ rest : List sd_item, f.state.stack.ents = ⟨sd_value_type.VAL_SYMBOL, v⟩ :: rest) →
      ∃ f1 : sd_frame, sd_run_iter f = sd_flow.brk f1 ∧
        f1.stat = sd_status.STAT_ERRSUBROUTINE) ∧
    (sd_fetches f 106 →
      (∃ rest : List sd_item, f.state.stack.ents = ⟨sd_value_type.VAL_SYMBOL, v⟩ :: rest) →
      ∃ f1 : sd_frame, sd_run_iter f = sd_flow.brk f1 ∧
        f1.stat = sd_status.STAT_ERRSUBROUTINE) ∧
    (sd_fetches f 105 →
      (∃ (vf vt c : Int) (rest : List sd_item),
        f.state.stack.ents = ⟨sd_value_type.VAL_SYMBOL, vf⟩ ::
          ⟨sd_value_type.VAL_SYMBOL, vt⟩ :: ⟨sd_value_type.VAL_INTEGER, c⟩ :: rest ∧
        (if c = 0 then vf else vt) = v) →
      ∃ f1 : sd_frame, sd_run_iter f = sd_flow.brk f1 ∧
        f1.stat = sd_status.STAT_ERRSUBROUTINE) ∧
    (sd_fetches f 107 →
      (∃ (bf bt : sd_item) (c : Int) (rest : List sd_item),
        f.state.stack.ents = bf :: bt :: ⟨sd_value_type.VAL_INTEGER, c⟩ :: rest ∧
        (if c = 0 then bf else bt) = ⟨sd_value_type.VAL_SYMBOL, v⟩) →
      ∃ f1 : sd_frame, sd_run_iter f = sd_flow.brk f1 ∧
        f1.stat = sd_status.STAT_ERRSUBROUTINE) := by
  have hstart : ¬ sd_subr_defined (sd_run_start source source_len stat0 junk).state.subroutines
      (sd_symbol_of v) :=
    fun hd => absurd (show (0 : Nat) &&& (1 <<< sd_subr_index (sd_symbol_of v)) = 0 from
      Nat.zero_and _) hd
  have hundef := sd_run_steps_undefined source_len (sd_symbol_of v) (sd_symbol_of_lt v) n _ f
    (sd_run_start_inv source source_len stat0 junk hlen) (show isI64 0 by decide)
    hstart hnever hreach
  refine ⟨sd_subr_table_get_undefined _ _ hundef, ?_, ?_, ?_, ?_⟩
  · rintro hfetch ⟨rest, hents⟩
    obtain ⟨f1, h1, h2⟩ := sd_case_c_undefined f v rest hents hundef
    exact ⟨f1, by rw [sd_run_iter_of_fetches f 99 hfetch, sd_run_decode_c, h1]; rfl, h2⟩
  · rintro hfetch ⟨rest, hents⟩
    obtain ⟨f1, h1, h2⟩ := sd_case_j_undefined f v rest hents hundef
    exact ⟨f1, by rw [sd_run_iter_of_fetches f 106 hfetch, sd_run_decode_j, h1]; rfl, h2⟩
  · rintro hfetch ⟨vf, vt, c, rest, hents, hsel⟩
    obtain ⟨f1, h1, h2⟩ := sd_case_i_undefined f vf vt c rest hents (by rw [hsel]; exact hundef)
    exact ⟨f1, by rw [sd_run_iter_of_fetches f 105 hfetch, sd_run_decode_i, h1]; rfl, h2⟩
  · rintro hfetch ⟨bf, bt, c, rest, hents, hsel⟩
    obtain ⟨f1, h1, h2⟩ := sd_case_k_undefined f bf bt c v rest hents hsel hundef
    exact ⟨f1, by rw [sd_run_iter_of_fetches f 107 hfetch, sd_run_decode_k, h1]; rfl, h2⟩

theorem sd_undefined_letter_witness :
    sd_subr_table_get (sd_frame_after 5 sd_prog_call_undefined).state.subroutines 65 = 0 ∧
    sd_subr_table_get (sd_frame_after 5 sd_prog_call_undefined).state.subroutines 66 = -1 ∧
    (∃ f1 : sd_frame,
      sd_run_iter (sd_frame_after 5 sd_prog_call_undefined) = sd_flow.brk f1 ∧
      f1.stat = sd_status.STAT_ERRSUBROUTINE) :=
  have h := sd_undefined_letter sd_prog_call_undefined 7 sd_status.STAT_NOOP (fun _ => 0) 5
    (sd_frame_after 5 sd_prog_call_undefined) 66 (by decide) rfl
    (fun m hm fm hfm => by
      have hfm2 : fm = sd_frame_after m sd_prog_call_undefined := by
        unfold sd_frame_after
        rw [show sd_prog_call_undefined.length = 7 from rfl, hfm]
      rw [hfm2]
      interval_cases m <;> decide)
  ⟨by decide, h.1, h.2.1 (by decide) ⟨[], rfl⟩⟩

/-! ## Indexing from the bottom -/

/-- The walk from the bottom towards an index `j` steps ahead stops at the `j`-th of the
entries walked over, or runs into the end of the list. -/
theorem sd_stack_walk_spec (index : Int) (nexts : List sd_item) (i k : Nat) (ent : sd_item)
    (j : Nat) (hj : index = (i : Int) + (j : Int)) (hb : i + j < 4294967296) :
    sd_stack_walk index i k ent nexts = ((ent :: nexts)[j]?).map (fun e => (k + j, e)) := by
  induction nexts generalizing i k ent j with
  | nil =>
    unfold sd_stack_walk
    by_cases hi : (i : Int) = index
    · rw [if_pos hi]
      have h0 : j = 0 := by omega
      subst h0; rfl
    · rw [if_neg hi]
      obtain ⟨j1, rfl⟩ : ∃ j1, j = j1 + 1 := ⟨j - 1, by omega⟩
      simp
  | cons n ns ih =>
    unfold sd_stack_walk
    by_cases hi : (i : Int) = index
    · rw [if_pos hi]
      have h0 : j = 0 := by omega
      subst h0; rfl
    · rw [if_neg hi]
      obtain ⟨j1, rfl⟩ : ∃ j1, j = j1 + 1 := ⟨j - 1, by omega⟩
      simp only []
      rw [Nat.mod_eq_of_lt (by omega), ih (i + 1) (k + 1) n j1 (by push_cast; omega) (by omega)]
      have hk : k + 1 + j1 = k + (j1 + 1) := by omega
      rw [hk, List.getElem?_cons_succ]

/-- The walk towards an index below the counter runs into the end of the list. -/
theorem sd_stack_walk_below (index : Int) (nexts : List sd_item) (i k : Nat) (ent : sd_item)
    (hlt : index < (i : Int)) (hb : i + nexts.length < 4294967296) :
    sd_stack_walk index i k ent nexts = none := by
  induction nexts generalizing i k ent with
  | nil =>
    unfold sd_stack_walk
    rw [if_neg (by omega)]
  | cons n ns ih =>
    unfold sd_stack_walk
    rw [if_neg (by omega)]
    simp only []
    have hl : (n :: ns).length = ns.length + 1 := rfl
    rw [Nat.mod_eq_of_lt (by omega)]
    exact ih (i + 1) (k + 1) n (by push_cast; omega) (by omega)

/-- The function `sd_stack_duplicate_at` with an index inside the stack. -/
theorem sd_stack_duplicate_at_in (stack : sd_stack) (index : Int) (ent : sd_item)
    (hok : sd_stack_ok stack) (h0 : 0 ≤ index)
    (hget : stack.ents.reverse[index.toNat]? = some ent) :
    sd_stack_duplicate_at stack index = some (sd_stack_push stack ent.t ent.v) := by
  have hlt : index.toNat < stack.ents.length := by
    have := (List.getElem?_eq_some.mp hget).1
    rw [List.length_reverse] at this
    exact this
  unfold sd_stack_duplicate_at
  rw [if_neg (by rw [hok.1]; omega)]
  cases hrev : stack.ents.reverse with
  | nil => rw [hrev] at hget; simp at hget
  | cons bottom nexts =>
    simp only []
    rw [sd_stack_walk_spec index nexts 0 0 bottom index.toNat (by omega)
      (by have := hok.2; omega), ← hrev, hget]
    rfl

/-- The function `sd_stack_duplicate_at` on a non-empty stack with an index outside it. -/
theorem sd_stack_duplicate_at_out (stack : sd_stack) (index : Int)
    (hok : sd_stack_ok stack) (hne : stack.ents ≠ [])
    (hout : index < 0 ∨ (stack.ents.length : Int) ≤ index) :
    sd_stack_duplicate_at stack index = some (sd_status.STAT_ERRSTATE, stack) := by
  unfold sd_stack_duplicate_at
  by_cases hgt : index > (stack.size : Int)
  · rw [if_pos hgt]
  · rw [if_neg hgt]
    cases hrev : stack.ents.reverse with
    | nil => exact absurd (List.reverse_eq_nil_iff.mp hrev) hne
    | cons bottom nexts =>
      simp only []
      have hlen : stack.ents.length = nexts.length + 1 := by
        rw [← List.length_reverse, hrev]; rfl
      have hs := hok.1
      have hb := hok.2
      by_cases hneg : index < 0
      · rw [sd_stack_walk_below index nexts 0 0 bottom (by omega) (by omega)]
      · have hidx : index = (stack.ents.length : Int) := by omega
        rw [sd_stack_walk_spec index nexts 0 0 bottom stack.ents.length
          (by rw [hidx]; push_cast; omega) (by omega)]
        have hnone : (bottom :: nexts)[stack.ents.length]? = none := by
          rw [List.getElem?_eq_none_iff]
          rw [hlen]; exact le_of_eq rfl
        rw [hnone]
        rfl

/-- The function `sd_stack_duplicate_at` on an empty stack: `bottom` is `NULL` and is
dereferenced unless the index exceeds the size counter. -/
theorem sd_stack_duplicate_at_empty (stack : sd_stack) (index : Int)
    (hents : stack.ents = []) (hle : index ≤ (stack.size : Int)) :
    sd_stack_duplicate_at stack index = none := by
  unfold sd_stack_duplicate_at
  rw [if_neg (by omega), hents]
  rfl

/-- The case `x` after its pop, in terms of `sd_stack_duplicate_at` on the rest. -/
theorem sd_case_x_pop (f : sd_frame) (i : Int) (rest : List sd_item)
    (hents : f.state.stack.ents = ⟨sd_value_type.VAL_INTEGER, i⟩ :: rest)
    (hok : sd_stack_ok f.state.stack) :
    sd_case_x f =
      match sd_stack_duplicate_at { size := rest.length, ents := rest } i with
      | none => sd_flow.fault
      | some r => SD_TRY r.1 { f with state := { f.state with stack := r.2 } }
          sd_flow.fallthrough := by
  obtain ⟨⟨⟨sz, ents⟩, tbl, cs, res, code, len, ip, reg⟩, stat⟩ := f
  simp only at hents
  subst hents
  have hsz : sz = rest.length + 1 := hok.1
  subst hsz
  unfold sd_case_x
  rw [SD_TRY_POP_ITEM_ok _ _ _ ⟨sd_value_type.VAL_INTEGER, i⟩ rest rfl rfl]
  simp only [uint_dec_succ]

/-- The iteration on `x` with an index inside the remaining stack. -/
theorem sd_x_step_in (f : sd_frame) (i : Int) (rest : List sd_item) (ent : sd_item)
    (hfetch : sd_fetches f 120)
    (hents : f.state.stack.ents = ⟨sd_value_type.VAL_INTEGER, i⟩ :: rest)
    (hok : sd_stack_ok f.state.stack)
    (hip : f.state.instruction_pointer + 1 < 9223372036854775808)
    (h0 : 0 ≤ i) (hget : rest.reverse[i.toNat]? = some ent) :
    sd_run_iter f = sd_flow.cont
      { state := { f.state with
          stack := { size := rest.length + 1, ents := ent :: rest }
          instruction_pointer := f.state.instruction_pointer + 1 }
        stat := sd_status.STAT_OK } := by
  have hip0 := sd_code_at_nonneg hfetch.2
  have hw : wrap64 (f.state.instruction_pointer + 1) = f.state.instruction_pointer + 1 :=
    wrap64_of_isI64 _ ⟨by omega, hip⟩
  have hlen : rest.length + 1 < 4294967296 := by
    have := hok.2; rw [hents] at this; exact this
  have hok2 : sd_stack_ok { size := rest.length, ents := rest } := ⟨rfl, by
    show rest.length < 4294967296
    omega⟩
  have hmod : (rest.length + 1) % 4294967296 = rest.length + 1 := Nat.mod_eq_of_lt hlen
  rw [sd_run_iter_of_fetches f 120 hfetch, sd_run_decode_x, sd_case_x_pop f i rest hents hok,
    sd_stack_duplicate_at_in _ i ent hok2 h0 hget]
  simp only []
  rw [sd_stack_push_ok _ _ _ (by simp only [hmod]; omega), SD_TRY_ok]
  simp only [sd_skip_intswitch, hw, hmod]

/-- The iteration on `x` with an index outside the remaining, non-empty stack. -/
theorem sd_x_step_out (f : sd_frame) (i : Int) (rest : List sd_item)
    (hfetch : sd_fetches f 120)
    (hents : f.state.stack.ents = ⟨sd_value_type.VAL_INTEGER, i⟩ :: rest)
    (hok : sd_stack_ok f.state.stack)
    (hne : rest ≠ []) (hout : i < 0 ∨ (rest.length : Int) ≤ i) :
    sd_run_iter f = sd_flow.brk
      { state := { f.state with stack := { size := rest.length, ents := rest } }
        stat := sd_status.STAT_ERRSTATE } := by
  have hlen : rest.length + 1 < 4294967296 := by
    have := hok.2; rw [hents] at this; exact this
  have hok2 : sd_stack_ok { size := rest.length, ents := rest } := ⟨rfl, by
    show rest.length < 4294967296
    omega⟩
  rw [sd_run_iter_of_fetches f 120 hfetch, sd_run_decode_x, sd_case_x_pop f i rest hents hok,
    sd_stack_duplicate_at_out _ i hok2 hne hout]
  rfl

/-- The iteration on `x` when nothing remains under the index. -/
theorem sd_x_step_empty (f : sd_frame) (i : Int)
    (hfetch : sd_fetches f 120)
    (hents : f.state.stack.ents = [⟨sd_value_type.VAL_INTEGER, i⟩])
    (hok : sd_stack_ok f.state.stack) :
    (i ≤ 0 → sd_run_iter f = sd_flow.fault) ∧
    (0 < i → sd_run_iter f = sd_flow.brk
      { state := { f.state with stack := { size := 0, ents := [] } }
        stat := sd_status.STAT_ERRSTATE }) := by
  rw [sd_run_iter_of_fetches f 120 hfetch, sd_run_decode_x, sd_case_x_pop f i [] hents hok]
  constructor
  · intro hi
    rw [show ([] : List sd_item).length = 0 from rfl,
      sd_stack_duplicate_at_empty _ i rfl (by simpa using hi)]
    rfl
  · intro hi
    unfold sd_stack_duplicate_at
    rw [if_pos (by simpa using hi)]
    rfl

/-- C13 (defect): the iteration on `x` with INTEGER `i` on top of the entries `rest` of a
consistent stack.  With `0 ≤ i` and `ent` the entry at index `i` from the bottom of
`rest`, it pops `i` and links a copy of `ent`.  With `i` out of range it leaves the loop
with STAT_ERRSTATE, provided `rest` is not empty or `i` is positive.  With `rest` empty
and `i ≤ 0` it dereferences the `NULL` bottom pointer: the run faults instead of
reporting STAT_ERRSTATE. -/
theorem sd_index_step (f : sd_frame) (i : Int) (rest : List sd_item)
    (hfetch : sd_fetches f 120)
    (hents : f.state.stack.ents = ⟨sd_value_type.VAL_INTEGER, i⟩ :: rest)
    (hok : sd_stack_ok f.state.stack)
    (hip : f.state.instruction_pointer + 1 < 9223372036854775808) :
    (∀ ent : sd_item, 0 ≤ i → rest.reverse[i.toNat]? = some ent →
      sd_run_iter f = sd_flow.cont
        { state := { f.state with
            stack := { size := rest.length + 1, ents := ent :: rest }
            instruction_pointer := f.state.instruction_pointer + 1 }
          stat := sd_status.STAT_OK }) ∧
    ((i < 0 ∨ (rest.length : Int) ≤ i) → (rest ≠ [] ∨ 0 < i) →
      sd_run_iter f = sd_flow.brk
        { state := { f.state with stack := { size := rest.length, ents := rest } }
          stat := sd_status.STAT_ERRSTATE }) ∧
    (rest = [] → i ≤ 0 → sd_run_iter f = sd_flow.fault) := by
  refine ⟨fun ent h0 hget => sd_x_step_in f i rest ent hfetch hents hok hip h0 hget,
    fun hout hsome => ?_, fun hnil hi => ?_⟩
  · by_cases hne : rest = []
    · subst hne
      rcases hsome with h | h
      · exact absurd rfl h
      · exact (sd_x_step_empty f i hfetch hents hok).2 h
    · exact sd_x_step_out f i rest hfetch hents hok hne hout
  · subst hnil
    exact (sd_x_step_empty f i hfetch hents hok).1 hi

theorem sd_index_step_witness :
    sd_run [48, 120] 2 sd_status.STAT_NOOP (fun _ => 0) 2 = sd_flow.fault ∧
    sd_run_iter (sd_frame_after 1 [48, 120]) = sd_flow.fault ∧
    sd_operands (sd_run_iter (sd_frame_after 3 [55, 56, 48, 120])) =
      some [⟨sd_value_type.VAL_INTEGER, 7⟩, ⟨sd_value_type.VAL_INTEGER, 8⟩,
        ⟨sd_value_type.VAL_INTEGER, 7⟩] ∧
    sd_status_of (sd_run_iter (sd_frame_after 3 [55, 56, 50, 120])) =
      some sd_status.STAT_ERRSTATE :=
  ⟨rfl,
   (sd_index_step (sd_frame_after 1 [48, 120]) 0 [] (by decide) rfl (by decide)
      (by decide)).2.2 rfl (by decide),
   congrArg sd_operands
     ((sd_index_step (sd_frame_after 3 [55, 56, 48, 120]) 0
        [⟨sd_value_type.VAL_INTEGER, 8⟩, ⟨sd_value_type.VAL_INTEGER, 7⟩]
        (by decide) rfl (by decide) (by decide)).1 ⟨sd_value_type.VAL_INTEGER, 7⟩
        (by decide) rfl),
   congrArg sd_status_of
     ((sd_index_step (sd_frame_after 3 [55, 56, 50, 120]) 2
        [⟨sd_value_type.VAL_INTEGER, 8⟩, ⟨sd_value_type.VAL_INTEGER, 7⟩]
        (by decide) rfl (by decide) (by decide)).2.1 (Or.inr (by decide))
        (Or.inl (by decide)))⟩

/-- The iteration on `z` pushes the size counter. -/
theorem sd_z_step (f : sd_frame) (hfetch : sd_fetches f 122)
    (hroom : (f.state.stack.size + 1) % 4294967296 ≠ 0)
    (hip : f.state.instruction_pointer + 1 < 9223372036854775808) :
    sd_run_iter f = sd_flow.cont
      { state := { f.state with
          stack := { size := (f.state.stack.size + 1) % 4294967296,
                     ents := ⟨sd_value_type.VAL_INTEGER, (f.state.stack.size : Int)⟩ ::
                       f.state.stack.ents }
          instruction_pointer := f.state.instruction_pointer + 1 }
        stat := sd_status.STAT_OK } := by
  have hip0 := sd_code_at_nonneg hfetch.2
  have hw : wrap64 (f.state.instruction_pointer + 1) = f.state.instruction_pointer + 1 :=
    wrap64_of_isI64 _ ⟨by omega, hip⟩
  rw [sd_run_iter_of_fetches f 122 hfetch, sd_run_decode_z]
  unfold sd_case_z
  simp only []
  rw [SD_TRY_PUSH_ok _ _ _ _ hroom]
  simp only [sd_skip_intswitch, hw]

/-- Counterexample to C16 as stated: in `7zx` the `x` receives 1, the length pushed by
`z`, which is one past the only index of the remaining stack; the run ends with
STAT_ERRSTATE and the stack holds the single 7, not two of them. -/
theorem sd_length_index_fails :
    sd_status_of (sd_run_steps 3 (sd_run_start [55, 122, 120] 3 sd_status.STAT_NOOP
      (fun _ => 0))) = some sd_status.STAT_ERRSTATE ∧
    sd_operands (sd_run_steps 3 (sd_run_start [55, 122, 120] 3 sd_status.STAT_NOOP
      (fun _ => 0))) = some [⟨sd_value_type.VAL_INTEGER, 7⟩] ∧
    sd_operands (sd_run_steps 3 (sd_run_start [55, 122, 120] 3 sd_status.STAT_NOOP
      (fun _ => 0))) ≠
      some [⟨sd_value_type.VAL_INTEGER, 7⟩, ⟨sd_value_type.VAL_INTEGER, 7⟩] := by
  decide

/-- C16 (as amended): on a consistent, non-empty operand stack `top :: rest`, executing
`z` and then `x` leaves the loop at the `x` with STAT_ERRSTATE, the stack being exactly
what it was before the `z`: the length `n` pushed by `z` is one past the index of the top.
The top is duplicated by `x` when its argument is `n - 1`: on the entries
`(n - 1) :: top :: rest` the iteration on `x` leaves `top :: top :: rest`. -/
theorem sd_length_index_step (f : sd_frame) (top : sd_item) (rest : List sd_item)
    (hz : sd_fetches f 122)
    (hx : sd_fetches ⟨{ f.state with instruction_pointer := f.state.instruction_pointer + 1 },
      f.stat⟩ 120)
    (hents : f.state.stack.ents = top :: rest)
    (hok : sd_stack_ok f.state.stack)
    (hroom : rest.length + 2 < 4294967296)
    (hip : f.state.instruction_pointer + 2 < 9223372036854775808) :
    sd_run_steps 2 f = sd_flow.brk
      { state := { f.state with instruction_pointer := f.state.instruction_pointer + 1 }
        stat := sd_status.STAT_ERRSTATE } ∧
    (∀ g : sd_frame, sd_fetches g 120 →
      g.state.stack = { size := rest.length + 2,
                        ents := ⟨sd_value_type.VAL_INTEGER, (rest.length : Int)⟩ ::
                          top :: rest } →
      g.state.instruction_pointer + 1 < 9223372036854775808 →
      sd_run_iter g = sd_flow.cont
        { state := { g.state with
            stack := { size := rest.length + 2, ents := top :: top :: rest }
            instruction_pointer := g.state.instruction_pointer + 1 }
          stat := sd_status.STAT_OK }) := by
  have hip0 := sd_code_at_nonneg hz.2
  have hlen : f.state.stack.ents.length = rest.length + 1 := by rw [hents]; rfl
  have hsize : f.state.stack.size = rest.length + 1 := by rw [hok.1, hlen]
  have hmod : (f.state.stack.size + 1) % 4294967296 = rest.length + 2 := by
    rw [hsize]; omega
  constructor
  · have h1 := sd_z_step f hz (by rw [hmod]; omega) (by omega)
    rw [hmod, hsize, hents] at h1
    have hx2 := sd_fetches_next f 120
      { f.state with
        stack := { size := rest.length + 2,
                   ents := ⟨sd_value_type.VAL_INTEGER, ((rest.length + 1 : Nat) : Int)⟩ ::
                     top :: rest }
        instruction_pointer := f.state.instruction_pointer + 1 } sd_status.STAT_OK
      hx rfl rfl rfl
    have h2 := sd_x_step_out _ ((rest.length + 1 : Nat) : Int) (top :: rest) hx2 rfl
      ⟨rfl, by show rest.length + 2 < 4294967296; exact hroom⟩
      (List.cons_ne_nil _ _) (Or.inr (by
        show (((top :: rest).length : Nat) : Int) ≤ _
        rw [List.length_cons]))
    rw [sd_run_steps_cont 1 f _ h1]
    simp only [sd_run_steps, h2]
    obtain ⟨⟨⟨sz, ents⟩, tbl, cs, res, code, len, ip, reg⟩, stat⟩ := f
    simp only at hents hsize
    subst hents
    subst hsize
    rfl
  · intro g hg hst hgip
    have hget : (top :: rest).reverse[((rest.length : Nat) : Int).toNat]? = some top := by
      rw [Int.toNat_ofNat, List.reverse_cons,
        List.getElem?_append_right (by rw [List.length_reverse])]
      simp
    have hgents : g.state.stack.ents =
        ⟨sd_value_type.VAL_INTEGER, (rest.length : Int)⟩ :: top :: rest := by rw [hst]
    have hgok : sd_stack_ok g.state.stack := by
      rw [hst]
      exact ⟨rfl, by show rest.length + 2 < 4294967296; exact hroom⟩
    exact sd_x_step_in g (rest.length : Int) (top :: rest) top hg hgents hgok hgip
      (Int.ofNat_nonneg _) hget

theorem sd_length_index_step_witness :
    sd_status_of (sd_run_steps 2 (sd_frame_after 1 [55, 122, 120])) =
      some sd_status.STAT_ERRSTATE ∧
    sd_operands (sd_run_steps 2 (sd_frame_after 1 [55, 122, 120])) =
      some [⟨sd_value_type.VAL_INTEGER, 7⟩] ∧
    sd_operands (sd_run_iter (sd_frame_after 4 [55, 122, 49, 115, 120])) =
      some [⟨sd_value_type.VAL_INTEGER, 7⟩, ⟨sd_value_type.VAL_INTEGER, 7⟩] :=
  have h := sd_length_index_step (sd_frame_after 1 [55, 122, 120])
    ⟨sd_value_type.VAL_INTEGER, 7⟩ [] (by decide) (by decide) rfl (by decide) (by decide)
    (by decide)
  ⟨congrArg sd_status_of h.1, congrArg sd_operands h.1,
    congrArg sd_operands
      (h.2 (sd_frame_after 4 [55, 122, 49, 115, 120]) (by decide) rfl (by decide))⟩

/-! ## The block skipper -/

theorem sd_drop_cons (l : List Nat) (n b : Nat) (t : List Nat) (h : l.drop n = b :: t) :
    l[n]? = some b ∧ l.drop (n + 1) = t := by
  constructor
  · have h1 : (l.drop n)[0]? = l[n + 0]? := List.getElem?_drop l n 0
    rw [h] at h1
    simpa using h1.symm
  · have h2 : l.drop (n + 1) = (l.drop n).drop 1 := by rw [List.drop_drop]
    rw [h2, h]
    rfl

theorem sd_balance_of_cons (b : Nat) (bs : List Nat) :
    sd_balance_of (b :: bs) = sd_brace_delta b + sd_balance_of bs := by
  unfold sd_balance_of
  simp

theorem sd_code_at_nat (code : List Nat) (n : Nat) : sd_code_at code (n : Int) = code[n]? := by
  unfold sd_code_at
  rw [if_neg (by omega), Int.toNat_ofNat]

theorem sd_wrap64_nat (n : Nat) (h : n < 9223372036854775808) : wrap64 (n : Int) = (n : Int) :=
  wrap64_of_isI64 _ ⟨by omega, by omega⟩

theorem sd_toU64_nat (n : Nat) (h : n < 9223372036854775808) : toU64 (n : Int) = n := by
  unfold toU64; omega

/-- The loop of the block skipper over the bytes `bs` that follow the pointer, when the
depth stays positive on every proper prefix of `bs` and reaches 0 at its end: it returns
OK resting on the last byte of `bs`. -/
theorem sd_run_skip_loop_scan (bs : List Nat) (fuel level : Nat) (s : sd_vm_state) (r : Nat)
    (tail : List Nat)
    (hr : s.instruction_pointer = (r : Int))
    (hbs : s.code.drop (r + 1) = bs ++ tail)
    (hend : r + bs.length ≤ s.code_len)
    (hlen : s.code_len < 9223372036854775808)
    (hfuel : bs.length + 1 ≤ fuel)
    (hpos : ∀ k : Nat, k < bs.length → (level : Int) + sd_balance_of (bs.take k) > 0)
    (hzero : (level : Int) + sd_balance_of bs = 0) :
    sd_run_skip_loop fuel level s =
      sd_skip.done sd_status.STAT_OK
        { s with instruction_pointer := ((r + bs.length : Nat) : Int) } := by
  induction bs generalizing fuel level s r with
  | nil =>
    obtain ⟨n, rfl⟩ : ∃ n, fuel = n + 1 := ⟨fuel - 1, by have := hfuel; simp at this; omega⟩
    have hl : level = 0 := by
      have : sd_balance_of [] = 0 := rfl
      rw [this] at hzero; omega
    subst hl
    unfold sd_run_skip_loop
    rw [if_neg (by omega)]
    obtain ⟨stk, tbl, cs, res, code, len, ip, reg⟩ := s
    simp only at hr
    subst hr
    rfl
  | cons b bs ih =>
    obtain ⟨n, rfl⟩ : ∃ n, fuel = n + 1 := ⟨fuel - 1, by
      have := hfuel; simp only [List.length_cons] at this; omega⟩
    have hlength : (b :: bs).length = bs.length + 1 := rfl
    rw [hlength] at hend hfuel
    have hl : level > 0 := by
      have := hpos 0 (by rw [hlength]; omega)
      have h0 : sd_balance_of ((b :: bs).take 0) = 0 := rfl
      rw [h0] at this; omega
    obtain ⟨hb, hdrop⟩ := sd_drop_cons s.code (r + 1) b (bs ++ tail) hbs
    have hw : wrap64 (s.instruction_pointer + 1) = ((r + 1 : Nat) : Int) := by
      rw [hr]
      have := sd_wrap64_nat (r + 1) (by omega)
      push_cast at this ⊢
      exact this
    have hg : ¬ (toU64 ((r + 1 : Nat) : Int) > s.code_len) := by
      rw [sd_toU64_nat (r + 1) (by omega)]; omega
    have hfinal : ((r + 1 + bs.length : Nat) : Int) = ((r + (bs.length + 1) : Nat) : Int) := by
      push_cast; ring
    have hstep : ∀ level1 : Nat, (level1 : Int) = (level : Int) + sd_brace_delta b →
        sd_run_skip_loop n level1 { s with instruction_pointer := ((r + 1 : Nat) : Int) } =
          sd_skip.done sd_status.STAT_OK
            { s with instruction_pointer := ((r + (bs.length + 1) : Nat) : Int) } := by
      intro level1 hl1
      have h := ih n level1 { s with instruction_pointer := ((r + 1 : Nat) : Int) } (r + 1)
        rfl hdrop (by show r + 1 + bs.length ≤ s.code_len; omega) hlen (by omega)
        (fun k hk => by
          have := hpos (k + 1) (by rw [hlength]; omega)
          rw [List.take_succ_cons, sd_balance_of_cons] at this
          rw [hl1]; omega)
        (by rw [sd_balance_of_cons] at hzero; rw [hl1]; omega)
      rw [h, hfinal]
    unfold sd_run_skip_loop
    rw [if_pos hl]
    simp only [hw]
    rw [if_neg hg, sd_code_at_nat, hb]
    simp only []
    by_cases h123 : b = 123
    · rw [if_pos h123]
      exact hstep (level + 1) (by unfold sd_brace_delta; rw [if_pos h123]; push_cast; ring)
    · rw [if_neg h123]
      by_cases h125 : b = 125
      · rw [if_pos h125]
        exact hstep (level - 1) (by
          unfold sd_brace_delta; rw [if_neg h123, if_pos h125]; omega)
      · rw [if_neg h125]
        exact hstep level (by unfold sd_brace_delta; rw [if_neg h123, if_neg h125]; omega)

/-- The loop of the block skipper over the bytes `bs` that remain up to the byte at
`code_len`, that one included, when the depth stays positive throughout: it returns HALT
with the pointer one past `code_len`. -/
theorem sd_run_skip_loop_halt (bs : List Nat) (fuel level : Nat) (s : sd_vm_state) (r : Nat)
    (tail : List Nat)
    (hr : s.instruction_pointer = (r : Int))
    (hbs : s.code.drop (r + 1) = bs ++ tail)
    (hend : r + bs.length = s.code_len)
    (hlen : s.code_len + 1 < 9223372036854775808)
    (hfuel : bs.length + 1 ≤ fuel)
    (hpos : ∀ k : Nat, k ≤ bs.length → (level : Int) + sd_balance_of (bs.take k) > 0) :
    sd_run_skip_loop fuel level s =
      sd_skip.done sd_status.STAT_HALT
        { s with instruction_pointer := ((s.code_len + 1 : Nat) : Int) } := by
  induction bs generalizing fuel level s r with
  | nil =>
    obtain ⟨n, rfl⟩ : ∃ n, fuel = n + 1 := ⟨fuel - 1, by have := hfuel; simp at this; omega⟩
    have hl : level > 0 := by
      have := hpos 0 (le_refl _)
      have h0 : sd_balance_of (([] : List Nat).take 0) = 0 := rfl
      rw [h0] at this; omega
    have hrl : r = s.code_len := by simpa using hend
    have hw : wrap64 (s.instruction_pointer + 1) = ((s.code_len + 1 : Nat) : Int) := by
      rw [hr, hrl]
      have := sd_wrap64_nat (s.code_len + 1) (by omega)
      push_cast at this ⊢
      exact this
    have hg : toU64 ((s.code_len + 1 : Nat) : Int) > s.code_len := by
      rw [sd_toU64_nat (s.code_len + 1) (by omega)]; omega
    unfold sd_run_skip_loop
    rw [if_pos hl]
    simp only [hw]
    rw [if_pos hg]
  | cons b bs ih =>
    obtain ⟨n, rfl⟩ : ∃ n, fuel = n + 1 := ⟨fuel - 1, by
      have := hfuel; simp only [List.length_cons] at this; omega⟩
    have hlength : (b :: bs).length = bs.length + 1 := rfl
    rw [hlength] at hend hfuel
    have hl : level > 0 := by
      have := hpos 0 (by omega)
      have h0 : sd_balance_of ((b :: bs).take 0) = 0 := rfl
      rw [h0] at this; omega
    obtain ⟨hb, hdrop⟩ := sd_drop_cons s.code (r + 1) b (bs ++ tail) hbs
    have hw : wrap64 (s.instruction_pointer + 1) = ((r + 1 : Nat) : Int) := by
      rw [hr]
      have := sd_wrap64_nat (r + 1) (by omega)
      push_cast at this ⊢
      exact this
    have hg : ¬ (toU64 ((r + 1 : Nat) : Int) > s.code_len) := by
      rw [sd_toU64_nat (r + 1) (by omega)]; omega
    have hstep : ∀ level1 : Nat, (level1 : Int) = (level : Int) + sd_brace_delta b →
        sd_run_skip_loop n level1 { s with instruction_pointer := ((r + 1 : Nat) : Int) } =
          sd_skip.done sd_status.STAT_HALT
            { s with instruction_pointer := ((s.code_len + 1 : Nat) : Int) } := by
      intro level1 hl1
      exact ih n level1 { s with instruction_pointer := ((r + 1 : Nat) : Int) } (r + 1)
        rfl hdrop (by show r + 1 + bs.length = s.code_len; omega) hlen (by omega)
        (fun k hk => by
          have := hpos (k + 1) (by rw [hlength]; omega)
          rw [List.take_succ_cons, sd_balance_of_cons] at this
          rw [hl1]; omega)
    unfold sd_run_skip_loop
    rw [if_pos hl]
    simp only [hw]
    rw [if_neg hg, sd_code_at_nat, hb]
    simp only []
    by_cases h123 : b = 123
    · rw [if_pos h123]
      exact hstep (level + 1) (by unfold sd_brace_delta; rw [if_pos h123]; push_cast; ring)
    · rw [if_neg h123]
      by_cases h125 : b = 125
      · rw [if_pos h125]
        exact hstep (level - 1) (by
          unfold sd_brace_delta; rw [if_neg h123, if_pos h125]; omega)
      · rw [if_neg h125]
        exact hstep level (by unfold sd_brace_delta; rw [if_neg h123, if_neg h125]; omega)

theorem sd_balance_open (code : List Nat) (p r : Nat) (hopen : code[p]? = some 123)
    (hr : p ≤ r) :
    sd_balance code p r = 1 + sd_balance_of ((code.drop (p + 1)).take (r - p)) := by
  have hp : p < code.length := (List.getElem?_eq_some.mp hopen).1
  have hget : code[p] = 123 := (List.getElem?_eq_some.mp hopen).2
  have hdrop : code.drop p = 123 :: code.drop (p + 1) := by
    rw [List.drop_eq_getElem_cons hp, hget]
  have hk : r + 1 - p = (r - p) + 1 := by omega
  unfold sd_balance
  rw [hdrop, hk, List.take_succ_cons, sd_balance_of_cons]
  rfl

theorem sd_brace_delta_ge (b : Nat) : -1 ≤ sd_brace_delta b := by
  unfold sd_brace_delta
  split_ifs <;> omega

theorem sd_balance_of_take_succ (bs : List Nat) (k : Nat) (hk : k < bs.length) :
    sd_balance_of (bs.take (k + 1)) = sd_balance_of (bs.take k) + sd_brace_delta bs[k] := by
  induction bs generalizing k with
  | nil => simp at hk
  | cons b bs ih =>
    cases k with
    | zero =>
      simp only [List.take_succ_cons, List.take_zero, sd_balance_of_cons]
      have h0 : sd_balance_of [] = 0 := rfl
      rw [h0]
      simp
    | succ k =>
      have hk2 : k < bs.length := by simpa using hk
      rw [List.take_succ_cons, List.take_succ_cons, sd_balance_of_cons, sd_balance_of_cons,
        ih k hk2]
      simp only [List.getElem_cons_succ]
      ring

/-- A running balance that starts positive and is never 0 stays positive. -/
theorem sd_balance_positive (bs : List Nat) (m : Nat) (hm : m ≤ bs.length)
    (hne : ∀ k : Nat, k ≤ m → (1 : Int) + sd_balance_of (bs.take k) ≠ 0) :
    ∀ k : Nat, k ≤ m → (1 : Int) + sd_balance_of (bs.take k) > 0 := by
  intro k
  induction k with
  | zero =>
    intro _
    have h0 : sd_balance_of (bs.take 0) = 0 := rfl
    rw [h0]; omega
  | succ k ih =>
    intro hk
    have h1 := ih (by omega)
    have h2 := hne (k + 1) hk
    rw [sd_balance_of_take_succ bs k (by omega)] at h2 ⊢
    have h3 := sd_brace_delta_ge bs[k]
    omega

/-- C18 (defect): `sd_run_skip` started on an opening brace at `p`, the memory holding
the byte at `code_len` too.  If `q` with `p < q ≤ code_len` is the least position at
which the balance of `code[p..q]` reaches 0, it returns OK resting on `q`; if the balance
is not 0 at any position up to `code_len`, that one included, it returns HALT.  The
bound is `code_len`, not `code_len - 1`: a closing brace in the byte one past the
program is taken as the match, where HALT was due. -/
theorem sd_skip_nesting (s : sd_vm_state) (p : Nat)
    (hp : s.instruction_pointer = (p : Int))
    (hopen : s.code[p]? = some 123)
    (hple : p ≤ s.code_len)
    (hmem : s.code_len < s.code.length)
    (hlen : s.code_len + 1 < 9223372036854775808) :
    (∀ q : Nat, p < q → q ≤ s.code_len → sd_balance s.code p q = 0 →
      (∀ r : Nat, p < r → r < q → sd_balance s.code p r ≠ 0) →
      sd_run_skip s = sd_skip.done sd_status.STAT_OK
        { s with instruction_pointer := (q : Int) }) ∧
    ((∀ r : Nat, p < r → r ≤ s.code_len → sd_balance s.code p r ≠ 0) →
      sd_run_skip s = sd_skip.done sd_status.STAT_HALT
        { s with instruction_pointer := ((s.code_len + 1 : Nat) : Int) }) := by
  have hbal : ∀ (n k : Nat), k ≤ n → p + n ≤ s.code_len →
      (1 : Int) + sd_balance_of (((s.code.drop (p + 1)).take n).take k) =
        sd_balance s.code p (p + k) := by
    intro n k hk _
    rw [sd_balance_open s.code p (p + k) hopen (by omega), List.take_take,
      Nat.min_eq_left hk]
    have : p + k - p = k := by omega
    rw [this]
  have hlenb : ∀ n : Nat, p + n ≤ s.code_len →
      ((s.code.drop (p + 1)).take n).length = n := by
    intro n hn
    rw [List.length_take, List.length_drop]
    omega
  have hsplit : ∀ n : Nat, s.code.drop (p + 1) =
      (s.code.drop (p + 1)).take n ++ (s.code.drop (p + 1)).drop n :=
    fun n => (List.take_append_drop n _).symm
  have hnz : ∀ (n k : Nat), k ≤ n → p + n ≤ s.code_len →
      (∀ r : Nat, p < r → r ≤ p + k → sd_balance s.code p r ≠ 0) →
      ∀ j : Nat, j ≤ k →
        (1 : Int) + sd_balance_of (((s.code.drop (p + 1)).take n).take j) > 0 := by
    intro n k hk hn hr
    refine sd_balance_positive _ k (by rw [hlenb n hn]; exact hk) (fun j hj => ?_)
    rw [hbal n j (by omega) hn]
    by_cases hj0 : j = 0
    · subst hj0
      rw [sd_balance_open s.code p (p + 0) hopen (by omega)]
      have h0 : sd_balance_of ((s.code.drop (p + 1)).take (p + 0 - p)) = 0 := by
        have : p + 0 - p = 0 := by omega
        rw [this]; rfl
      rw [h0]; omega
    · exact hr (p + j) (by omega) (by omega)
  constructor
  · intro q hpq hq hzero hleast
    obtain ⟨n, rfl⟩ : ∃ n, q = p + n := ⟨q - p, by omega⟩
    have hl := hlenb n hq
    have h := sd_run_skip_loop_scan ((s.code.drop (p + 1)).take n) (s.code_len + 2) 1 s p
      ((s.code.drop (p + 1)).drop n) hp (hsplit n) (by rw [hl]; exact hq) (by omega)
      (by rw [hl]; omega)
      (fun k hk => by
        rw [hl] at hk
        have := hnz n k (by omega) hq
          (fun r h1 h2 => hleast r h1 (by omega)) k (le_refl _)
        exact_mod_cast this)
      (by
        have := hbal n n (le_refl _) hq
        rw [List.take_take, Nat.min_self] at this
        rw [hzero] at this
        exact_mod_cast this)
    unfold sd_run_skip
    rw [h, hl]
  · intro hall
    obtain ⟨n, hn⟩ : ∃ n, s.code_len = p + n := ⟨s.code_len - p, by omega⟩
    have hl := hlenb n (by omega)
    have h := sd_run_skip_loop_halt ((s.code.drop (p + 1)).take n) (s.code_len + 2) 1 s p
      ((s.code.drop (p + 1)).drop n) hp (hsplit n) (by rw [hl]; omega) hlen
      (by rw [hl]; omega)
      (fun k hk => by
        rw [hl] at hk
        have := hnz n k hk (by omega)
          (fun r h1 h2 => hall r h1 (by omega)) k (le_refl _)
        exact_mod_cast this)
    unfold sd_run_skip
    exact h

theorem sd_skip_nesting_witness :
    sd_balance [123, 125] 0 1 = 0 ∧
    sd_run_skip { sd_vm_init (fun _ => 0) with code := [123, 125], code_len := 1 } =
      sd_skip.done sd_status.STAT_OK
        { sd_vm_init (fun _ => 0) with
          code := [123, 125], code_len := 1, instruction_pointer := 1 } ∧
    sd_run_skip { sd_vm_init (fun _ => 0) with
        code := [123, 123, 125, 53, 125, 114], code_len := 5 } =
      sd_skip.done sd_status.STAT_OK
        { sd_vm_init (fun _ => 0) with
          code := [123, 123, 125, 53, 125, 114], code_len := 5, instruction_pointer := 4 } ∧
    sd_run_skip { sd_vm_init (fun _ => 0) with code := [123, 53, 114], code_len := 2 } =
      sd_skip.done sd_status.STAT_HALT
        { sd_vm_init (fun _ => 0) with
          code := [123, 53, 114], code_len := 2, instruction_pointer := 3 } :=
  ⟨by decide,
   (sd_skip_nesting { sd_vm_init (fun _ => 0) with code := [123, 125], code_len := 1 } 0
      rfl rfl (by decide) (by decide) (by decide)).1 1 (by decide) (by decide) (by decide)
      (fun r h1 h2 => absurd h2 (by omega)),
   (sd_skip_nesting { sd_vm_init (fun _ => 0) with
        code := [123, 123, 125, 53, 125, 114], code_len := 5 } 0
      rfl rfl (by decide) (by decide) (by decide)).1 4 (by decide) (by decide) (by decide)
      (fun r h1 h2 => by interval_cases r <;> decide),
   (sd_skip_nesting { sd_vm_init (fun _ => 0) with code := [123, 53, 114], code_len := 2 } 0
      rfl rfl (by decide) (by decide) (by decide)).2
      (fun r h1 h2 => by
        have h3 : r ≤ 2 := h2
        interval_cases r <;> decide)⟩

/-! ## The bound of the fetch -/

/-- C21 (defect): the bound check of the loop, for a pointer that is an `int64_t` and a
program shorter than 2^63 bytes.  A pointer that is negative or greater than `code_len`
leaves the loop without a fetch.  Every pointer in `[0, code_len]` is fetched from,
`code_len` itself included: when the memory holds exactly the program, the iteration at
`code_len` reads outside it, and so does the block skipper started on the last byte.
The check admits one index too many. -/
theorem sd_fetch_bound (f : sd_frame)
    (hlen : f.state.code_len < 9223372036854775808)
    (hi : isI64 f.state.instruction_pointer) :
    ((f.state.instruction_pointer < 0 ∨ (f.state.code_len : Int) < f.state.instruction_pointer) →
      sd_run_iter f = sd_flow.brk f) ∧
    ((0 ≤ f.state.instruction_pointer ∧
        f.state.instruction_pointer ≤ (f.state.code_len : Int)) →
      sd_run_iter f =
        match sd_code_at f.state.code f.state.instruction_pointer with
        | none => sd_flow.fault
        | some instruction => sd_skip_intswitch (sd_run_decode instruction f)) ∧
    (f.state.instruction_pointer = (f.state.code_len : Int) →
      f.state.code.length = f.state.code_len → sd_run_iter f = sd_flow.fault) ∧
    (f.state.instruction_pointer + 1 = (f.state.code_len : Int) →
      f.state.code.length = f.state.code_len → sd_run_skip f.state = sd_skip.fault) := by
  have hin : (0 ≤ f.state.instruction_pointer ∧
      f.state.instruction_pointer ≤ (f.state.code_len : Int)) →
      ¬ (toU64 f.state.instruction_pointer > f.state.code_len) := by
    intro h; unfold toU64; omega
  have h2 : (0 ≤ f.state.instruction_pointer ∧
      f.state.instruction_pointer ≤ (f.state.code_len : Int)) →
      sd_run_iter f =
        match sd_code_at f.state.code f.state.instruction_pointer with
        | none => sd_flow.fault
        | some instruction => sd_skip_intswitch (sd_run_decode instruction f) := by
    intro h
    unfold sd_run_iter
    rw [if_neg (hin h)]
  refine ⟨fun hout => ?_, h2, fun heq hmem => ?_, fun heq hmem => ?_⟩
  · have hg : toU64 f.state.instruction_pointer > f.state.code_len := by
      unfold isI64 at hi; unfold toU64; omega
    unfold sd_run_iter
    rw [if_pos hg]
  · rw [h2 ⟨by omega, by omega⟩, heq, sd_code_at_nat,
      List.getElem?_eq_none (by omega)]
  · have hw : wrap64 (f.state.instruction_pointer + 1) = (f.state.code_len : Int) := by
      rw [heq]; exact sd_wrap64_nat _ hlen
    have hg : ¬ (toU64 (f.state.code_len : Int) > f.state.code_len) := by
      rw [sd_toU64_nat _ hlen]; omega
    unfold sd_run_skip sd_run_skip_loop
    rw [if_pos (by omega)]
    simp only [hw]
    rw [if_neg hg, sd_code_at_nat, List.getElem?_eq_none (by omega)]

theorem sd_fetch_bound_witness :
    (sd_frame_after 1 [53]).state.instruction_pointer = 1 ∧
    sd_run_iter (sd_frame_after 1 [53]) = sd_flow.fault ∧
    sd_run_skip (sd_frame_at [123] 0 []).state = sd_skip.fault ∧
    sd_run_iter (sd_frame_at [53] 2 []) = sd_flow.brk (sd_frame_at [53] 2 []) ∧
    sd_run_iter (sd_frame_at [53] (-1) []) = sd_flow.brk (sd_frame_at [53] (-1) []) ∧
    sd_run_stdout [53, 114] 1 sd_status.STAT_NOOP (fun _ => 0) 3 =
      some { diag := none, bytes := [5] } :=
  ⟨rfl,
   (sd_fetch_bound (sd_frame_after 1 [53]) (by decide) (by decide)).2.2.1 rfl rfl,
   (sd_fetch_bound (sd_frame_at [123] 0 []) (by decide) (by decide)).2.2.2 rfl rfl,
   (sd_fetch_bound (sd_frame_at [53] 2 []) (by decide) (by decide)).1 (Or.inr (by decide)),
   (sd_fetch_bound (sd_frame_at [53] (-1) []) (by decide) (by decide)).1
     (Or.inl (by decide)),
   by decide⟩

/-! ## The growth of the result buffer in a run -/

/-- One turn of the loop of `5r04sj`: the `r` appends 5, and the four bytes after it
bring the run back to the `r`. -/
theorem sd_append_loop_turn (junk : Nat → Int) (R : sd_result) (hroom : sd_result_room R) :
    sd_run_steps 5 (sd_loop_frame junk R) =
      sd_flow.cont (sd_loop_frame junk (sd_result_after R 5)) := by
  have h1 := sd_append_step (sd_loop_frame junk R) 5 []
    ⟨show ¬ (toU64 1 > 6) by decide, rfl⟩ rfl hroom
    (show (1 : Int) + 1 < 9223372036854775808 by decide)
  rw [sd_run_steps_cont 4 _ _ h1]
  rfl

/-- The buffer after `k` appends takes one more, for `k` below 131072. -/
theorem sd_loop_result_succ (k : Nat) (hk : k < 131072) :
    sd_result_room (sd_loop_result k) ∧
    sd_result_after (sd_loop_result k) 5 = sd_loop_result (k + 1) := by
  have hlen : (sd_loop_result k).len = k := by
    unfold sd_result.len sd_loop_result
    simp only [List.length_replicate]
  have hroom : sd_result_room (sd_loop_result k) := by
    unfold sd_result_room
    rw [hlen]
    by_cases h0 : k = 0
    · subst h0; decide
    · by_cases h256 : k = 256
      · subst h256; decide
      · have hcap : (sd_loop_result k).cap ≠ k := by
          unfold sd_loop_result
          simp only [h0, if_false]
          split_ifs <;> omega
        rw [if_neg (fun e => hcap e.symm)]
        unfold sd_loop_result
        simp [h0]
  refine ⟨hroom, ?_⟩
  obtain ⟨_, hout, hnull, hheap, hcap⟩ := sd_result_append_ok (sd_loop_result k) 5 hroom
  have hcap2 : (sd_result_after (sd_loop_result k) 5).cap = (sd_loop_result (k + 1)).cap := by
    rw [hcap, hlen]
    by_cases h0 : k = 0
    · subst h0; decide
    · by_cases h256 : k = 256
      · subst h256; decide
      · have hne : k ≠ (sd_loop_result k).cap := by
          unfold sd_loop_result
          simp only [h0, if_false]
          split_ifs <;> omega
        rw [if_neg hne]
        unfold sd_loop_result
        simp only [h0, if_false, Nat.succ_ne_zero]
        split_ifs <;> omega
  have hout2 : (sd_result_after (sd_loop_result k) 5).out = (sd_loop_result (k + 1)).out := by
    rw [hout]
    unfold sd_loop_result
    simp only [List.replicate_succ']
  have hnull2 : (sd_result_after (sd_loop_result k) 5).null = (sd_loop_result (k + 1)).null := by
    rw [hnull]
    unfold sd_loop_result
    simp
  have hheap2 : (sd_result_after (sd_loop_result k) 5).heap = (sd_loop_result (k + 1)).heap := by
    rw [hheap]; rfl
  cases hA : sd_result_after (sd_loop_result k) 5 with
  | mk c o n h =>
    cases hB : sd_loop_result (k + 1) with
    | mk c1 o1 n1 h1 =>
      rw [hA, hB] at hcap2 hout2 hnull2 hheap2
      simp only at hcap2 hout2 hnull2 hheap2
      rw [hcap2, hout2, hnull2, hheap2]

/-- After `k` turns of its loop, for `k` up to 131072, the run of `5r04sj` is back at the
`r` with `k` elements appended. -/
theorem sd_append_loop_turns (junk : Nat → Int) (k : Nat) (hk : k ≤ 131072) :
    sd_run_steps (5 * k) (sd_loop_frame junk (sd_loop_result 0)) =
      sd_flow.cont (sd_loop_frame junk (sd_loop_result k)) := by
  induction k with
  | zero => rfl
  | succ k ih =>
    obtain ⟨hroom, hafter⟩ := sd_loop_result_succ k (by omega)
    have h := sd_append_loop_turn junk (sd_loop_result k) hroom
    rw [hafter] at h
    have hsteps : ∀ (n m : Nat) (f f1 : sd_frame), sd_run_steps n f = sd_flow.cont f1 →
        sd_run_steps (n + m) f = sd_run_steps m f1 := by
      intro n
      induction n with
      | zero =>
        intro m f f1 h0
        have h1 : sd_flow.cont f = sd_flow.cont f1 := h0
        cases h1
        rw [Nat.zero_add]
      | succ n ihn =>
        intro m f f1 h0
        cases hi : sd_run_iter f with
        | cont f2 =>
          rw [sd_run_steps_cont n f f2 hi] at h0
          rw [show n + 1 + m = (n + m) + 1 by omega, sd_run_steps_cont (n + m) f f2 hi]
          exact ihn m f2 f1 h0
        | fallthrough f2 => unfold sd_run_steps at h0; rw [hi] at h0; cases h0
        | brk f2 => unfold sd_run_steps at h0; rw [hi] at h0; cases h0
        | fault => unfold sd_run_steps at h0; rw [hi] at h0; cases h0
        | timeout => unfold sd_run_steps at h0; rw [hi] at h0; cases h0
    rw [show 5 * (k + 1) = 5 * k + 5 by ring, hsteps (5 * k) 5 _ _ (ih (by omega))]
    exact h

/-- The loop ends with the iteration that leaves it. -/
theorem sd_run_loop_brk (n : Nat) (f f1 : sd_frame) (h : sd_run_iter f = sd_flow.brk f1) :
    sd_run_loop (n + 1) f = sd_flow.brk f1 := by
  simp only [sd_run_loop, h]


/-- The 131073rd `r` of the run of `5r04sj`: the buffer is full and its growth refused. -/
theorem sd_append_loop_last (junk : Nat → Int) :
    sd_run_iter (sd_loop_frame junk (sd_loop_result 131072)) = sd_flow.brk
      { state := { (sd_loop_frame junk (sd_loop_result 131072)).state with
          result := { sd_loop_result 131072 with cap := 18446744073709551615, null := true } }
        stat := sd_status.STAT_ERRMEM } := by
  have hlen : (sd_loop_result 131072).len = (sd_loop_result 131072).cap := by
    have h1 : (sd_loop_result 131072).len = 131072 := by
      unfold sd_result.len sd_loop_result
      simp only [List.length_replicate]
    rw [h1]; rfl
  have href : ¬ sd_result_granted (sd_loop_result 131072) :=
    sd_result_refused_large _ rfl (by decide)
  have hfetch : sd_fetches (sd_loop_frame junk (sd_loop_result 131072)) 114 :=
    ⟨show ¬ (toU64 1 > 6) by decide, rfl⟩
  rw [sd_run_iter_of_fetches _ 114 hfetch, sd_run_decode_r,
    sd_case_r_refused _ 5 [] rfl hlen href]
  rfl

/-- The loop of the run of `5r04sj` is left at the 131073rd `r` with STAT_ERRMEM. -/
theorem sd_append_loop_run (stat0 : sd_status) (junk : Nat → Int) :
    sd_run sd_prog_append_loop 6 stat0 junk 655362 = sd_flow.brk
      { state := { (sd_loop_frame junk (sd_loop_result 131072)).state with
          result := { sd_loop_result 131072 with cap := 18446744073709551615, null := true } }
        stat := sd_status.STAT_ERRMEM } := by
  have hfirst : sd_run_iter (sd_run_start sd_prog_append_loop 6 stat0 junk) =
      sd_flow.cont (sd_loop_frame junk (sd_loop_result 0)) := rfl
  have hturns := sd_append_loop_turns junk 131072 (le_refl _)
  unfold sd_run
  rw [show (655362 : Nat) = (5 * 131072 + 1) + 1 from rfl,
    sd_run_loop_cont _ _ _ hfirst, sd_run_loop_steps (5 * 131072) 1 _ _ hturns]
  exact sd_run_loop_brk 0 _ _ (sd_append_loop_last junk)

/-- A run that leaves the loop with a lost buffer faults in the flush. -/
theorem sd_run_stdout_lost (source : List Nat) (source_len : Nat) (stat0 : sd_status)
    (junk : Nat → Int) (fuel : Nat) (f : sd_frame)
    (h : sd_run source source_len stat0 junk fuel = sd_flow.brk f)
    (hl : sd_result_lost f.state.result) :
    sd_run_stdout source source_len stat0 junk fuel = none := by
  unfold sd_run_stdout
  rw [h]
  exact if_pos hl

theorem sd_loop_result_out (k : Nat) : (sd_loop_result k).out = List.replicate k 5 := rfl

/-- The run of `5r04sj` from the initial state, on the host of the runs: 131072 elements
are appended, the 131073rd `r` finds the buffer full, the growth to 2^35 elements is
refused, and the loop is left at the `r` with STAT_ERRMEM, the pointer `NULL` and the
element count still 131072; the flush after the loop faults. -/
theorem sd_append_loop_exhausts (stat0 : sd_status) (junk : Nat → Int) :
    sd_run sd_prog_append_loop 6 stat0 junk 655362 = sd_flow.brk
      { state := { (sd_loop_frame junk (sd_loop_result 131072)).state with
          result := { sd_loop_result 131072 with cap := 18446744073709551615, null := true } }
        stat := sd_status.STAT_ERRMEM } ∧
    (sd_loop_result 131072).out = List.replicate 131072 5 ∧
    sd_run_stdout sd_prog_append_loop 6 stat0 junk 655362 = none := by
  have hrun := sd_append_loop_run stat0 junk
  have hne : List.replicate 131072 (5 : Int) ≠ [] := by
    rw [show (131072 : Nat) = 131071 + 1 from rfl, List.replicate_succ]
    exact List.cons_ne_nil _ _
  have hout : ({ sd_loop_result 131072 with
      cap := 18446744073709551615, null := true } : sd_result).out ≠ [] := by
    show (sd_loop_result 131072).out ≠ []
    rw [sd_loop_result_out]
    exact hne
  have hlost : sd_result_lost
      { sd_loop_result 131072 with cap := 18446744073709551615, null := true } :=
    ⟨rfl, hout⟩
  exact ⟨hrun, sd_loop_result_out 131072, sd_run_stdout_lost _ _ _ _ _ _ hrun hlost⟩

end Sd
